import Mathlib

/-!
Shallow embedding of `merge.py` (eagle-brd-merge): a tool that merges several
Eagle XML board files into one document.

Modelling conventions:
* XML elements are modelled by the inductive `Xml`: a tag, an attribute list
  (lxml preserves attribute order; `set` on an existing key keeps its
  position), an ordered child list, and the trailing text (`tail`).  lxml's
  `tail`/text may be `None`; we model `tail` as a `String` ("" for `None`) and
  omit `.text` entirely, since `xml_tree_compare` never inspects `.text` and
  the merge never modifies it.
* Python string comparison is code-point lexicographic; `strLt` implements
  exactly that on `Char` lists.
* Python floats are modelled exactly by `Dec`, decimal fixed-point numbers
  (`num / 10 ^ exp`).  The merge only parses decimal literals, negates, and
  adds offsets; on the decimal subset used throughout this development the
  model agrees with CPython's parse/print round trip (e.g. "10" -> "10.0",
  "0.5" -> "0.5").
* `sys.exit` / uncaught Python exceptions both abort the run; they are
  modelled as `Except.error` with a structured `MErr` payload.  The error
  message of `sync_child_error` renders both conflicting subtrees; the model
  carries the two subtrees structurally in `MErr.conflict`.
* Warnings (`print_file_warning`) are collected in a list of `Warn` values.
* `xml_tree_compare` sorts each child list with itself as comparator, so its
  recursion is not structural; it is defined with an explicit fuel that is an
  upper bound on the recursion depth (`cmpFuel`), keeping every definition
  kernel-executable.  Python's stable sort is modelled by a stable insertion
  sort.
-/

/-! ### Python string comparison -/

/-- Code-point lexicographic comparison of character lists, i.e. Python's
`<` on strings. -/
def listStrLt : List Char → List Char → Bool
  | [], [] => false
  | [], _ :: _ => true
  | _ :: _, [] => false
  | a :: as, b :: bs =>
    if a < b then true
    else if b < a then false
    else listStrLt as bs

/-- Python's `<` on strings. -/
def strLt (a b : String) : Bool := listStrLt a.data b.data

/-- Three-way string comparison as Python's implicit cmp: -1, 0 or 1. -/
def cmpStr (a b : String) : Int :=
  if strLt a b then -1 else if strLt b a then 1 else 0

theorem listStrLt_irrefl (l : List Char) : listStrLt l l = false := by
  induction l with
  | nil => rfl
  | cons a as ih => simp [listStrLt, ih]

theorem strLt_irrefl (s : String) : strLt s s = false := listStrLt_irrefl s.data

theorem listStrLt_antisymm :
    ∀ a b : List Char, listStrLt a b = false → listStrLt b a = false → a = b := by
  intro a
  induction a with
  | nil =>
    intro b h1 _
    cases b with
    | nil => rfl
    | cons x xs => simp [listStrLt] at h1
  | cons x xs ih =>
    intro b h1 h2
    cases b with
    | nil => simp [listStrLt] at h2
    | cons y ys =>
      simp only [listStrLt] at h1 h2
      rcases lt_trichotomy x y with h | h | h
      · simp [h] at h1
      · subst h
        simp [lt_irrefl] at h1 h2
        exact congrArg (x :: ·) (ih ys h1 h2)
      · simp [h, lt_asymm h] at h2

theorem strLt_antisymm (a b : String) (h1 : strLt a b = false) (h2 : strLt b a = false) :
    a = b := by
  cases a; cases b
  exact congrArg String.mk (listStrLt_antisymm _ _ h1 h2)

theorem strLt_ne {a b : String} (h : strLt a b = true) : a ≠ b := by
  intro he
  subst he
  rw [strLt_irrefl] at h
  cases h

theorem cmpStr_self (s : String) : cmpStr s s = 0 := by
  simp [cmpStr, strLt_irrefl]

theorem cmpStr_eq_zero_iff (a b : String) : cmpStr a b = 0 ↔ a = b := by
  constructor
  · intro h
    unfold cmpStr at h
    split at h
    · cases h
    · split at h
      · cases h
      · next h1 h2 =>
        exact strLt_antisymm a b (by revert h1; cases strLt a b <;> simp) (by revert h2; cases strLt b a <;> simp)
  · intro h
    subst h
    exact cmpStr_self a

/-! ### Decimal numbers: an exact model of the floats used by the merge -/

/-- Decimal fixed-point number with value `num / 10 ^ exp`. -/
structure Dec where
  num : Int
  exp : Nat
  deriving DecidableEq, Repr

/-- Addition of decimal numbers (exact, on a common power-of-ten denominator). -/
def Dec.add (a b : Dec) : Dec :=
  ⟨a.num * (10 : Int) ^ (max a.exp b.exp - a.exp) + b.num * (10 : Int) ^ (max a.exp b.exp - b.exp),
   max a.exp b.exp⟩

/-- Negation of a decimal number. -/
def Dec.neg (a : Dec) : Dec := ⟨-a.num, a.exp⟩

/-- Digit characters of a natural number. -/
def natDigits (n : Nat) : List Char := (Nat.repr n).data

/-- Strip trailing decimal zeros: the canonical form Python would print. -/
def decStrip : Int → Nat → Int × Nat
  | n, 0 => (n, 0)
  | n, e + 1 => if n % 10 = 0 ∧ n ≠ 0 then decStrip (n / 10) e else (n, e + 1)

/-- Digits of `n` padded on the left with zeros to at least `k` characters. -/
def padDigits (n : Nat) (k : Nat) : List Char :=
  let ds := natDigits n
  List.replicate (k - ds.length) '0' ++ ds

/-- Render a decimal number the way Python's `str` renders the corresponding
float value, for the decimal-exact subset this development uses:
integers gain a trailing ".0", fractions drop trailing zeros. -/
def print_dec (d : Dec) : String :=
  let (n, e) := decStrip d.num d.exp
  let sign : List Char := if n < 0 then ['-'] else []
  let a := n.natAbs
  if e = 0 then (sign ++ natDigits a ++ ['.', '0']).asString
  else
    let ds := padDigits a (e + 1)
    (sign ++ ds.take (ds.length - e) ++ ['.'] ++ ds.drop (ds.length - e)).asString

/-- Parse the plain decimal subset of Python `float` literals:
optional sign, digits, optional fractional part (at least one digit in
total).  Exponent/inf/nan forms never occur in the documents this
development evaluates and are not modelled. -/
def parse_dec (s : String) : Option Dec :=
  let (sgn, body) :=
    match s.data with
    | '-' :: rest => (true, rest)
    | '+' :: rest => (false, rest)
    | l => (false, l)
  let intPart := body.takeWhile Char.isDigit
  let rest := body.drop intPart.length
  let checkFrac : Option (List Char) :=
    match rest with
    | [] => some []
    | '.' :: frac => if frac.all Char.isDigit then some frac else none
    | _ => none
  match checkFrac with
  | none => none
  | some frac =>
    if intPart.isEmpty ∧ frac.isEmpty then none
    else
      let digitsVal := (intPart ++ frac).foldl (fun n c => n * 10 + (c.toNat - 48)) 0
      some ⟨if sgn then -(Int.ofNat digitsVal) else Int.ofNat digitsVal, frac.length⟩

/-! ### The XML data model -/

/-- An XML element: tag, ordered attribute list, ordered children, trailing
text.  This is the subset of lxml's element model that `merge.py` reads. -/
inductive Xml where
  | node (tag : String) (attrs : List (String × String)) (children : List Xml) (tail : String)

/-- Tag of an element. -/
def Xml.tag : Xml → String
  | .node t _ _ _ => t

/-- Attribute list of an element. -/
def Xml.attrs : Xml → List (String × String)
  | .node _ a _ _ => a

/-- Child list of an element. -/
def Xml.children : Xml → List Xml
  | .node _ _ c _ => c

/-- Trailing text of an element ("" models lxml's `None`). -/
def Xml.tail : Xml → String
  | .node _ _ _ tl => tl

/-- Attribute lookup on a pair list: first binding wins (attribute keys are
unique in actual XML). -/
def getPairs (k : String) : List (String × String) → Option String
  | [] => none
  | p :: ps => if p.1 == k then some p.2 else getPairs k ps

/-- Attribute update on a pair list: replace the first binding in place, or
append a new one, exactly as lxml's `set` keeps attribute order. -/
def setPairs (k v : String) : List (String × String) → List (String × String)
  | [] => [(k, v)]
  | p :: ps => if p.1 == k then (k, v) :: ps else p :: setPairs k v ps

/-- Python's `el.get(key)`: the attribute value or `None`. -/
def Xml.get (el : Xml) (k : String) : Option String := getPairs k el.attrs

/-- Python's `el.set(key, value)`. -/
def Xml.set (el : Xml) (k v : String) : Xml :=
  .node el.tag (setPairs k v el.attrs) el.children el.tail

mutual
/-- Structural element equality as an executable boolean (the derived
`DecidableEq` handler does not support this nested inductive). -/
def xmlBEq : Xml → Xml → Bool
  | .node t1 a1 c1 tl1, .node t2 a2 c2 tl2 =>
    t1 == t2 && a1 == a2 && xmlListBEq c1 c2 && tl1 == tl2

/-- Structural equality of element lists. -/
def xmlListBEq : List Xml → List Xml → Bool
  | [], [] => true
  | [], _ :: _ => false
  | _ :: _, [] => false
  | x :: xs, y :: ys => xmlBEq x y && xmlListBEq xs ys
end

mutual
theorem xmlBEq_iff : ∀ a b : Xml, xmlBEq a b = true ↔ a = b
  | .node t1 a1 c1 tl1, .node t2 a2 c2 tl2 => by
    simp only [xmlBEq, Bool.and_eq_true, beq_iff_eq, Xml.node.injEq]
    have h := xmlListBEq_iff c1 c2
    tauto

theorem xmlListBEq_iff : ∀ a b : List Xml, xmlListBEq a b = true ↔ a = b
  | [], [] => by simp [xmlListBEq]
  | [], _ :: _ => by simp [xmlListBEq]
  | _ :: _, [] => by simp [xmlListBEq]
  | x :: xs, y :: ys => by
    simp only [xmlListBEq, Bool.and_eq_true, List.cons.injEq]
    have h1 := xmlBEq_iff x y
    have h2 := xmlListBEq_iff xs ys
    tauto
end

instance : DecidableEq Xml := fun a b =>
  if h : xmlBEq a b = true then .isTrue ((xmlBEq_iff a b).mp h)
  else .isFalse (fun he => h ((xmlBEq_iff a b).mpr he))

mutual
/-- Number of nodes of an element tree (used as comparator fuel). -/
def xmlSize : Xml → Nat
  | .node _ _ c _ => 1 + xmlListSize c

/-- Number of nodes of a forest. -/
def xmlListSize : List Xml → Nat
  | [] => 0
  | x :: xs => xmlSize x + xmlListSize xs
end

/-! ### The structural comparator `xml_tree_compare` -/

/-- Stable insertion into a sorted list: `x` goes before the first element
`y` with `le x y`, which reproduces the result of Python's stable sort. -/
def insertWith (le : α → α → Bool) (x : α) : List α → List α
  | [] => [x]
  | y :: ys => if le x y then x :: y :: ys else y :: insertWith le x ys

/-- Stable insertion sort, modelling Python's `list.sort`. -/
def sortWith (le : α → α → Bool) : List α → List α
  | [] => []
  | x :: xs => insertWith le x (sortWith le xs)

/-- Three-way comparison of `(key, value)` attribute pairs: Python tuple
comparison. -/
def cmpPair (p q : String × String) : Int :=
  if cmpStr p.1 q.1 = 0 then cmpStr p.2 q.2 else cmpStr p.1 q.1

/-- Ordering predicate on attribute pairs used for sorting. -/
def pairLe (p q : String × String) : Bool := cmpPair p q ≤ 0

/-- Three-way lexicographic comparison of attribute pair lists: Python list
comparison (a strict prefix is smaller). -/
def cmpPairs : List (String × String) → List (String × String) → Int
  | [], [] => 0
  | [], _ :: _ => -1
  | _ :: _, [] => 1
  | p :: ps, q :: qs => if cmpPair p q = 0 then cmpPairs ps qs else cmpPair p q

/-- Attribute items sorted as Python's `attrib.items(); items.sort()`. -/
def sortedAttrs (el : Xml) : List (String × String) := sortWith pairLe el.attrs

/-- Fuel-indexed body of `xml_tree_compare`.  The fuel only bounds the
recursion depth (the top-level wrapper passes more than enough); each level
mirrors `merge.py` lines 139-174: tag, then tail, then sorted attribute
items, then both child lists sorted by this same comparator and compared
pairwise over `zip` — which, as in Python, stops at the shorter list. -/
def cmpFuel : Nat → Xml → Xml → Int
  | 0, _, _ => 0
  | fuel + 1, a, b =>
    if strLt a.tag b.tag then -1
    else if strLt b.tag a.tag then 1
    else if strLt a.tail b.tail then -1
    else if strLt b.tail a.tail then 1
    else
      let ac := cmpPairs (sortedAttrs a) (sortedAttrs b)
      if ac < 0 then -1
      else if 0 < ac then 1
      else
        let sa := sortWith (fun x y => cmpFuel fuel x y ≤ 0) a.children
        let sb := sortWith (fun x y => cmpFuel fuel x y ≤ 0) b.children
        let cs := (List.zip sa sb).map (fun p => cmpFuel fuel p.1 p.2)
        match cs.find? (fun v => v != 0) with
        | some v => if v < 0 then -1 else 1
        | none => 0

/-- `xml_tree_compare` of `merge.py`: -1, 0 or 1. -/
def xml_tree_compare (a b : Xml) : Int :=
  cmpFuel (xmlSize a + xmlSize b).succ a b

/-! ### Merge machinery: data types -/

/-- Per-input command line specification (`InputFile` in `merge.py`; the
path is irrelevant to the merge semantics and omitted). -/
structure InputFile where
  offsetx : Dec
  offsety : Dec
  rotation : Int
  deriving DecidableEq, Repr

/-- Fatal outcomes.  `print_usage`/`print_file_error_and_exit` call
`sys.exit`; uncaught Python exceptions (failed `assert`, `float` parse
errors, `None + str`) also abort — both are `Except.error` here. -/
inductive MErr where
  | fileError (el : Xml) (msg : String)
  | conflict (existing incoming : Xml) (msg : String)
  | crash (msg : String)
  deriving DecidableEq

/-- Non-fatal warnings printed by `print_file_warning`. -/
inductive Warn where
  | incompatibleSettings (existing incoming : Xml)
  | compatNotesIgnored
  deriving DecidableEq

instance exceptDecEq {ε α : Type} [DecidableEq ε] [DecidableEq α] :
    DecidableEq (Except ε α) := fun a b =>
  match a, b with
  | .error e1, .error e2 =>
    if h : e1 = e2 then .isTrue (by rw [h]) else .isFalse (fun he => by cases he; exact h rfl)
  | .error _, .ok _ => .isFalse (fun he => by cases he)
  | .ok _, .error _ => .isFalse (fun he => by cases he)
  | .ok a1, .ok a2 =>
    if h : a1 = a2 then .isTrue (by rw [h]) else .isFalse (fun he => by cases he; exact h rfl)

/-- The old-name-to-new-name element rename map of one input's merge pass
(`element_map` in `merge.py`).  A Python dict: later writes shadow earlier
ones, here by prepending. -/
def RenameMap : Type := List (String × String)

/-- Dict store: the new binding shadows any previous one. -/
def map_set (m : RenameMap) (k v : String) : RenameMap := (k, v) :: m

/-- Dict lookup. -/
def map_get (m : RenameMap) (k : String) : Option String :=
  (List.find? (fun p => p.1 == k) m).map (fun p => p.2)

/-! ### Merge machinery: tree lookup helpers -/

/-- Matching criterion of `find_child` (`merge.py` lines 116-126): the tag
matches, and for every requested attribute either the requested value is
`None` (any value — including absence — is accepted) or the child's value
equals it. -/
def attrs_match (child : Xml) (tag : String) (attrs : List (String × Option String)) : Bool :=
  child.tag == tag && attrs.all (fun kv => child.get kv.1 == kv.2 || kv.2 == none)

/-- `find_child` of `merge.py`: the first child matching the criteria, or
`None`. -/
def find_child (el : Xml) (tag : String) (attrs : List (String × Option String)) : Option Xml :=
  el.children.find? (fun child => attrs_match child tag attrs)

/-- A freshly created element, as `etree.SubElement(el, tag)` makes one. -/
def create_child (tag : String) : Xml := .node tag [] [] ""

/-- Append a child at the end (lxml `el.append`). -/
def append_child (el : Xml) (c : Xml) : Xml :=
  .node el.tag el.attrs (el.children ++ [c]) el.tail

/-- Helper for `find_or_create_child` followed by in-place mutation of the
found/created child: rewrite the first `tag`-tagged child through `f`, or
create one (appended at the end, as `etree.SubElement` does) and rewrite
that.  `β` carries whatever extra result the section merge produces. -/
def with_child_aux {β : Type} (tag : String) (f : Xml → Except MErr (Xml × β)) :
    List Xml → Except MErr (List Xml × β)
  | [] =>
    match f (create_child tag) with
    | .error e => .error e
    | .ok (c, b) => .ok ([c], b)
  | c :: rest =>
    if c.tag == tag then
      match f c with
      | .error e => .error e
      | .ok (c', b) => .ok (c' :: rest, b)
    else
      match with_child_aux tag f rest with
      | .error e => .error e
      | .ok (rest', b) => .ok (c :: rest', b)

/-- `find_or_create_child(el, tag)` followed by merging into the returned
(live) child. -/
def with_child {β : Type} (el : Xml) (tag : String) (f : Xml → Except MErr (Xml × β)) :
    Except MErr (Xml × β) :=
  match with_child_aux tag f el.children with
  | .error e => .error e
  | .ok (ch, b) => .ok (.node el.tag el.attrs ch el.tail, b)

/-- `sync_child` of `merge.py`: append a (deep-copied) child if no child
with this tag exists yet, else do nothing. -/
def sync_child (el : Xml) (tag : String) (child : Xml) : Xml :=
  match find_child el tag [] with
  | none => append_child el child
  | some _ => el

/-- `sync_child_error` of `merge.py`: append the (deep-copied) child if the
tag is absent; otherwise the existing child must compare EQUAL or the merge
aborts with both subtrees rendered. -/
def sync_child_error (el : Xml) (tag : String) (child : Xml) (msg : String) :
    Except MErr Xml :=
  match find_child el tag [] with
  | none => .ok (append_child el child)
  | some el_child =>
    if xml_tree_compare el_child child ≠ 0 then
      .error (.conflict el_child child msg)
    else
      .ok el

/-! ### Merge machinery: settings and layers -/

/-- Child loop of `merge_xml_settings`: each incoming `setting` must be
empty; it is looked up with every one of its own attribute keys mapped to
the `None` wildcard; a miss appends it, a hit compares against the found
(first) `setting` and a difference is a non-fatal warning. -/
def merge_settings_children (out_el : Xml) : List Xml → Except MErr (Xml × List Warn)
  | [] => .ok (out_el, [])
  | child :: rest =>
    if child.tag == "setting" then
      if child.children.isEmpty then
        let wild := child.attrs.map (fun kv => (kv.1, (none : Option String)))
        match find_child out_el "setting" wild with
        | none => merge_settings_children (append_child out_el child) rest
        | some found =>
          if xml_tree_compare found child ≠ 0 then
            match merge_settings_children out_el rest with
            | .error e => .error e
            | .ok (o, ws) => .ok (o, .incompatibleSettings found child :: ws)
          else
            merge_settings_children out_el rest
      else .error (.fileError child "Expected empty")
    else .error (.fileError child "Unexpected element")

/-- `merge_xml_settings` of `merge.py` (`/eagle/drawing/settings`). -/
def merge_xml_settings (out_el in_el : Xml) : Except MErr (Xml × List Warn) :=
  match merge_settings_children out_el in_el.children with
  | .error e => .error e
  | .ok (o, ws) =>
    if in_el.attrs.isEmpty then .ok (o, ws)
    else .error (.fileError in_el "Unexpected attributes")

/-- Child loop of `merge_xml_layers`: a layer is appended unless a layer
with the same `number` attribute already exists; differing layer data is
ignored. -/
def merge_layers_children (out_el : Xml) : List Xml → Except MErr Xml
  | [] => .ok out_el
  | child :: rest =>
    if child.tag == "layer" then
      match find_child out_el "layer" [("number", child.get "number")] with
      | none => merge_layers_children (append_child out_el child) rest
      | some _ => merge_layers_children out_el rest
    else .error (.fileError child "Unexpected element")

/-- `merge_xml_layers` of `merge.py` (`/eagle/drawing/layers`). -/
def merge_xml_layers (out_el in_el : Xml) : Except MErr Xml :=
  match merge_layers_children out_el in_el.children with
  | .error e => .error e
  | .ok o =>
    if in_el.attrs.isEmpty then .ok o
    else .error (.fileError in_el "Unexpected attributes")

/-! ### Merge machinery: the geometry transform -/

/-- `offset_and_rotate` of `merge.py`: rotate about the origin by the
input's rotation, then translate by its offsets.  A rotation outside
{0, 90, 180, 270} fails the Python `assert` (`none` here). -/
def offset_and_rotate (x y : Dec) (infile : InputFile) : Option (Dec × Dec) :=
  let rotated : Option (Dec × Dec) :=
    if infile.rotation = 0 then some (x, y)
    else if infile.rotation = 90 then some (y.neg, x)
    else if infile.rotation = 180 then some (x.neg, y.neg)
    else if infile.rotation = 270 then some (y, x.neg)
    else none
  rotated.map (fun p => (p.1.add infile.offsetx, p.2.add infile.offsety))

/-- `update_xml_routing_pos` of `merge.py`: both coordinate attributes must
be present; they are parsed, transformed and written back (re-serialised). -/
def update_xml_routing_pos (el : Xml) (xattr yattr : String) (infile : InputFile) :
    Except MErr Xml :=
  match el.get xattr, el.get yattr with
  | some sx, some sy =>
    match parse_dec sx, parse_dec sy with
    | some dx, some dy =>
      match offset_and_rotate dx dy infile with
      | some (nx, ny) => .ok ((el.set xattr (print_dec nx)).set yattr (print_dec ny))
      | none => .error (.crash "assert False: unsupported rotation")
    | _, _ => .error (.crash "float() could not parse coordinate")
  | _, _ => .error (.fileError el "Unexpected element")

/-- Split an orientation value as the regex `^([a-zA-Z]*)(\d+)$` does: a
leading run of ASCII letters, then at least one ASCII digit and nothing
else.  (Python's `\d` would also accept non-ASCII decimal digits; such
values do not occur in this development.) -/
def split_rot (s : String) : Option (String × Nat) :=
  let letters := s.data.takeWhile Char.isAlpha
  let rest := s.data.dropWhile Char.isAlpha
  if !rest.isEmpty && rest.all Char.isDigit then
    some (letters.asString, rest.foldl (fun n c => n * 10 + (c.toNat - 48)) 0)
  else none

/-- `update_xml_routing_rot` of `merge.py`: an absent or empty orientation
attribute reads as "R0"; the degree is rotated forward, or backward for
mirrored ("M"-prefixed) orientations; the attribute stays absent only when
it was absent and the new value would be "R0". -/
def update_xml_routing_rot (el : Xml) (rotattr : String) (infile : InputFile) :
    Except MErr Xml :=
  let stored := el.get rotattr
  let rot := match stored with
    | none => "R0"
    | some s => if s == "" then "R0" else s
  match split_rot rot with
  | none => .error (.fileError el ("Unsupported rotation attribute " ++ rot))
  | some (letters, deg) =>
    let introt : Int :=
      if letters.data.contains 'M' then (Int.ofNat deg - infile.rotation) % 360
      else (Int.ofNat deg + infile.rotation) % 360
    let newrot := letters ++ Nat.repr introt.toNat
    if stored == none && newrot == "R0" then .ok el
    else .ok (el.set rotattr newrot)

mutual
/-- `update_routing` of `merge.py`: dispatch on the node kind and transform
every recognised geometric attribute; unrecognised kinds are fatal. -/
def update_routing (el : Xml) (infile : InputFile) : Except MErr Xml :=
  match el with
  | .node t a c tl =>
    let el0 : Xml := .node t a c tl
    if t == "wire" then
      match update_xml_routing_pos el0 "x1" "y1" infile with
      | .error e => .error e
      | .ok el1 => update_xml_routing_pos el1 "x2" "y2" infile
    else if t == "polygon" then
      match update_routing_list c infile with
      | .error e => .error e
      | .ok c' => .ok (.node t a c' tl)
    else if t == "text" then
      match update_xml_routing_pos el0 "x" "y" infile with
      | .error e => .error e
      | .ok el1 => update_xml_routing_rot el1 "rot" infile
    else if t == "dimension" then
      match update_xml_routing_pos el0 "x1" "y1" infile with
      | .error e => .error e
      | .ok el1 =>
        match update_xml_routing_pos el1 "x2" "y2" infile with
        | .error e => .error e
        | .ok el2 => update_xml_routing_pos el2 "x3" "y3" infile
    else if t == "circle" then
      update_xml_routing_pos el0 "x" "y" infile
    else if t == "rectangle" then
      match update_xml_routing_pos el0 "x1" "y1" infile with
      | .error e => .error e
      | .ok el1 => update_xml_routing_pos el1 "x2" "y2" infile
    else if t == "frame" then
      match update_xml_routing_pos el0 "x1" "y1" infile with
      | .error e => .error e
      | .ok el1 => update_xml_routing_pos el1 "x2" "y2" infile
    else if t == "hole" then
      update_xml_routing_pos el0 "x" "y" infile
    else if t == "contactref" then
      .ok el0
    else if t == "via" then
      update_xml_routing_pos el0 "x" "y" infile
    else if t == "element" then
      match update_xml_routing_pos el0 "x" "y" infile with
      | .error e => .error e
      | .ok el1 =>
        match update_xml_routing_rot el1 "rot" infile with
        | .error e => .error e
        | .ok el2 =>
          match update_routing_list c infile with
          | .error e => .error e
          | .ok c' => .ok (.node el2.tag el2.attrs c' el2.tail)
    else if t == "vertex" then
      update_xml_routing_pos el0 "x" "y" infile
    else if t == "attribute" then
      match update_xml_routing_pos el0 "x" "y" infile with
      | .error e => .error e
      | .ok el1 => update_xml_routing_rot el1 "rot" infile
    else if t == "variant" then
      .ok el0
    else
      .error (.fileError el0 "Unexpected element")

/-- `update_routing` over a child list (the `for child in el` loops). -/
def update_routing_list (cs : List Xml) (infile : InputFile) : Except MErr (List Xml) :=
  match cs with
  | [] => .ok []
  | c :: rest =>
    match update_routing c infile with
    | .error e => .error e
    | .ok c' =>
      match update_routing_list rest infile with
      | .error e => .error e
      | .ok rest' => .ok (c' :: rest')
end

/-! ### Merge machinery: rename and append sections -/

/-- Locate the first `attribute` child with `name="NAME"`; return its
duplicate-label clone (renamed to NAME1 and valued with the old name) and
the child list with the original label's display turned off. -/
def mark_name_attr (old_name : String) : List Xml → Option (Xml × List Xml)
  | [] => none
  | c :: rest =>
    if attrs_match c "attribute" [("name", some "NAME")] then
      some ((c.set "name" "NAME1").set "value" old_name, (c.set "display" "off") :: rest)
    else
      match mark_name_attr old_name rest with
      | none => none
      | some (dup, rest') => some (dup, c :: rest')

/-- `override_name_label` of `merge.py`: when an element was renamed, clone
its name label so it still displays the old name, and hide the now
misleading original label. -/
def override_name_label (el : Xml) (old_name : String) : Xml :=
  if el.get "name" == some old_name then el
  else
    match mark_name_attr old_name el.children with
    | none => el
    | some (dup, ch') => .node el.tag el.attrs (ch' ++ [dup]) el.tail

/-- `append_xml_plain` of `merge.py` (`/eagle/drawing/board/plain`): every
child is cloned, appended, and routed through the geometry transform. -/
def append_plain_children (out_el : Xml) (infile : InputFile) : List Xml → Except MErr Xml
  | [] => .ok out_el
  | child :: rest =>
    match update_routing child infile with
    | .error e => .error e
    | .ok nc => append_plain_children (append_child out_el nc) infile rest

/-- `append_xml_plain` of `merge.py`. -/
def append_xml_plain (out_el in_el : Xml) (infile : InputFile) : Except MErr Xml :=
  match append_plain_children out_el infile in_el.children with
  | .error e => .error e
  | .ok o =>
    if in_el.attrs.isEmpty then .ok o
    else .error (.fileError in_el "Unexpected attributes")

/-- Child loop of `merge_xml_packages`: same-named packages must compare
EQUAL or the merge fails. -/
def merge_packages_children (out_el : Xml) : List Xml → Except MErr Xml
  | [] => .ok out_el
  | child :: rest =>
    if child.tag == "package" then
      match find_child out_el "package" [("name", child.get "name")] with
      | none => merge_packages_children (append_child out_el child) rest
      | some out_child =>
        if xml_tree_compare out_child child ≠ 0 then
          .error (.conflict out_child child
            "Embedded libraries contain different packages of the same name")
        else merge_packages_children out_el rest
    else .error (.fileError child "Unexpected element")

/-- `merge_xml_packages` of `merge.py`. -/
def merge_xml_packages (out_el in_el : Xml) : Except MErr Xml :=
  match merge_packages_children out_el in_el.children with
  | .error e => .error e
  | .ok o =>
    if in_el.attrs.isEmpty then .ok o
    else .error (.fileError in_el "Unexpected attributes")

/-- Child loop of `merge_xml_library`.  (The attribute check at the end of
`merge_xml_library` is commented out in `merge.py` and hence absent here.) -/
def merge_library_children (out_el : Xml) : List Xml → Except MErr Xml
  | [] => .ok out_el
  | child :: rest =>
    if child.tag == "description" then
      merge_library_children (sync_child out_el "description" child) rest
    else if child.tag == "packages" then
      match with_child out_el "packages"
          (fun sec => (merge_xml_packages sec child).map (fun x => (x, ()))) with
      | .error e => .error e
      | .ok (o, _) => merge_library_children o rest
    else .error (.fileError child "Unexpected element")

/-- `merge_xml_library` of `merge.py`: merge two same-named embedded
libraries (the name equality is a Python `assert`). -/
def merge_xml_library (out_el in_el : Xml) : Except MErr Xml :=
  if out_el.get "name" == in_el.get "name" then
    merge_library_children out_el in_el.children
  else .error (.crash "assert: library names differ")

/-- Replace the first child matching `pred` by its image under `f`; `none`
when no child matches. -/
def find_replace (pred : Xml → Bool) (f : Xml → Except MErr Xml) :
    List Xml → Except MErr (Option (List Xml))
  | [] => .ok none
  | c :: rest =>
    if pred c then
      match f c with
      | .error e => .error e
      | .ok c' => .ok (some (c' :: rest))
    else
      match find_replace pred f rest with
      | .error e => .error e
      | .ok none => .ok none
      | .ok (some rest') => .ok (some (c :: rest'))

/-- Child loop of `merge_xml_libraries`: look a library up by name; a miss
appends it verbatim, a hit merges into the existing (live) library child. -/
def merge_libraries_children (out_el : Xml) : List Xml → Except MErr Xml
  | [] => .ok out_el
  | child :: rest =>
    if child.tag == "library" then
      match find_replace (fun c => attrs_match c "library" [("name", child.get "name")])
          (fun oc => merge_xml_library oc child) out_el.children with
      | .error e => .error e
      | .ok none => merge_libraries_children (append_child out_el child) rest
      | .ok (some ch') =>
        merge_libraries_children (.node out_el.tag out_el.attrs ch' out_el.tail) rest
    else .error (.fileError child "Unexpected element")

/-- `merge_xml_libraries` of `merge.py`. -/
def merge_xml_libraries (out_el in_el : Xml) : Except MErr Xml :=
  match merge_libraries_children out_el in_el.children with
  | .error e => .error e
  | .ok o =>
    if in_el.attrs.isEmpty then .ok o
    else .error (.fileError in_el "Unexpected attributes")

/-- Candidate name with the element-section suffix convention:
`N`, `N_1`, `N_2`, ... -/
def cand_el (base : String) (k : Nat) : String :=
  if k = 0 then base else base ++ "_" ++ Nat.repr k

/-- Candidate name with the signal-section suffix convention:
`N`, `N1`, `N2`, ... -/
def cand_sig (base : String) (k : Nat) : String :=
  if k = 0 then base else base ++ Nat.repr k

/-- Whether no `tag`-tagged child of `out_el` carries `name="nm"`. -/
def name_free (out_el : Xml) (tag : String) (nm : String) : Bool :=
  (find_child out_el tag [("name", some nm)]).isNone

/-- The `while find_child(...) != None` probe loops of `append_xml_elements`
and `append_xml_signals`: try `cand k`, `cand (k+1)`, ... until a free name
is found.  The Python loop is unbounded; one probe per existing child plus
one always suffices, which is the fuel the callers pass. -/
def unique_name (out_el : Xml) (tag : String) (cand : Nat → String) :
    Nat → Nat → Option String
  | 0, _ => none
  | fuel + 1, k =>
    if name_free out_el tag (cand k) then some (cand k)
    else unique_name out_el tag cand fuel (k + 1)

/-- Child loop of `append_xml_elements`: transform the element, give it a
collision-free name (recording any rename in the map and overriding the
name label), and append it. -/
def append_elements_children (out_el : Xml) (m : RenameMap) (infile : InputFile) :
    List Xml → Except MErr (Xml × RenameMap)
  | [] => .ok (out_el, m)
  | child :: rest =>
    if child.tag == "element" then
      match update_routing child infile with
      | .error e => .error e
      | .ok nc =>
        match nc.get "name" with
        | none => .error (.crash "TypeError: None + str in element name probe")
        | some nm =>
          match unique_name out_el "element" (cand_el nm) (out_el.children.length + 1) 0 with
          | none => .error (.crash "element name probe exhausted its fuel")
          | some newName =>
            let nc1 := nc.set "name" newName
            if newName == nm then
              append_elements_children (append_child out_el nc1) m infile rest
            else
              append_elements_children
                (append_child out_el (override_name_label nc1 nm))
                (map_set m nm newName) infile rest
    else .error (.fileError child "Unexpected element")

/-- `append_xml_elements` of `merge.py` (`/eagle/drawing/board/elements`). -/
def append_xml_elements (out_el in_el : Xml) (m : RenameMap) (infile : InputFile) :
    Except MErr (Xml × RenameMap) :=
  match append_elements_children out_el m infile in_el.children with
  | .error e => .error e
  | .ok (o, m') =>
    if in_el.attrs.isEmpty then .ok (o, m')
    else .error (.fileError in_el "Unexpected attributes")

/-- `update_signal_element_names` of `merge.py`: rewrite a contactref's
`element` reference through the rename map; anything else passes through. -/
def update_signal_element_names (el : Xml) (element_map : RenameMap) : Xml :=
  if el.tag != "contactref" then el
  else
    match el.get "element" with
    | none => el
    | some nm =>
      match map_get element_map nm with
      | some newName => el.set "element" newName
      | none => el

/-- The inner loop over one signal's children: geometry transform, then
element-reference rewrite. -/
def signal_children_update (infile : InputFile) (m : RenameMap) :
    List Xml → Except MErr (List Xml)
  | [] => .ok []
  | c :: rest =>
    match update_routing c infile with
    | .error e => .error e
    | .ok c1 =>
      match signal_children_update infile m rest with
      | .error e => .error e
      | .ok rest' => .ok (update_signal_element_names c1 m :: rest')

/-- Child loop of `append_xml_signals`: transform the signal's children,
give the signal a collision-free name, and append it. -/
def append_signals_children (out_el : Xml) (m : RenameMap) (infile : InputFile) :
    List Xml → Except MErr Xml
  | [] => .ok out_el
  | child :: rest =>
    if child.tag == "signal" then
      match signal_children_update infile m child.children with
      | .error e => .error e
      | .ok cc =>
        let nc : Xml := .node child.tag child.attrs cc child.tail
        match nc.get "name" with
        | none => .error (.crash "TypeError: None + str in signal name probe")
        | some nm =>
          match unique_name out_el "signal" (cand_sig nm) (out_el.children.length + 1) 0 with
          | none => .error (.crash "signal name probe exhausted its fuel")
          | some newName =>
            append_signals_children (append_child out_el (nc.set "name" newName)) m infile rest
    else .error (.fileError child "Unexpected element")

/-- `append_xml_signals` of `merge.py` (`/eagle/drawing/board/signals`). -/
def append_xml_signals (out_el in_el : Xml) (m : RenameMap) (infile : InputFile) :
    Except MErr Xml :=
  match append_signals_children out_el m infile in_el.children with
  | .error e => .error e
  | .ok o =>
    if in_el.attrs.isEmpty then .ok o
    else .error (.fileError in_el "Unexpected attributes")

/-- `append_xml_errors` of `merge.py` is an unimplemented TODO: the incoming
section is ignored entirely (though the output section was already created). -/
def append_xml_errors (out_el _in_el : Xml) (_infile : InputFile) : Except MErr Xml :=
  .ok out_el

/-! ### Merge machinery: board, drawing, eagle -/

/-- Child loop of `merge_xml_board`, threading the per-input `element_map`
that is created fresh at every `merge_xml_board` call. -/
def merge_board_children (out_el : Xml) (m : RenameMap) (infile : InputFile) :
    List Xml → Except MErr Xml
  | [] => .ok out_el
  | child :: rest =>
    if child.tag == "plain" then
      match with_child out_el "plain"
          (fun sec => (append_xml_plain sec child infile).map (fun x => (x, ()))) with
      | .error e => .error e
      | .ok (o, _) => merge_board_children o m infile rest
    else if child.tag == "libraries" then
      match with_child out_el "libraries"
          (fun sec => (merge_xml_libraries sec child).map (fun x => (x, ()))) with
      | .error e => .error e
      | .ok (o, _) => merge_board_children o m infile rest
    else if child.tag == "attributes" then
      match sync_child_error out_el "attributes" child "Unsupported difference" with
      | .error e => .error e
      | .ok o => merge_board_children o m infile rest
    else if child.tag == "variantdefs" then
      match sync_child_error out_el "variantdefs" child "Unsupported difference" with
      | .error e => .error e
      | .ok o => merge_board_children o m infile rest
    else if child.tag == "classes" then
      match sync_child_error out_el "classes" child "Unsupported difference" with
      | .error e => .error e
      | .ok o => merge_board_children o m infile rest
    else if child.tag == "designrules" then
      match sync_child_error out_el "designrules" child "Design rules must be equivalent" with
      | .error e => .error e
      | .ok o => merge_board_children o m infile rest
    else if child.tag == "autorouter" then
      merge_board_children (sync_child out_el "autorouter" child) m infile rest
    else if child.tag == "elements" then
      match with_child out_el "elements"
          (fun sec => append_xml_elements sec child m infile) with
      | .error e => .error e
      | .ok (o, m') => merge_board_children o m' infile rest
    else if child.tag == "signals" then
      match with_child out_el "signals"
          (fun sec => (append_xml_signals sec child m infile).map (fun x => (x, ()))) with
      | .error e => .error e
      | .ok (o, _) => merge_board_children o m infile rest
    else if child.tag == "errors" then
      match with_child out_el "errors"
          (fun sec => (append_xml_errors sec child infile).map (fun x => (x, ()))) with
      | .error e => .error e
      | .ok (o, _) => merge_board_children o m infile rest
    else .error (.fileError child "Unexpected element")

/-- `merge_xml_board` of `merge.py` (`/eagle/drawing/board`).  The
`element_map` starts empty on every call. -/
def merge_xml_board (out_el in_el : Xml) (infile : InputFile) : Except MErr Xml :=
  match merge_board_children out_el [] infile in_el.children with
  | .error e => .error e
  | .ok o =>
    if in_el.attrs.isEmpty then .ok o
    else .error (.fileError in_el "Unexpected attributes")

/-- Child loop of `merge_xml_drawing`, collecting settings warnings. -/
def merge_drawing_children (out_el : Xml) (infile : InputFile) :
    List Xml → Except MErr (Xml × List Warn)
  | [] => .ok (out_el, [])
  | child :: rest =>
    if child.tag == "settings" then
      match with_child out_el "settings" (fun sec => merge_xml_settings sec child) with
      | .error e => .error e
      | .ok (o, ws) =>
        match merge_drawing_children o infile rest with
        | .error e => .error e
        | .ok (o2, ws2) => .ok (o2, ws ++ ws2)
    else if child.tag == "grid" then
      merge_drawing_children (sync_child out_el "grid" child) infile rest
    else if child.tag == "layers" then
      match with_child out_el "layers"
          (fun sec => (merge_xml_layers sec child).map (fun x => (x, ()))) with
      | .error e => .error e
      | .ok (o, _) => merge_drawing_children o infile rest
    else if child.tag == "board" then
      match with_child out_el "board"
          (fun sec => (merge_xml_board sec child infile).map (fun x => (x, ()))) with
      | .error e => .error e
      | .ok (o, _) => merge_drawing_children o infile rest
    else .error (.fileError child "Unexpected element")

/-- `merge_xml_drawing` of `merge.py` (`/eagle/drawing`). -/
def merge_xml_drawing (out_el in_el : Xml) (infile : InputFile) :
    Except MErr (Xml × List Warn) :=
  match merge_drawing_children out_el infile in_el.children with
  | .error e => .error e
  | .ok (o, ws) =>
    if in_el.attrs.isEmpty then .ok (o, ws)
    else .error (.fileError in_el "Unexpected attributes")

/-- Version-attribute reconciliation loop of `merge_xml_eagle`: the first
input sets the version, later inputs must match it exactly; any other root
attribute is fatal. -/
def merge_version_attrs (out_el in_el : Xml) :
    List (String × String) → Except MErr Xml
  | [] => .ok out_el
  | (k, v) :: rest =>
    if k == "version" then
      match out_el.get "version" with
      | none => merge_version_attrs (out_el.set "version" v) in_el rest
      | some out_version =>
        if v == out_version then merge_version_attrs out_el in_el rest
        else .error (.fileError in_el "Eagle version mismatch")
    else .error (.fileError in_el "Unexpected attributes")

/-- Child loop of `merge_xml_eagle`: only `drawing` is merged;
`compatibility` is dropped with a warning; any other child is silently
ignored (the Python loop has no else branch). -/
def merge_eagle_children (out_el : Xml) (infile : InputFile) :
    List Xml → Except MErr (Xml × List Warn)
  | [] => .ok (out_el, [])
  | child :: rest =>
    if child.tag == "drawing" then
      match with_child out_el "drawing" (fun sec => merge_xml_drawing sec child infile) with
      | .error e => .error e
      | .ok (o, ws) =>
        match merge_eagle_children o infile rest with
        | .error e => .error e
        | .ok (o2, ws2) => .ok (o2, ws ++ ws2)
    else if child.tag == "compatibility" then
      match merge_eagle_children out_el infile rest with
      | .error e => .error e
      | .ok (o, ws) => .ok (o, .compatNotesIgnored :: ws)
    else
      merge_eagle_children out_el infile rest

/-- `merge_xml_eagle` of `merge.py` (`/eagle`): root-tag `assert`, version
reconciliation, then child dispatch. -/
def merge_xml_eagle (out_el in_el : Xml) (infile : InputFile) :
    Except MErr (Xml × List Warn) :=
  if out_el.tag == "eagle" && in_el.tag == "eagle" then
    match merge_version_attrs out_el in_el in_el.attrs with
    | .error e => .error e
    | .ok o => merge_eagle_children o infile in_el.children
  else .error (.crash "assert: root tag is not eagle")

/-- The accumulating output document starts as a bare `<eagle>` element
(`etree.Element("eagle")` in `main`). -/
def empty_eagle : Xml := .node "eagle" [] [] ""

/-- The merge loop of `main`: fold every parsed input document into the
accumulating output, collecting warnings (file loading and serialisation
are external to the core). -/
def merge_all_from (acc : Xml) (warns : List Warn) :
    List (Xml × InputFile) → Except MErr (Xml × List Warn)
  | [] => .ok (acc, warns)
  | (doc, infile) :: rest =>
    match merge_xml_eagle acc doc infile with
    | .error e => .error e
    | .ok (acc', ws) => merge_all_from acc' (warns ++ ws) rest

/-- Merge a whole command line of inputs, starting from the empty output. -/
def merge_all (inputs : List (Xml × InputFile)) : Except MErr (Xml × List Warn) :=
  merge_all_from empty_eagle [] inputs

/-! ### Comparator lemmas -/

theorem cmpPair_self (p : String × String) : cmpPair p p = 0 := by
  simp [cmpPair, cmpStr_self]

theorem cmpPair_eq_zero_iff (p q : String × String) : cmpPair p q = 0 ↔ p = q := by
  unfold cmpPair
  split
  · next h =>
    rw [cmpStr_eq_zero_iff] at h
    rw [cmpStr_eq_zero_iff]
    cases p; cases q
    simp_all [Prod.ext_iff]
  · next h =>
    constructor
    · intro h0; exact absurd h0 h
    · intro he
      subst he
      exact absurd (cmpStr_self p.1) h

theorem cmpPairs_self (l : List (String × String)) : cmpPairs l l = 0 := by
  induction l with
  | nil => rfl
  | cons p ps ih => simp [cmpPairs, cmpPair_self, ih]

theorem cmpPairs_eq_zero_iff : ∀ a b : List (String × String), cmpPairs a b = 0 ↔ a = b := by
  intro a
  induction a with
  | nil =>
    intro b
    cases b with
    | nil => simp [cmpPairs]
    | cons q qs => simp [cmpPairs]
  | cons p ps ih =>
    intro b
    cases b with
    | nil => simp [cmpPairs]
    | cons q qs =>
      simp only [cmpPairs]
      split
      · next h =>
        rw [cmpPair_eq_zero_iff] at h
        subst h
        simp [ih]
      · next h =>
        constructor
        · intro h0; exact absurd h0 h
        · intro he
          injection he with h1 h2
          subst h1
          exact absurd (cmpPair_self p) h

theorem zip_self_eq_map {α : Type} (l : List α) : l.zip l = l.map (fun x => (x, x)) := by
  induction l with
  | nil => rfl
  | cons x xs ih => simp [List.zip_cons_cons, ih]

/-- Children-comparison step of `xml_tree_compare`: sort both lists by the
comparator's order, compare pairwise, first difference decides; `zip` stops
at the shorter list. -/
def cmpKids (f : Nat) (as bs : List Xml) : Int :=
  match (((sortWith (fun x y => cmpFuel f x y ≤ 0) as).zip
      (sortWith (fun x y => cmpFuel f x y ≤ 0) bs)).map
      (fun p => cmpFuel f p.1 p.2)).find? (fun v => v != 0) with
  | some v => if v < 0 then -1 else 1
  | none => 0

theorem cmpFuel_succ_eq (f : Nat) (a b : Xml) :
    cmpFuel (f + 1) a b =
      (if strLt a.tag b.tag then -1
       else if strLt b.tag a.tag then 1
       else if strLt a.tail b.tail then -1
       else if strLt b.tail a.tail then 1
       else if cmpPairs (sortedAttrs a) (sortedAttrs b) < 0 then -1
       else if 0 < cmpPairs (sortedAttrs a) (sortedAttrs b) then 1
       else cmpKids f a.children b.children) := rfl

theorem cmpKids_self (f : Nat) (l : List Xml) (ih : ∀ x : Xml, cmpFuel f x x = 0) :
    cmpKids f l l = 0 := by
  unfold cmpKids
  have hfind : (((sortWith (fun x y => cmpFuel f x y ≤ 0) l).zip
      (sortWith (fun x y => cmpFuel f x y ≤ 0) l)).map
      (fun p => cmpFuel f p.1 p.2)).find? (fun v => v != 0) = none := by
    rw [zip_self_eq_map, List.map_map, List.find?_eq_none]
    intro v hv
    rw [List.mem_map] at hv
    obtain ⟨x, _, hx⟩ := hv
    simp only [Function.comp_apply] at hx
    rw [ih x] at hx
    subst hx
    simp
  rw [hfind]

theorem cmpFuel_self : ∀ (f : Nat) (a : Xml), cmpFuel f a a = 0 := by
  intro f
  induction f with
  | zero => intro a; rfl
  | succ f ih =>
    intro a
    rw [cmpFuel_succ_eq]
    simp [strLt_irrefl, cmpPairs_self, cmpKids_self f _ ih]

/-- Reflexivity of the comparator: every tree compares EQUAL to itself. -/
theorem xml_tree_compare_self (a : Xml) : xml_tree_compare a a = 0 :=
  cmpFuel_self _ a

/-- Modelled from the spec (section 4.1, as amended): recursive structural
equality of two trees — equal tags, equal trailing text, equal sorted
attribute sequences, and the two child lists each sorted by the comparator's
order and pairwise equivalent up to the shorter length (children beyond the
shorter sorted list are ignored, as Python's `zip` stops there). -/
def xml_equiv_fuel : Nat → Xml → Xml → Bool
  | 0, _, _ => true
  | f + 1, a, b =>
    a.tag == b.tag && a.tail == b.tail && (sortedAttrs a == sortedAttrs b)
    && ((sortWith (fun x y => cmpFuel f x y ≤ 0) a.children).zip
          (sortWith (fun x y => cmpFuel f x y ≤ 0) b.children)).all
        (fun p => xml_equiv_fuel f p.1 p.2)

/-- Modelled from the spec (section 4.1, as amended): the top-level
structural equivalence, at the same recursion bound the comparator uses. -/
def xml_equiv (a b : Xml) : Bool := xml_equiv_fuel (xmlSize a + xmlSize b).succ a b

theorem cmpKids_eq_zero_iff (f : Nat) (as bs : List Xml)
    (ih : ∀ x y : Xml, cmpFuel f x y = 0 ↔ xml_equiv_fuel f x y = true) :
    cmpKids f as bs = 0 ↔
      ((sortWith (fun x y => cmpFuel f x y ≤ 0) as).zip
        (sortWith (fun x y => cmpFuel f x y ≤ 0) bs)).all
        (fun p => xml_equiv_fuel f p.1 p.2) = true := by
  unfold cmpKids
  cases hf : (((sortWith (fun x y => cmpFuel f x y ≤ 0) as).zip
      (sortWith (fun x y => cmpFuel f x y ≤ 0) bs)).map
      (fun p => cmpFuel f p.1 p.2)).find? (fun v => v != 0) with
  | none =>
    rw [List.find?_eq_none] at hf
    simp only [List.all_eq_true]
    constructor
    · intro _ p hp
      have hmem : cmpFuel f p.1 p.2 ∈
          ((sortWith (fun x y => cmpFuel f x y ≤ 0) as).zip
            (sortWith (fun x y => cmpFuel f x y ≤ 0) bs)).map
            (fun p => cmpFuel f p.1 p.2) :=
        List.mem_map.mpr ⟨p, hp, rfl⟩
      have hz := hf _ hmem
      simp only [bne_iff_ne, ne_eq, not_not] at hz
      exact (ih p.1 p.2).mp hz
    · intro _; trivial
  | some v =>
    have hv : (v != 0) = true := @List.find?_some _ (fun v => v != 0) v _ hf
    have hvne : v ≠ 0 := by simpa using hv
    have hvmem : v ∈ ((sortWith (fun x y => cmpFuel f x y ≤ 0) as).zip
        (sortWith (fun x y => cmpFuel f x y ≤ 0) bs)).map
        (fun p => cmpFuel f p.1 p.2) := List.mem_of_find?_eq_some hf
    rw [List.mem_map] at hvmem
    obtain ⟨p, hp, hpv⟩ := hvmem
    constructor
    · intro h0
      exfalso
      have h0' : (if v < 0 then (-1 : Int) else 1) = 0 := h0
      split at h0' <;> norm_num at h0'
    · intro hall
      rw [List.all_eq_true] at hall
      have h2 := (ih p.1 p.2).mpr (hall p hp)
      rw [hpv] at h2
      exact absurd h2 hvne

theorem cmpFuel_eq_zero_iff : ∀ (f : Nat) (a b : Xml),
    cmpFuel f a b = 0 ↔ xml_equiv_fuel f a b = true := by
  intro f
  induction f with
  | zero => intro a b; simp [cmpFuel, xml_equiv_fuel]
  | succ f ih =>
    intro a b
    rw [cmpFuel_succ_eq]
    simp only [xml_equiv_fuel]
    cases h1 : strLt a.tag b.tag with
    | true =>
      have hne : (a.tag == b.tag) = false := beq_eq_false_iff_ne.mpr (strLt_ne h1)
      simp [hne]
    | false =>
      cases h2 : strLt b.tag a.tag with
      | true =>
        have hne : (a.tag == b.tag) = false :=
          beq_eq_false_iff_ne.mpr (fun he => strLt_ne h2 he.symm)
        simp [hne]
      | false =>
        have htag : a.tag = b.tag := strLt_antisymm _ _ h1 h2
        cases h3 : strLt a.tail b.tail with
        | true =>
          have hne : (a.tail == b.tail) = false := beq_eq_false_iff_ne.mpr (strLt_ne h3)
          simp [hne]
        | false =>
          cases h4 : strLt b.tail a.tail with
          | true =>
            have hne : (a.tail == b.tail) = false :=
              beq_eq_false_iff_ne.mpr (fun he => strLt_ne h4 he.symm)
            simp [hne]
          | false =>
            have htail : a.tail = b.tail := strLt_antisymm _ _ h3 h4
            by_cases h5 : cmpPairs (sortedAttrs a) (sortedAttrs b) < 0
            · have hne : (sortedAttrs a == sortedAttrs b) = false := by
                rw [beq_eq_false_iff_ne]
                intro he
                rw [(cmpPairs_eq_zero_iff _ _).mpr he] at h5
                exact absurd h5 (by norm_num)
              simp [h5, hne]
            · by_cases h6 : 0 < cmpPairs (sortedAttrs a) (sortedAttrs b)
              · have hne : (sortedAttrs a == sortedAttrs b) = false := by
                  rw [beq_eq_false_iff_ne]
                  intro he
                  rw [(cmpPairs_eq_zero_iff _ _).mpr he] at h6
                  exact absurd h6 (by norm_num)
                simp [h5, h6, hne]
              · have h7 : cmpPairs (sortedAttrs a) (sortedAttrs b) = 0 := by omega
                have h8 : (sortedAttrs a == sortedAttrs b) = true :=
                  beq_iff_eq.mpr ((cmpPairs_eq_zero_iff _ _).mp h7)
                simp only [h5, h6, if_false, htag, htail, h8, beq_self_eq_true,
                  Bool.true_and]
                exact cmpKids_eq_zero_iff f _ _ ih

/-! ### Claim C2: the comparator's order and its notion of EQUAL -/

/-- C2 (corrected): `xml_tree_compare` orders by tag, then trailing text,
then the sorted attribute sequences; the child lists are each sorted by this
same order and compared pairwise only up to the shorter sorted list, so
EQUAL holds exactly when tags, tails and sorted attribute sequences agree
and the sorted child lists agree pairwise up to the shorter length,
recursively (`xml_equiv`) — not when the trees match exactly. -/
theorem c2_compare_order_and_equal (a b : Xml) :
    (xml_tree_compare a b = 0 ↔ xml_equiv a b = true)
    ∧ (strLt a.tag b.tag = true → xml_tree_compare a b = -1)
    ∧ (a.tag = b.tag → strLt a.tail b.tail = true → xml_tree_compare a b = -1)
    ∧ (a.tag = b.tag → a.tail = b.tail →
        cmpPairs (sortedAttrs a) (sortedAttrs b) < 0 → xml_tree_compare a b = -1) := by
  refine ⟨cmpFuel_eq_zero_iff _ a b, ?_, ?_, ?_⟩
  · intro h
    unfold xml_tree_compare
    rw [cmpFuel_succ_eq]
    simp [h]
  · intro htag h
    unfold xml_tree_compare
    rw [cmpFuel_succ_eq]
    rw [htag]
    simp [strLt_irrefl, h]
  · intro htag htail h
    unfold xml_tree_compare
    rw [cmpFuel_succ_eq]
    rw [htag, htail]
    simp [strLt_irrefl, h]

/-- Witness for C2's theorem at concrete inputs. -/
theorem c2_compare_order_and_equal_witness :
    xml_tree_compare (.node "a" [] [] "") (.node "b" [] [] "") = -1
    ∧ (xml_tree_compare (.node "a" [("k", "v")] [] "x")
        (.node "a" [("k", "v")] [] "x") = 0
      ↔ xml_equiv (.node "a" [("k", "v")] [] "x")
        (.node "a" [("k", "v")] [] "x") = true) :=
  ⟨(c2_compare_order_and_equal (.node "a" [] [] "") (.node "b" [] [] "")).2.1 (by decide),
   (c2_compare_order_and_equal _ _).1⟩

/-- C2 counterexample: `[]` is a strict prefix of the sorted child list
`[<c/>]`, so the claim demands LESS; the code's `zip` stops at the shorter
list and returns EQUAL although the two trees differ. -/
theorem c2_counterexample :
    xml_tree_compare (.node "x" [] [] "") (.node "x" [] [.node "c" [] [] ""] "") = 0
    ∧ (Xml.node "x" [] [] "") ≠ (.node "x" [] [.node "c" [] [] ""] "") := by
  constructor
  · decide
  · decide

/-! ### Claim C3: REQUIRE_IDENTICAL sections -/

/-- C3 (corrected): under `sync_child_error` the first occurrence of the
section becomes authoritative (appended verbatim); a subsequent occurrence
aborts the merge — with both subtrees carried in the error — exactly when
the comparator's result is not EQUAL, and merges silently (no change, no
warning) when the comparator returns EQUAL, which byte-identical subtrees
always do, but also subtrees whose extra children hide behind the
comparator's sorted-prefix truncation. -/
theorem c3_require_identical_amended (el child : Xml) (tag msg : String) :
    (find_child el tag [] = none →
      sync_child_error el tag child msg = .ok (append_child el child))
    ∧ (∀ ec, find_child el tag [] = some ec → xml_tree_compare ec child ≠ 0 →
        sync_child_error el tag child msg = .error (.conflict ec child msg))
    ∧ (∀ ec, find_child el tag [] = some ec → xml_tree_compare ec child = 0 →
        sync_child_error el tag child msg = .ok el) := by
  refine ⟨?_, ?_, ?_⟩
  · intro h
    unfold sync_child_error
    rw [h]
  · intro ec h hc
    unfold sync_child_error
    rw [h]
    simp [hc]
  · intro ec h hc
    unfold sync_child_error
    rw [h]
    simp [hc]

/-- Witness for C3's theorem: a missing section is appended; an identical
one merges silently; a modified one aborts with both subtrees. -/
theorem c3_require_identical_amended_witness :
    sync_child_error (.node "board" [] [] "") "designrules"
      (.node "designrules" [("name", "d")] [] "") "Design rules must be equivalent"
      = .ok (append_child (.node "board" [] [] "") (.node "designrules" [("name", "d")] [] ""))
    ∧ sync_child_error (.node "board" [] [.node "designrules" [("name", "d")] [] ""] "")
        "designrules" (.node "designrules" [("name", "d")] [] "")
        "Design rules must be equivalent"
      = .ok (.node "board" [] [.node "designrules" [("name", "d")] [] ""] "")
    ∧ sync_child_error (.node "board" [] [.node "designrules" [("name", "d")] [] ""] "")
        "designrules" (.node "designrules" [("name", "e")] [] "")
        "Design rules must be equivalent"
      = .error (.conflict (.node "designrules" [("name", "d")] [] "")
          (.node "designrules" [("name", "e")] [] "") "Design rules must be equivalent") :=
  ⟨(c3_require_identical_amended _ _ _ _).1 (by decide),
   (c3_require_identical_amended _ _ _ _).2.2
     (.node "designrules" [("name", "d")] [] "") (by decide) (by decide),
   (c3_require_identical_amended _ _ _ _).2.1
     (.node "designrules" [("name", "d")] [] "") (by decide) (by decide)⟩

/-- C3 counterexample: the incoming `designrules` has an extra descendant
(`<param name="b"/>`), so it differs from the authoritative subtree, yet the
merge does not abort: the comparator's `zip` truncation reports EQUAL and
the occurrence merges silently. -/
theorem c3_counterexample :
    sync_child_error
      (.node "board" [] [.node "designrules" [] [.node "param" [("name", "a")] [] ""] ""] "")
      "designrules"
      (.node "designrules" []
        [.node "param" [("name", "a")] [] "", .node "param" [("name", "b")] [] ""] "")
      "Design rules must be equivalent"
    = .ok (.node "board" [] [.node "designrules" [] [.node "param" [("name", "a")] [] ""] ""] "")
    ∧ (Xml.node "designrules" [] [.node "param" [("name", "a")] [] ""] "")
      ≠ (.node "designrules" []
          [.node "param" [("name", "a")] [] "", .node "param" [("name", "b")] [] ""] "") := by
  constructor
  · decide
  · decide

/-! ### Claim C4: the settings merge -/

/-- The all-`None` wildcard attribute list built by `merge_xml_settings`
makes `find_child`'s filter vacuous: any child with the right tag matches. -/
theorem attrs_match_wildcard (c : Xml) (tag : String) (attrs : List (String × String)) :
    attrs_match c tag (attrs.map (fun kv => (kv.1, (none : Option String)))) = (c.tag == tag) := by
  unfold attrs_match
  have hall : (attrs.map (fun kv => (kv.1, (none : Option String)))).all
      (fun kv => c.get kv.1 == kv.2 || kv.2 == none) = true := by
    simp only [List.all_eq_true, List.mem_map]
    intro kv hkv
    obtain ⟨a, _, ha⟩ := hkv
    subst ha
    simp
  rw [hall, Bool.and_true]

theorem find?_ext {α : Type} (p q : α → Bool) (h : ∀ x, p x = q x) (l : List α) :
    l.find? p = l.find? q := by
  have : p = q := funext h
  rw [this]

/-- C4 (corrected): an incoming `setting` is looked up with all of its own
attribute keys mapped to the `None` wildcard, which matches *any* existing
`setting` regardless of attributes; so it is compared against the output's
first `setting` child if one exists (appended only if none exists at all),
and on a difference a non-fatal warning is emitted and the first-seen
setting is kept (the incoming one is dropped either way). -/
theorem c4_settings_amended (out_el child : Xml)
    (htag : child.tag = "setting") (hkids : child.children = []) :
    (out_el.children.find? (fun c => c.tag == "setting") = none →
      merge_settings_children out_el [child] = .ok (append_child out_el child, []))
    ∧ (∀ s0, out_el.children.find? (fun c => c.tag == "setting") = some s0 →
        xml_tree_compare s0 child = 0 →
        merge_settings_children out_el [child] = .ok (out_el, []))
    ∧ (∀ s0, out_el.children.find? (fun c => c.tag == "setting") = some s0 →
        xml_tree_compare s0 child ≠ 0 →
        merge_settings_children out_el [child] = .ok (out_el, [.incompatibleSettings s0 child])) := by
  have hwild : find_child out_el "setting"
      (child.attrs.map (fun kv => (kv.1, (none : Option String))))
      = out_el.children.find? (fun c => c.tag == "setting") := by
    unfold find_child
    exact find?_ext _ _ (fun c => attrs_match_wildcard c "setting" child.attrs) _
  refine ⟨?_, ?_, ?_⟩
  · intro h
    unfold merge_settings_children
    rw [htag]
    simp only [beq_self_eq_true, if_true, hkids, List.isEmpty_nil, hwild, h]
    rfl
  · intro s0 h hc
    unfold merge_settings_children
    rw [htag]
    simp only [beq_self_eq_true, if_true, hkids, List.isEmpty_nil, hwild, h]
    simp [hc]
    rfl
  · intro s0 h hc
    unfold merge_settings_children
    rw [htag]
    simp only [beq_self_eq_true, if_true, hkids, List.isEmpty_nil, hwild, h]
    simp [hc]
    rfl

/-- Witness for C4's theorem: appending into an output without settings,
and warning against the (attribute-wise unrelated) first setting. -/
theorem c4_settings_amended_witness :
    merge_settings_children (.node "settings" [] [] "")
      [.node "setting" [("alwaysvectorfont", "no")] [] ""]
      = .ok (append_child (.node "settings" [] [] "")
          (.node "setting" [("alwaysvectorfont", "no")] [] ""), [])
    ∧ merge_settings_children (.node "settings" [] [.node "setting" [("verticaltext", "up")] [] ""] "")
        [.node "setting" [("alwaysvectorfont", "no")] [] ""]
      = .ok (.node "settings" [] [.node "setting" [("verticaltext", "up")] [] ""] "",
          [.incompatibleSettings (.node "setting" [("verticaltext", "up")] [] "")
            (.node "setting" [("alwaysvectorfont", "no")] [] "")]) :=
  ⟨(c4_settings_amended _ _ (by decide) (by decide)).1 (by decide),
   (c4_settings_amended _ _ (by decide) (by decide)).2.2 _ (by decide) (by decide)⟩

/-- C4 counterexample: the incoming setting's key (its non-value attribute
set {alwaysvectorfont}) matches no existing setting — the claim demands an
append — yet the code matches the first existing setting (key
{verticaltext}), emits a warning, and drops the incoming child. -/
theorem c4_counterexample :
    merge_xml_settings (.node "settings" [] [.node "setting" [("verticaltext", "up")] [] ""] "")
      (.node "settings" [] [.node "setting" [("alwaysvectorfont", "no")] [] ""] "")
    = .ok (.node "settings" [] [.node "setting" [("verticaltext", "up")] [] ""] "",
        [.incompatibleSettings (.node "setting" [("verticaltext", "up")] [] "")
          (.node "setting" [("alwaysvectorfont", "no")] [] "")])
    ∧ (Xml.node "setting" [("alwaysvectorfont", "no")] [] "").attrs.map Prod.fst
      ≠ (Xml.node "setting" [("verticaltext", "up")] [] "").attrs.map Prod.fst := by
  constructor
  · decide
  · decide

/-! ### Attribute get/set lemmas -/

theorem getPairs_setPairs_self (k v : String) :
    ∀ l : List (String × String), getPairs k (setPairs k v l) = some v := by
  intro l
  induction l with
  | nil => simp [setPairs, getPairs]
  | cons p ps ih =>
    by_cases h : p.1 = k
    · simp [setPairs, getPairs, h]
    · have hb : (p.1 == k) = false := beq_eq_false_iff_ne.mpr h
      simp [setPairs, getPairs, hb, ih]

theorem getPairs_setPairs_other (k k2 v : String) (h : k2 ≠ k) :
    ∀ l : List (String × String), getPairs k2 (setPairs k v l) = getPairs k2 l := by
  intro l
  induction l with
  | nil =>
    have hb : (k == k2) = false := beq_eq_false_iff_ne.mpr (fun he => h he.symm)
    simp [setPairs, getPairs, hb]
  | cons p ps ih =>
    by_cases hp : p.1 = k
    · have hb : (k == k2) = false := beq_eq_false_iff_ne.mpr (fun he => h he.symm)
      have hb2 : (p.1 == k2) = false := by
        rw [hp]; exact hb
      simp [setPairs, getPairs, hp, hb, hb2]
    · have hb : (p.1 == k) = false := beq_eq_false_iff_ne.mpr hp
      simp only [setPairs, hb, if_false, getPairs]
      split
      · rfl
      · exact ih

theorem Xml.get_set_self (el : Xml) (k v : String) : (el.set k v).get k = some v :=
  getPairs_setPairs_self k v el.attrs

theorem Xml.get_set_other (el : Xml) (k k2 v : String) (h : k2 ≠ k) :
    (el.set k v).get k2 = el.get k2 :=
  getPairs_setPairs_other k k2 v h el.attrs

theorem Xml.tag_set (el : Xml) (k v : String) : (el.set k v).tag = el.tag := rfl

theorem Xml.children_set (el : Xml) (k v : String) : (el.set k v).children = el.children := rfl

theorem Xml.tail_set (el : Xml) (k v : String) : (el.set k v).tail = el.tail := rfl

/-! ### Claim C5: the geometry transform -/

/-- Modelled from the spec (section 4.2): rotate a point about the origin
by one of the four right angles. -/
def spec_rotate (r : Int) (x y : Dec) : Dec × Dec :=
  if r = 90 then (y.neg, x)
  else if r = 180 then (x.neg, y.neg)
  else if r = 270 then (y, x.neg)
  else (x, y)

/-- C5 (confirmed): `offset_and_rotate` first rotates about the origin —
90°: (x,y) to (−y,x); 180°: (x,y) to (−x,−y); 270°: (x,y) to (y,−x); 0°:
identity — and then adds the offsets; in particular (10,0) under rotation
90 with offset (5,0) maps to (5,10). -/
theorem c5_geometry_transform (x y dx dy : Dec) (r : Int)
    (hr : r = 0 ∨ r = 90 ∨ r = 180 ∨ r = 270) :
    offset_and_rotate x y ⟨dx, dy, r⟩
      = some ((spec_rotate r x y).1.add dx, (spec_rotate r x y).2.add dy)
    ∧ offset_and_rotate ⟨10, 0⟩ ⟨0, 0⟩ ⟨⟨5, 0⟩, ⟨0, 0⟩, 90⟩ = some (⟨5, 0⟩, ⟨10, 0⟩) := by
  constructor
  · rcases hr with h | h | h | h <;> subst h <;> simp [offset_and_rotate, spec_rotate]
  · decide

/-- Witness for C5's theorem, at rotation 90. -/
theorem c5_geometry_transform_witness :
    offset_and_rotate ⟨10, 0⟩ ⟨0, 0⟩ ⟨⟨5, 0⟩, ⟨0, 0⟩, 90⟩
      = some ((spec_rotate 90 ⟨10, 0⟩ ⟨0, 0⟩).1.add ⟨5, 0⟩,
          (spec_rotate 90 ⟨10, 0⟩ ⟨0, 0⟩).2.add ⟨0, 0⟩) :=
  (c5_geometry_transform ⟨10, 0⟩ ⟨0, 0⟩ ⟨5, 0⟩ ⟨0, 0⟩ 90 (by norm_num)).1

/-! ### Claim C6: the orientation attribute transform -/

theorem update_rot_present (el : Xml) (infile : InputFile) (s : String)
    (letters : String) (d : Nat) (hget : el.get "rot" = some s) (hne : s ≠ "")
    (hsplit : split_rot s = some (letters, d)) :
    update_xml_routing_rot el "rot" infile
      = .ok (el.set "rot" (letters ++ Nat.repr
          ((if letters.data.contains 'M'
            then (Int.ofNat d - infile.rotation) % 360
            else (Int.ofNat d + infile.rotation) % 360).toNat))) := by
  have hs : (s == "") = false := beq_eq_false_iff_ne.mpr hne
  simp only [update_xml_routing_rot, hget, hs, Bool.false_eq_true, if_false, hsplit]
  have h1 : (some s == (none : Option String)) = false := rfl
  rw [h1]
  simp

theorem update_rot_malformed (el : Xml) (infile : InputFile) (s : String)
    (hget : el.get "rot" = some s) (hne : s ≠ "") (hsplit : split_rot s = none) :
    update_xml_routing_rot el "rot" infile
      = .error (.fileError el ("Unsupported rotation attribute " ++ s)) := by
  have hs : (s == "") = false := beq_eq_false_iff_ne.mpr hne
  simp only [update_xml_routing_rot, hget, hs, Bool.false_eq_true, if_false, hsplit]

theorem update_rot_absent_zero (el : Xml) (infile : InputFile)
    (hget : el.get "rot" = none) (hr : infile.rotation = 0) :
    update_xml_routing_rot el "rot" infile = .ok el := by
  simp only [update_xml_routing_rot, hget, hr]
  rw [show split_rot "R0" = some ("R", 0) from by decide]
  norm_num
  intro h
  exact absurd (by decide : "R" ++ Nat.repr 0 = "R0") h

theorem update_rot_absent_nonzero (el : Xml) (infile : InputFile)
    (hget : el.get "rot" = none)
    (hr : infile.rotation = 90 ∨ infile.rotation = 180 ∨ infile.rotation = 270) :
    update_xml_routing_rot el "rot" infile
      = .ok (el.set "rot" ("R" ++ Nat.repr ((infile.rotation % 360).toNat))) := by
  obtain ⟨ox, oy, r⟩ := infile
  simp only at hr
  rcases hr with h | h | h <;>
    (subst h
     simp only [update_xml_routing_rot, hget]
     rw [show split_rot "R0" = some ("R", 0) from by decide]
     norm_num) <;>
    (first
      | (intro h2; exact absurd h2 (by decide))
      | (rw [if_neg (by decide)]
         congr 1))

theorem update_rot_empty (el : Xml) (infile : InputFile) (hget : el.get "rot" = some "") :
    update_xml_routing_rot el "rot" infile
      = .ok (el.set "rot" ("R" ++ Nat.repr (((Int.ofNat 0 + infile.rotation) % 360).toNat))) := by
  simp only [update_xml_routing_rot, hget]
  rw [show (("" : String) == "") = true from rfl]
  simp only [if_true]
  rw [show split_rot "R0" = some ("R", 0) from by decide]
  simp only [show (("R" : String).data.contains 'M') = false from by decide,
    Bool.false_eq_true, if_false]
  have h1 : (some ("" : String) == (none : Option String)) = false := rfl
  rw [h1]
  simp

/-- C6 (confirmed): for an orientation value `letters ++ digits` the new
degree is (stored + r) mod 360 without the mirror marker and
(stored − r) mod 360 with it; an absent or empty value reads as degree 0
with no mirror; the attribute is omitted from the output exactly when it
was absent on input and the result is 0 degrees (rotation 0); a present
value not matching `letters* digits+` is a fatal error. -/
theorem c6_orientation_attribute (el : Xml) (infile : InputFile) :
    (∀ s letters d, el.get "rot" = some s → s ≠ "" → split_rot s = some (letters, d) →
      letters.data.contains 'M' = false →
      update_xml_routing_rot el "rot" infile
        = .ok (el.set "rot" (letters ++ Nat.repr (((Int.ofNat d + infile.rotation) % 360).toNat))))
    ∧ (∀ s letters d, el.get "rot" = some s → s ≠ "" → split_rot s = some (letters, d) →
      letters.data.contains 'M' = true →
      update_xml_routing_rot el "rot" infile
        = .ok (el.set "rot" (letters ++ Nat.repr (((Int.ofNat d - infile.rotation) % 360).toNat))))
    ∧ (∀ s, el.get "rot" = some s → s ≠ "" → split_rot s = none →
      update_xml_routing_rot el "rot" infile
        = .error (.fileError el ("Unsupported rotation attribute " ++ s)))
    ∧ (el.get "rot" = none → infile.rotation = 0 →
      update_xml_routing_rot el "rot" infile = .ok el)
    ∧ (el.get "rot" = none →
        (infile.rotation = 90 ∨ infile.rotation = 180 ∨ infile.rotation = 270) →
      update_xml_routing_rot el "rot" infile
        = .ok (el.set "rot" ("R" ++ Nat.repr ((infile.rotation % 360).toNat))))
    ∧ (el.get "rot" = some "" →
      update_xml_routing_rot el "rot" infile
        = .ok (el.set "rot" ("R" ++ Nat.repr (((Int.ofNat 0 + infile.rotation) % 360).toNat))))
    ∧ (∀ el',
        (infile.rotation = 0 ∨ infile.rotation = 90 ∨ infile.rotation = 180 ∨
          infile.rotation = 270) →
        update_xml_routing_rot el "rot" infile = .ok el' →
        (el'.get "rot" = none ↔ el.get "rot" = none ∧ infile.rotation = 0)) := by
  refine ⟨?_, ?_, ?_, ?_, ?_, ?_, ?_⟩
  · intro s letters d hget hne hsplit hM
    rw [update_rot_present el infile s letters d hget hne hsplit, hM]
    simp
  · intro s letters d hget hne hsplit hM
    rw [update_rot_present el infile s letters d hget hne hsplit, hM]
    simp
  · intro s hget hne hsplit
    exact update_rot_malformed el infile s hget hne hsplit
  · intro hget hr
    exact update_rot_absent_zero el infile hget hr
  · intro hget hr
    exact update_rot_absent_nonzero el infile hget hr
  · intro hget
    exact update_rot_empty el infile hget
  · intro el' hr4 hok
    cases hg : el.get "rot" with
    | none =>
      rcases hr4 with h0 | h90 | h180 | h270
      · rw [update_rot_absent_zero el infile hg h0] at hok
        injection hok with he
        subst he
        simp [hg, h0]
      · rw [update_rot_absent_nonzero el infile hg (Or.inl h90)] at hok
        injection hok with he
        subst he
        simp [Xml.get_set_self, h90]
      · rw [update_rot_absent_nonzero el infile hg (Or.inr (Or.inl h180))] at hok
        injection hok with he
        subst he
        simp [Xml.get_set_self, h180]
      · rw [update_rot_absent_nonzero el infile hg (Or.inr (Or.inr h270))] at hok
        injection hok with he
        subst he
        simp [Xml.get_set_self, h270]
    | some s =>
      by_cases hse : s = ""
      · subst hse
        rw [update_rot_empty el infile hg] at hok
        injection hok with he
        subst he
        simp [Xml.get_set_self, hg]
      · cases hsp : split_rot s with
        | none =>
          rw [update_rot_malformed el infile s hg hse hsp] at hok
          cases hok
        | some p =>
          obtain ⟨letters, d⟩ := p
          rw [update_rot_present el infile s letters d hg hse hsp] at hok
          injection hok with he
          subst he
          simp [Xml.get_set_self, hg]

/-- Witness for C6's theorem: a mirrored orientation under rotation 90, and
an absent orientation under rotation 0 staying absent. -/
theorem c6_orientation_attribute_witness :
    update_xml_routing_rot (.node "element" [("rot", "MR45")] [] "") "rot"
        ⟨⟨0, 0⟩, ⟨0, 0⟩, 90⟩
      = .ok ((Xml.node "element" [("rot", "MR45")] [] "").set "rot"
          ("MR" ++ Nat.repr (((Int.ofNat 45 - 90) % 360).toNat)))
    ∧ update_xml_routing_rot (.node "element" [] [] "") "rot" ⟨⟨0, 0⟩, ⟨0, 0⟩, 0⟩
      = .ok (.node "element" [] [] "") :=
  ⟨((c6_orientation_attribute (.node "element" [("rot", "MR45")] [] "")
      ⟨⟨0, 0⟩, ⟨0, 0⟩, 90⟩).2.1 "MR45" "MR" 45 (by decide) (by decide) (by decide) (by decide)),
   ((c6_orientation_attribute (.node "element" [] [] "")
      ⟨⟨0, 0⟩, ⟨0, 0⟩, 0⟩).2.2.2.1 (by decide) rfl)⟩

/-! ### Claim C7: the name collision resolver -/

theorem unique_name_spec (out_el : Xml) (tag : String) (cand : Nat → String) :
    ∀ (fuel j k : Nat), j ≤ k → k < j + fuel →
    (∀ i, j ≤ i → i < k → name_free out_el tag (cand i) = false) →
    name_free out_el tag (cand k) = true →
    unique_name out_el tag cand fuel j = some (cand k) := by
  intro fuel
  induction fuel with
  | zero =>
    intro j k hjk hlt _ _
    omega
  | succ fuel ih =>
    intro j k hjk hlt hbusy hfree
    by_cases hj : j = k
    · subst hj
      unfold unique_name
      rw [hfree]
      rfl
    · have hjk' : j + 1 ≤ k := by omega
      have hbj : name_free out_el tag (cand j) = false := hbusy j le_rfl (by omega)
      unfold unique_name
      rw [hbj]
      simp only [Bool.false_eq_true, if_false]
      exact ih (j + 1) k hjk' (by omega) (fun i hi1 hi2 => hbusy i (by omega) hi2) hfree

/-- C7 (confirmed): both probe loops try candidates in the fixed sequence
`cand 0 = N`, `cand 1`, `cand 2`, ... and return the first absent one
(lowest index first); elements use the underscored suffixes N, N_1, N_2, …
and signals the plain suffixes N, N1, N2, …. -/
theorem c7_collision_probe (out_el : Xml) (nm : String) (k : Nat) :
    (cand_el nm 0 = nm ∧ (∀ i, 0 < i → cand_el nm i = nm ++ "_" ++ Nat.repr i)
      ∧ cand_sig nm 0 = nm ∧ (∀ i, 0 < i → cand_sig nm i = nm ++ Nat.repr i))
    ∧ (k ≤ out_el.children.length →
      (∀ i, i < k → name_free out_el "element" (cand_el nm i) = false) →
      name_free out_el "element" (cand_el nm k) = true →
      unique_name out_el "element" (cand_el nm) (out_el.children.length + 1) 0
        = some (cand_el nm k))
    ∧ (k ≤ out_el.children.length →
      (∀ i, i < k → name_free out_el "signal" (cand_sig nm i) = false) →
      name_free out_el "signal" (cand_sig nm k) = true →
      unique_name out_el "signal" (cand_sig nm) (out_el.children.length + 1) 0
        = some (cand_sig nm k)) := by
  refine ⟨⟨rfl, ?_, rfl, ?_⟩, ?_, ?_⟩
  · intro i hi
    unfold cand_el
    rw [if_neg (by omega)]
  · intro i hi
    unfold cand_sig
    rw [if_neg (by omega)]
  · intro hk hbusy hfree
    exact unique_name_spec out_el "element" (cand_el nm) _ 0 k (Nat.zero_le _) (by omega)
      (fun i _ hi => hbusy i hi) hfree
  · intro hk hbusy hfree
    exact unique_name_spec out_el "signal" (cand_sig nm) _ 0 k (Nat.zero_le _) (by omega)
      (fun i _ hi => hbusy i hi) hfree

/-- Witness for C7's theorem: with `R1` and `R1_1` taken among the output's
elements, the probe chooses `R1_2`; with `GND` free among signals it is kept. -/
theorem c7_collision_probe_witness :
    unique_name
      (.node "elements" []
        [.node "element" [("name", "R1")] [] "", .node "element" [("name", "R1_1")] [] ""] "")
      "element" (cand_el "R1") 3 0 = some (cand_el "R1" 2)
    ∧ unique_name (.node "signals" [] [.node "signal" [("name", "VCC")] [] ""] "")
      "signal" (cand_sig "GND") 2 0 = some (cand_sig "GND" 0) :=
  ⟨(c7_collision_probe
      (.node "elements" []
        [.node "element" [("name", "R1")] [] "", .node "element" [("name", "R1_1")] [] ""] "")
      "R1" 2).2.1 (by decide) (by decide) (by decide),
   (c7_collision_probe (.node "signals" [] [.node "signal" [("name", "VCC")] [] ""] "")
      "GND" 0).2.2 (by decide) (by decide) (by decide)⟩

/-! ### Claim C9: rewriting signal references through the rename map -/

/-- C9 (confirmed): a `contactref` whose `element` name is a key of the
rename map is rewritten to the mapped name; a reference absent from the map
— and any non-`contactref` node — passes through unchanged.  The closing
conjunct runs one whole board merge: the map is created fresh inside
`merge_xml_board`, filled by that same input's elements pass (the duplicate
`R1` is renamed to `R1_1`), and the signal's `contactref` from the same
input is rewritten through it. -/
theorem c9_contactref_rewrite (el : Xml) (m : RenameMap) :
    (el.tag = "contactref" →
      (∀ nm newName, el.get "element" = some nm → map_get m nm = some newName →
        update_signal_element_names el m = el.set "element" newName)
      ∧ (∀ nm, el.get "element" = some nm → map_get m nm = none →
        update_signal_element_names el m = el)
      ∧ (el.get "element" = none → update_signal_element_names el m = el))
    ∧ (el.tag ≠ "contactref" → update_signal_element_names el m = el)
    ∧ merge_xml_board (.node "board" [] [] "")
        (.node "board" []
          [.node "elements" []
            [.node "element" [("name", "R1"), ("x", "0.0"), ("y", "0.0")] [] "",
             .node "element" [("name", "R1"), ("x", "0.0"), ("y", "0.0")] [] ""] "",
           .node "signals" []
            [.node "signal" [("name", "GND")]
              [.node "contactref" [("element", "R1"), ("pad", "1")] [] ""] ""] ""] "")
        ⟨⟨0, 0⟩, ⟨0, 0⟩, 0⟩
      = .ok (.node "board" []
          [.node "elements" []
            [.node "element" [("name", "R1"), ("x", "0.0"), ("y", "0.0")] [] "",
             .node "element" [("name", "R1_1"), ("x", "0.0"), ("y", "0.0")] [] ""] "",
           .node "signals" []
            [.node "signal" [("name", "GND")]
              [.node "contactref" [("element", "R1_1"), ("pad", "1")] [] ""] ""] ""] "") := by
  refine ⟨?_, ?_, ?_⟩
  · intro htag
    have hb : (el.tag != "contactref") = false := by
      rw [htag]
      rfl
    refine ⟨?_, ?_, ?_⟩
    · intro nm newName hget hm
      unfold update_signal_element_names
      rw [hb]
      simp only [Bool.false_eq_true, if_false, hget, hm]
    · intro nm hget hm
      unfold update_signal_element_names
      rw [hb]
      simp only [Bool.false_eq_true, if_false, hget, hm]
    · intro hget
      unfold update_signal_element_names
      rw [hb]
      simp only [Bool.false_eq_true, if_false, hget]
  · intro htag
    have hb : (el.tag != "contactref") = true := by
      simp [htag]
    unfold update_signal_element_names
    rw [hb]
    simp
  · decide

/-- Witness for C9's theorem: a mapped reference is rewritten, an unmapped
one passes through. -/
theorem c9_contactref_rewrite_witness :
    update_signal_element_names (.node "contactref" [("element", "R1")] [] "")
      [("R1", "R1_1")]
      = (Xml.node "contactref" [("element", "R1")] [] "").set "element" "R1_1"
    ∧ update_signal_element_names (.node "contactref" [("element", "C4")] [] "")
      [("R1", "R1_1")]
      = .node "contactref" [("element", "C4")] [] "" :=
  ⟨((c9_contactref_rewrite (.node "contactref" [("element", "R1")] [] "")
      [("R1", "R1_1")]).1 rfl).1 "R1" "R1_1" (by decide) (by decide),
   ((c9_contactref_rewrite (.node "contactref" [("element", "C4")] [] "")
      [("R1", "R1_1")]).1 rfl).2.1 "C4" (by decide) (by decide)⟩

/-! ### Claim C10: overwriting semantics of the rename map -/

theorem self_ne_append (s t : String) (ht : t.data ≠ []) : s ≠ s ++ t := by
  intro h
  have hd := congrArg String.data h
  rw [String.data_append] at hd
  have hlen := congrArg List.length hd
  rw [List.length_append] at hlen
  exact ht (List.length_eq_zero.mp (by omega))

theorem append_ne_append (s a b : String) (hab : a ≠ b) : s ++ a ≠ s ++ b := by
  intro h
  have hd := congrArg String.data h
  rw [String.data_append, String.data_append] at hd
  have hc := List.append_cancel_left hd
  apply hab
  cases a
  cases b
  exact congrArg String.mk (by simpa using hc)

/-- The identity input: zero offsets, rotation 0. -/
def infile_id : InputFile := ⟨⟨0, 0⟩, ⟨0, 0⟩, 0⟩

/-- A minimal placed element named `nm` at the origin. -/
def mk_element (nm : String) : Xml :=
  .node "element" [("name", nm), ("x", "0.0"), ("y", "0.0")] [] ""

theorem cand_el_one (nm : String) : cand_el nm 1 = nm ++ "_1" := by
  unfold cand_el
  rw [if_neg (by omega), String.append_assoc]
  rw [show "_" ++ Nat.repr 1 = "_1" from by decide]

theorem cand_el_two (nm : String) : cand_el nm 2 = nm ++ "_2" := by
  unfold cand_el
  rw [if_neg (by omega), String.append_assoc]
  rw [show "_" ++ Nat.repr 2 = "_2" from by decide]

theorem nm_ne_cand_one (nm : String) : nm ≠ cand_el nm 1 := by
  rw [cand_el_one]
  have h := self_ne_append nm "_1" (by decide)
  exact h

theorem nm_ne_cand_two (nm : String) : nm ≠ cand_el nm 2 := by
  rw [cand_el_two]
  exact self_ne_append nm "_2" (by decide)

theorem cand_one_ne_cand_two (nm : String) : cand_el nm 1 ≠ cand_el nm 2 := by
  rw [cand_el_one, cand_el_two]
  rw [show nm ++ "_1" = nm ++ "_" ++ "1" from by rw [String.append_assoc]; rfl,
    show nm ++ "_2" = nm ++ "_" ++ "2" from by rw [String.append_assoc]; rfl]
  exact append_ne_append (nm ++ "_") "1" "2" (by decide)

/-- C10 (confirmed): when several elements of one input share an original
name, each rename overwrites the map binding for that name, so after the
section is merged the map binds the shared name to the unique name of the
last renamed element (`N_2` here), and a contactref referencing the shared
name is rewritten to that last-assigned name regardless of which element it
was meant for.  Shown for any name `nm`: the output already holds `nm`, the
input brings two more elements named `nm`, which become `nm_1` and `nm_2`;
the map ends at `nm_2`. -/
theorem c10_rename_map_overwrite (nm : String) :
    append_elements_children
        (.node "elements" [] [.node "element" [("name", nm)] [] ""] "")
        [] infile_id [mk_element nm, mk_element nm]
      = .ok (.node "elements" []
            [.node "element" [("name", nm)] [] "",
             (mk_element nm).set "name" (cand_el nm 1),
             (mk_element nm).set "name" (cand_el nm 2)] "",
          [(nm, cand_el nm 2), (nm, cand_el nm 1)])
    ∧ map_get [(nm, cand_el nm 2), (nm, cand_el nm 1)] nm = some (cand_el nm 2)
    ∧ update_signal_element_names (.node "contactref" [("element", nm)] [] "")
        [(nm, cand_el nm 2), (nm, cand_el nm 1)]
      = (Xml.node "contactref" [("element", nm)] [] "").set "element" (cand_el nm 2)
    ∧ cand_el nm 1 = nm ++ "_1" ∧ cand_el nm 2 = nm ++ "_2" := by
  have hpos : update_xml_routing_pos
      (Xml.node "element" [("name", nm), ("x", "0.0"), ("y", "0.0")] [] "") "x" "y" infile_id
      = .ok (Xml.node "element" [("name", nm), ("x", "0.0"), ("y", "0.0")] [] "") := by rfl
  have hrot : update_xml_routing_rot
      (Xml.node "element" [("name", nm), ("x", "0.0"), ("y", "0.0")] [] "") "rot" infile_id
      = .ok (Xml.node "element" [("name", nm), ("x", "0.0"), ("y", "0.0")] [] "") :=
    update_rot_absent_zero _ _ (by rfl) rfl
  have hur : update_routing (mk_element nm) infile_id = .ok (mk_element nm) := by
    unfold mk_element
    simp only [update_routing, hpos, hrot, update_routing_list]
    simp [Xml.tag, Xml.attrs, Xml.tail]
  have hne1 : (nm == cand_el nm 1) = false := beq_eq_false_iff_ne.mpr (nm_ne_cand_one nm)
  have hne2 : (nm == cand_el nm 2) = false := beq_eq_false_iff_ne.mpr (nm_ne_cand_two nm)
  have hne12 : (cand_el nm 1 == cand_el nm 2) = false :=
    beq_eq_false_iff_ne.mpr (cand_one_ne_cand_two nm)
  have hne1s : (cand_el nm 1 == nm) = false :=
    beq_eq_false_iff_ne.mpr (fun h => nm_ne_cand_one nm h.symm)
  have hne2s : (cand_el nm 2 == nm) = false :=
    beq_eq_false_iff_ne.mpr (fun h => nm_ne_cand_two nm h.symm)
  have hf0 : name_free (.node "elements" [] [.node "element" [("name", nm)] [] ""] "")
      "element" (cand_el nm 0) = false := by
    simp [name_free, find_child, attrs_match, Xml.get, getPairs, Xml.tag, cand_el, Xml.children]
  have hf1 : name_free (.node "elements" [] [.node "element" [("name", nm)] [] ""] "")
      "element" (cand_el nm 1) = true := by
    simp [name_free, find_child, attrs_match, Xml.get, getPairs, Xml.tag, Xml.children, hne1]
  have hu1 : unique_name (.node "elements" [] [.node "element" [("name", nm)] [] ""] "")
      "element" (cand_el nm) 2 0 = some (cand_el nm 1) := by
    apply unique_name_spec _ _ _ 2 0 1 (by omega) (by omega)
    · intro i _ hi
      have h0 : i = 0 := by omega
      subst h0
      exact hf0
    · exact hf1
  have hg0 : name_free (.node "elements" []
      [.node "element" [("name", nm)] [] "", (mk_element nm).set "name" (cand_el nm 1)] "")
      "element" (cand_el nm 0) = false := by
    simp [name_free, find_child, attrs_match, Xml.get, getPairs, Xml.tag, cand_el, Xml.children,
      mk_element, Xml.set, setPairs]
  have hg1 : name_free (.node "elements" []
      [.node "element" [("name", nm)] [] "", (mk_element nm).set "name" (cand_el nm 1)] "")
      "element" (cand_el nm 1) = false := by
    simp [name_free, find_child, attrs_match, Xml.get, getPairs, Xml.tag, Xml.children,
      mk_element, Xml.set, setPairs, hne1]
  have hg2 : name_free (.node "elements" []
      [.node "element" [("name", nm)] [] "", (mk_element nm).set "name" (cand_el nm 1)] "")
      "element" (cand_el nm 2) = true := by
    simp [name_free, find_child, attrs_match, Xml.get, getPairs, Xml.tag, Xml.children,
      mk_element, Xml.set, setPairs, hne2, hne12]
  have hu2 : unique_name (.node "elements" []
      [.node "element" [("name", nm)] [] "", (mk_element nm).set "name" (cand_el nm 1)] "")
      "element" (cand_el nm) 3 0 = some (cand_el nm 2) := by
    apply unique_name_spec _ _ _ 3 0 2 (by omega) (by omega)
    · intro i _ hi
      interval_cases i
      · exact hg0
      · exact hg1
    · exact hg2
  have hgetname : Xml.get (mk_element nm) "name" = some nm := by rfl
  have honl1 : override_name_label ((mk_element nm).set "name" (cand_el nm 1)) nm
      = (mk_element nm).set "name" (cand_el nm 1) := by
    unfold override_name_label
    rw [show Xml.get ((mk_element nm).set "name" (cand_el nm 1)) "name" = some (cand_el nm 1)
      from Xml.get_set_self _ _ _]
    simp [hne1s, mark_name_attr, mk_element, Xml.set, Xml.children, setPairs]
  have honl2 : override_name_label ((mk_element nm).set "name" (cand_el nm 2)) nm
      = (mk_element nm).set "name" (cand_el nm 2) := by
    unfold override_name_label
    rw [show Xml.get ((mk_element nm).set "name" (cand_el nm 2)) "name" = some (cand_el nm 2)
      from Xml.get_set_self _ _ _]
    simp [hne2s, mark_name_attr, mk_element, Xml.set, Xml.children, setPairs]
  refine ⟨?_, ?_, ?_, cand_el_one nm, cand_el_two nm⟩
  · have htagmk : (mk_element nm).tag = "element" := rfl
    have hp1 : ¬(cand_el nm 1 = nm) := fun h => nm_ne_cand_one nm h.symm
    have hp2 : ¬(cand_el nm 2 = nm) := fun h => nm_ne_cand_two nm h.symm
    simp [append_elements_children, hur, hgetname, htagmk, hu1, hu2, hne1s, hne2s, honl1, honl2,
      append_child, Xml.tag, Xml.attrs, Xml.children, Xml.tail, map_set, hp1, hp2]
    simp [mk_element]
  · simp [map_get]
  · unfold update_signal_element_names
    rw [show ((Xml.node "contactref" [("element", nm)] [] "").tag != "contactref") = false
      from rfl]
    simp only [Bool.false_eq_true, if_false]
    rw [show Xml.get (.node "contactref" [("element", nm)] [] "") "element" = some nm from rfl]
    simp [map_get]

/-! ### Claim C8: machinery — tag preservation and lookup stability -/

theorem Xml.tag_append_child (el c : Xml) : (append_child el c).tag = el.tag := rfl

theorem Xml.children_append_child (el c : Xml) :
    (append_child el c).children = el.children ++ [c] := rfl

theorem attrs_match_nil (c : Xml) (t : String) : attrs_match c t [] = (c.tag == t) := by
  simp [attrs_match]

theorem find_child_nil_attrs (el : Xml) (t : String) :
    find_child el t [] = el.children.find? (fun c => c.tag == t) := by
  unfold find_child
  exact find?_ext _ _ (fun c => attrs_match_nil c t) _

theorem find?_append_single {α : Type} (l : List α) (x : α) (p : α → Bool) (hx : p x = false) :
    (l ++ [x]).find? p = l.find? p := by
  induction l with
  | nil => simp [List.find?, hx]
  | cons a as ih =>
    by_cases ha : p a = true
    · simp [List.find?, ha]
    · have ha' : p a = false := by revert ha; cases p a <;> simp
      simp [List.find?, ha', ih]

theorem sync_child_tag (el : Xml) (t : String) (c : Xml) :
    (sync_child el t c).tag = el.tag := by
  unfold sync_child
  split
  · rfl
  · rfl

theorem sync_child_error_tag (el : Xml) (t : String) (c : Xml) (msg : String) (o : Xml)
    (h : sync_child_error el t c msg = .ok o) : o.tag = el.tag := by
  unfold sync_child_error at h
  split at h
  · injection h with h
    rw [← h]
    rfl
  · split at h
    · cases h
    · injection h with h
      rw [← h]

theorem update_pos_tag (el : Xml) (xa ya : String) (f : InputFile) (el' : Xml)
    (h : update_xml_routing_pos el xa ya f = .ok el') : el'.tag = el.tag := by
  unfold update_xml_routing_pos at h
  split at h
  · split at h
    · split at h
      · injection h with h
        rw [← h]
        rfl
      · cases h
    · cases h
  · cases h

theorem update_rot_tag (el : Xml) (ra : String) (f : InputFile) (el' : Xml)
    (h : update_xml_routing_rot el ra f = .ok el') : el'.tag = el.tag := by
  unfold update_xml_routing_rot at h
  dsimp only at h
  split at h
  · cases h
  · split at h <;> split at h <;> (injection h with h; rw [← h]) <;> rfl

theorem update_routing_tag_element (el : Xml) (f : InputFile) (el' : Xml)
    (ht : el.tag = "element") (h : update_routing el f = .ok el') : el'.tag = "element" := by
  cases el with
  | node t a c tl =>
    simp only [Xml.tag] at ht
    subst ht
    rw [update_routing] at h
    simp only [show (("element" == "wire") = true) = False from by simp,
      show (("element" == "polygon") = true) = False from by simp,
      show (("element" == "text") = true) = False from by simp,
      show (("element" == "dimension") = true) = False from by simp,
      show (("element" == "circle") = true) = False from by simp,
      show (("element" == "rectangle") = true) = False from by simp,
      show (("element" == "frame") = true) = False from by simp,
      show (("element" == "hole") = true) = False from by simp,
      show (("element" == "contactref") = true) = False from by simp,
      show (("element" == "via") = true) = False from by simp,
      show (("element" == "element") = true) = True from by simp,
      if_false, if_true] at h
    split at h
    · cases h
    · next el1 heq1 =>
      split at h
      · cases h
      · next el2 heq2 =>
        split at h
        · cases h
        · next c' heq3 =>
          injection h with h
          rw [← h]
          have ht1 := update_pos_tag _ _ _ _ _ heq1
          have ht2 := update_rot_tag _ _ _ _ heq2
          simp only [Xml.tag] at ht1 ht2 ⊢
          rw [ht2, ht1]

theorem override_name_label_tag (el : Xml) (o : String) :
    (override_name_label el o).tag = el.tag := by
  unfold override_name_label
  split
  · rfl
  · split
    · rfl
    · rfl

theorem override_name_label_get (el : Xml) (o k : String) :
    (override_name_label el o).get k = el.get k := by
  unfold override_name_label
  split
  · rfl
  · split
    · rfl
    · rfl

theorem unique_name_ok_free (out : Xml) (tag : String) (cand : Nat → String) :
    ∀ (fuel k : Nat) (s : String), unique_name out tag cand fuel k = some s →
      name_free out tag s = true := by
  intro fuel
  induction fuel with
  | zero => intro k s h; cases h
  | succ fuel ih =>
    intro k s h
    unfold unique_name at h
    split at h
    · next hfree =>
      injection h with h
      rw [← h]
      exact hfree
    · exact ih (k + 1) s h

/-- Names carried by the children of a section. -/
def section_names (sec : Xml) : List String :=
  sec.children.filterMap (fun c => c.get "name")

/-- Invariant of an `elements`/`signals` section: every child carries the
expected tag and a name, and the names are pairwise distinct. -/
def SecInv (childTag : String) (sec : Xml) : Prop :=
  (∀ c ∈ sec.children, c.tag = childTag ∧ (c.get "name").isSome = true)
  ∧ (section_names sec).Nodup

theorem name_free_not_mem (sec : Xml) (childTag nm : String)
    (hinv : ∀ c ∈ sec.children, c.tag = childTag)
    (hfree : name_free sec childTag nm = true) : nm ∉ section_names sec := by
  intro hmem
  rw [section_names, List.mem_filterMap] at hmem
  obtain ⟨c, hc, hget⟩ := hmem
  unfold name_free find_child at hfree
  rw [Option.isNone_iff_eq_none, List.find?_eq_none] at hfree
  have := hfree c hc
  apply this
  unfold attrs_match
  rw [hinv c hc]
  simp [hget]

theorem section_names_append (sec : Xml) (x : Xml) (nm : String)
    (hx : x.get "name" = some nm) :
    section_names (append_child sec x) = section_names sec ++ [nm] := by
  unfold section_names
  rw [Xml.children_append_child, List.filterMap_append]
  simp [hx]

theorem nodup_append_singleton {l : List String} {a : String}
    (h1 : l.Nodup) (h2 : a ∉ l) : (l ++ [a]).Nodup := by
  rw [List.nodup_append]
  refine ⟨h1, List.nodup_singleton a, ?_⟩
  intro x hx hx2
  simp at hx2
  subst hx2
  exact h2 hx

theorem append_elements_inv :
    ∀ (cs : List Xml) (sec : Xml) (m : RenameMap) (f : InputFile) (sec' : Xml) (m' : RenameMap),
    append_elements_children sec m f cs = .ok (sec', m') →
    SecInv "element" sec →
    SecInv "element" sec' ∧ sec'.tag = sec.tag := by
  intro cs
  induction cs with
  | nil =>
    intro sec m f sec' m' h hinv
    unfold append_elements_children at h
    injection h with h
    injection h with h1 h2
    subst h1
    exact ⟨hinv, rfl⟩
  | cons child rest ih =>
    intro sec m f sec' m' h hinv
    unfold append_elements_children at h
    split at h
    case isFalse => cases h
    case isTrue hch =>
      split at h
      case h_1 => cases h
      case h_2 nc heq_ur =>
        split at h
        case h_1 => cases h
        case h_2 nm heq_nm =>
          split at h
          case h_1 => cases h
          case h_2 newName hequ =>
            have hfree := unique_name_ok_free sec "element" (cand_el nm) _ _ _ hequ
            have hnotmem := name_free_not_mem sec "element" newName
              (fun c hc => (hinv.1 c hc).1) hfree
            have htag_nc : nc.tag = "element" :=
              update_routing_tag_element child f nc (beq_iff_eq.mp hch) heq_ur
            split at h
            case isTrue hbeq =>
              have hinv' : SecInv "element" (append_child sec (nc.set "name" newName)) := by
                constructor
                · intro c hc
                  rw [Xml.children_append_child, List.mem_append] at hc
                  rcases hc with hc | hc
                  · exact hinv.1 c hc
                  · simp only [List.mem_singleton] at hc
                    subst hc
                    refine ⟨?_, ?_⟩
                    · rw [Xml.tag_set, htag_nc]
                    · rw [Xml.get_set_self]
                      rfl
                · rw [section_names_append _ _ newName (Xml.get_set_self _ _ _)]
                  exact nodup_append_singleton hinv.2 hnotmem
              have hres := ih _ _ _ _ _ h hinv'
              exact ⟨hres.1, by rw [hres.2]; rfl⟩
            case isFalse hbeq =>
              have hinv' : SecInv "element"
                  (append_child sec (override_name_label (nc.set "name" newName) nm)) := by
                constructor
                · intro c hc
                  rw [Xml.children_append_child, List.mem_append] at hc
                  rcases hc with hc | hc
                  · exact hinv.1 c hc
                  · simp only [List.mem_singleton] at hc
                    subst hc
                    refine ⟨?_, ?_⟩
                    · rw [override_name_label_tag, Xml.tag_set, htag_nc]
                    · rw [override_name_label_get, Xml.get_set_self]
                      rfl
                · rw [section_names_append _ _ newName
                    (by rw [override_name_label_get, Xml.get_set_self])]
                  exact nodup_append_singleton hinv.2 hnotmem
              have hres := ih _ _ _ _ _ h hinv'
              exact ⟨hres.1, by rw [hres.2]; rfl⟩

theorem append_signals_inv :
    ∀ (cs : List Xml) (sec : Xml) (m : RenameMap) (f : InputFile) (sec' : Xml),
    append_signals_children sec m f cs = .ok sec' →
    SecInv "signal" sec →
    SecInv "signal" sec' ∧ sec'.tag = sec.tag := by
  intro cs
  induction cs with
  | nil =>
    intro sec m f sec' h hinv
    unfold append_signals_children at h
    injection h with h
    subst h
    exact ⟨hinv, rfl⟩
  | cons child rest ih =>
    intro sec m f sec' h hinv
    unfold append_signals_children at h
    split at h
    case isFalse => cases h
    case isTrue hch =>
      split at h
      case h_1 => cases h
      case h_2 cc heq_cc =>
        dsimp only at h
        split at h
        case h_1 => cases h
        case h_2 nm heq_nm =>
          split at h
          case h_1 => cases h
          case h_2 newName hequ =>
            have hfree := unique_name_ok_free sec "signal" (cand_sig nm) _ _ _ hequ
            have hnotmem := name_free_not_mem sec "signal" newName
              (fun c hc => (hinv.1 c hc).1) hfree
            have hinv' : SecInv "signal"
                (append_child sec ((Xml.node child.tag child.attrs cc child.tail).set "name" newName)) := by
              constructor
              · intro c hc
                rw [Xml.children_append_child, List.mem_append] at hc
                rcases hc with hc | hc
                · exact hinv.1 c hc
                · simp only [List.mem_singleton] at hc
                  subst hc
                  refine ⟨?_, ?_⟩
                  · rw [Xml.tag_set]
                    exact beq_iff_eq.mp hch
                  · rw [Xml.get_set_self]
                    rfl
              · rw [section_names_append _ _ newName (Xml.get_set_self _ _ _)]
                exact nodup_append_singleton hinv.2 hnotmem
            have hres := ih _ _ _ _ h hinv'
            exact ⟨hres.1, by rw [hres.2]; rfl⟩

theorem with_child_aux_spec {β : Type} (tag : String) (f : Xml → Except MErr (Xml × β))
    (hpres : ∀ x r b, f x = .ok (r, b) → Xml.tag r = Xml.tag x) :
    ∀ (cs cs' : List Xml) (b : β),
    with_child_aux tag f cs = .ok (cs', b) →
    ∃ sec₀ r, f sec₀ = .ok (r, b)
      ∧ (cs.find? (fun c => c.tag == tag) = some sec₀
         ∨ (cs.find? (fun c => c.tag == tag) = none ∧ sec₀ = create_child tag))
      ∧ cs'.find? (fun c => c.tag == tag) = some r
      ∧ (∀ p : Xml → Bool, (∀ x, x.tag = tag → p x = false) → cs'.find? p = cs.find? p) := by
  intro cs
  induction cs with
  | nil =>
    intro cs' b h
    unfold with_child_aux at h
    split at h
    case h_1 => cases h
    case h_2 c b' heq =>
      injection h with h
      injection h with h1 h2
      subst h1
      subst h2
      refine ⟨create_child tag, c, heq, Or.inr ⟨rfl, rfl⟩, ?_, ?_⟩
      · have htc : c.tag = tag := by
          rw [hpres _ _ _ heq]
          rfl
        simp [List.find?, htc]
      · intro p hp
        have hc : p c = false := hp c (by rw [hpres _ _ _ heq]; rfl)
        simp [List.find?, hc]
  | cons c rest ih =>
    intro cs' b h
    unfold with_child_aux at h
    split at h
    case isTrue hct =>
      split at h
      case h_1 => cases h
      case h_2 c' b' heq =>
        injection h with h
        injection h with h1 h2
        subst h1
        subst h2
        refine ⟨c, c', heq, ?_, ?_, ?_⟩
        · left
          simp [List.find?, hct]
        · have htc : c'.tag = tag := by
            rw [hpres _ _ _ heq]
            exact beq_iff_eq.mp hct
          simp [List.find?, htc]
        · intro p hp
          have h1 : p c = false := hp c (beq_iff_eq.mp hct)
          have h2 : p c' = false := hp c' (by rw [hpres _ _ _ heq]; exact beq_iff_eq.mp hct)
          simp [List.find?, h1, h2]
    case isFalse hct =>
      split at h
      case h_1 => cases h
      case h_2 rest' b' heq =>
        injection h with h
        injection h with h1 h2
        subst h1
        subst h2
        obtain ⟨sec₀, r, hf, hfind, hfind', hstable⟩ := ih rest' b' heq
        have hcf : (c.tag == tag) = false := by revert hct; cases c.tag == tag <;> simp
        refine ⟨sec₀, r, hf, ?_, ?_, ?_⟩
        · rcases hfind with h1 | ⟨h1, h2⟩
          · left
            simp [List.find?, hcf, h1]
          · right
            exact ⟨by simp [List.find?, hcf, h1], h2⟩
        · simp [List.find?, hcf, hfind']
        · intro p hp
          cases hpc : p c with
          | true => simp [List.find?, hpc]
          | false => simp [List.find?, hpc, hstable p hp]

theorem with_child_spec {β : Type} (el : Xml) (tag : String)
    (f : Xml → Except MErr (Xml × β)) (el' : Xml) (b : β)
    (hpres : ∀ x r bb, f x = .ok (r, bb) → Xml.tag r = Xml.tag x)
    (h : with_child el tag f = .ok (el', b)) :
    ∃ sec₀ r, f sec₀ = .ok (r, b)
      ∧ (find_child el tag [] = some sec₀
         ∨ (find_child el tag [] = none ∧ sec₀ = create_child tag))
      ∧ find_child el' tag [] = some r
      ∧ (∀ t', t' ≠ tag → find_child el' t' [] = find_child el t' [])
      ∧ el'.tag = el.tag := by
  unfold with_child at h
  split at h
  case h_1 => cases h
  case h_2 ch b' heq =>
    injection h with h
    injection h with h1 h2
    subst h2
    obtain ⟨sec₀, r, hf, hfind, hfind', hstable⟩ := with_child_aux_spec tag f hpres _ _ _ heq
    refine ⟨sec₀, r, hf, ?_, ?_, ?_, ?_⟩
    · rw [find_child_nil_attrs]
      exact hfind
    · rw [← h1]
      rw [find_child_nil_attrs]
      exact hfind'
    · intro t' ht'
      rw [← h1, find_child_nil_attrs, find_child_nil_attrs]
      apply hstable
      intro x hx
      rw [hx]
      exact beq_eq_false_iff_ne.mpr (fun he => ht' he.symm)
    · rw [← h1]
      rfl

theorem with_child_tag {β : Type} (el : Xml) (tag : String) (f : Xml → Except MErr (Xml × β))
    (el' : Xml) (b : β) (h : with_child el tag f = .ok (el', b)) : el'.tag = el.tag := by
  unfold with_child at h
  split at h
  · cases h
  · injection h with h
    injection h with h1 h2
    rw [← h1]
    rfl

theorem merge_settings_children_tag :
    ∀ (cs : List Xml) (el el' : Xml) (ws : List Warn),
    merge_settings_children el cs = .ok (el', ws) → el'.tag = el.tag := by
  intro cs
  induction cs with
  | nil =>
    intro el el' ws h
    unfold merge_settings_children at h
    injection h with h
    injection h with h1 h2
    rw [← h1]
  | cons c rest ih =>
    intro el el' ws h
    unfold merge_settings_children at h
    split at h
    case isFalse => cases h
    case isTrue =>
      split at h
      case isFalse => cases h
      case isTrue =>
        dsimp only at h
        rcases hfc : find_child el "setting" (List.map (fun kv => (kv.1, none)) c.attrs)
          with _ | found
        · rw [hfc] at h
          have := ih _ _ _ h
          rw [this]
          rfl
        · rw [hfc] at h
          dsimp only at h
          by_cases hcmp : xml_tree_compare found c ≠ 0
          · rw [if_pos hcmp] at h
            rcases hm : merge_settings_children el rest with e | p
            · rw [hm] at h
              cases h
            · obtain ⟨o, ws2⟩ := p
              rw [hm] at h
              injection h with h
              injection h with h1 h2
              rw [← h1]
              exact ih _ _ _ hm
          · rw [if_neg hcmp] at h
            exact ih _ _ _ h

theorem merge_xml_settings_tag (el inel el' : Xml) (ws : List Warn)
    (h : merge_xml_settings el inel = .ok (el', ws)) : el'.tag = el.tag := by
  unfold merge_xml_settings at h
  split at h
  · cases h
  · next o ws2 heq =>
    split at h
    · injection h with h
      injection h with h1 h2
      rw [← h1]
      exact merge_settings_children_tag _ _ _ _ heq
    · cases h

theorem merge_layers_children_tag :
    ∀ (cs : List Xml) (el el' : Xml),
    merge_layers_children el cs = .ok el' → el'.tag = el.tag := by
  intro cs
  induction cs with
  | nil =>
    intro el el' h
    unfold merge_layers_children at h
    injection h with h
    rw [← h]
  | cons c rest ih =>
    intro el el' h
    unfold merge_layers_children at h
    split at h
    case isFalse => cases h
    case isTrue =>
      split at h
      · have := ih _ _ h
        rw [this]
        rfl
      · exact ih _ _ h

theorem merge_xml_layers_tag (el inel el' : Xml)
    (h : merge_xml_layers el inel = .ok el') : el'.tag = el.tag := by
  unfold merge_xml_layers at h
  split at h
  · cases h
  · next o heq =>
    split at h
    · injection h with h
      rw [← h]
      exact merge_layers_children_tag _ _ _ heq
    · cases h

theorem append_plain_children_tag :
    ∀ (cs : List Xml) (el : Xml) (f : InputFile) (el' : Xml),
    append_plain_children el f cs = .ok el' → el'.tag = el.tag := by
  intro cs
  induction cs with
  | nil =>
    intro el f el' h
    unfold append_plain_children at h
    injection h with h
    rw [← h]
  | cons c rest ih =>
    intro el f el' h
    unfold append_plain_children at h
    split at h
    · cases h
    · have := ih _ _ _ h
      rw [this]
      rfl

theorem append_xml_plain_tag (el inel : Xml) (f : InputFile) (el' : Xml)
    (h : append_xml_plain el inel f = .ok el') : el'.tag = el.tag := by
  unfold append_xml_plain at h
  split at h
  · cases h
  · next o heq =>
    split at h
    · injection h with h
      rw [← h]
      exact append_plain_children_tag _ _ _ _ heq
    · cases h

theorem merge_libraries_children_tag :
    ∀ (cs : List Xml) (el el' : Xml),
    merge_libraries_children el cs = .ok el' → el'.tag = el.tag := by
  intro cs
  induction cs with
  | nil =>
    intro el el' h
    unfold merge_libraries_children at h
    injection h with h
    rw [← h]
  | cons c rest ih =>
    intro el el' h
    unfold merge_libraries_children at h
    split at h
    case isFalse => cases h
    case isTrue =>
      split at h
      case h_1 => cases h
      case h_2 =>
        have := ih _ _ h
        rw [this]
        rfl
      case h_3 =>
        have := ih _ _ h
        rw [this]
        rfl

theorem merge_xml_libraries_tag (el inel el' : Xml)
    (h : merge_xml_libraries el inel = .ok el') : el'.tag = el.tag := by
  unfold merge_xml_libraries at h
  split at h
  · cases h
  · next o heq =>
    split at h
    · injection h with h
      rw [← h]
      exact merge_libraries_children_tag _ _ _ heq
    · cases h

theorem append_elements_children_tag :
    ∀ (cs : List Xml) (el : Xml) (m : RenameMap) (f : InputFile) (el' : Xml) (m' : RenameMap),
    append_elements_children el m f cs = .ok (el', m') → el'.tag = el.tag := by
  intro cs
  induction cs with
  | nil =>
    intro el m f el' m' h
    unfold append_elements_children at h
    injection h with h
    injection h with h1 h2
    rw [← h1]
  | cons c rest ih =>
    intro el m f el' m' h
    unfold append_elements_children at h
    split at h
    case isFalse => cases h
    case isTrue =>
      split at h
      case h_1 => cases h
      case h_2 =>
        split at h
        case h_1 => cases h
        case h_2 =>
          split at h
          case h_1 => cases h
          case h_2 =>
            split at h
            · have := ih _ _ _ _ _ h
              rw [this]
              rfl
            · have := ih _ _ _ _ _ h
              rw [this]
              rfl

theorem append_xml_elements_tag (el inel : Xml) (m : RenameMap) (f : InputFile)
    (el' : Xml) (m' : RenameMap)
    (h : append_xml_elements el inel m f = .ok (el', m')) : el'.tag = el.tag := by
  unfold append_xml_elements at h
  split at h
  · cases h
  · next o m2 heq =>
    split at h
    · injection h with h
      injection h with h1 h2
      rw [← h1]
      exact append_elements_children_tag _ _ _ _ _ _ heq
    · cases h

theorem append_signals_children_tag :
    ∀ (cs : List Xml) (el : Xml) (m : RenameMap) (f : InputFile) (el' : Xml),
    append_signals_children el m f cs = .ok el' → el'.tag = el.tag := by
  intro cs
  induction cs with
  | nil =>
    intro el m f el' h
    unfold append_signals_children at h
    injection h with h
    rw [← h]
  | cons c rest ih =>
    intro el m f el' h
    unfold append_signals_children at h
    split at h
    case isFalse => cases h
    case isTrue =>
      split at h
      case h_1 => cases h
      case h_2 =>
        dsimp only at h
        split at h
        case h_1 => cases h
        case h_2 =>
          split at h
          case h_1 => cases h
          case h_2 =>
            have := ih _ _ _ _ h
            rw [this]
            rfl

theorem append_xml_signals_tag (el inel : Xml) (m : RenameMap) (f : InputFile) (el' : Xml)
    (h : append_xml_signals el inel m f = .ok el') : el'.tag = el.tag := by
  unfold append_xml_signals at h
  split at h
  · cases h
  · next o heq =>
    split at h
    · injection h with h
      rw [← h]
      exact append_signals_children_tag _ _ _ _ _ heq
    · cases h

theorem append_xml_errors_tag (el inel : Xml) (f : InputFile) (el' : Xml)
    (h : append_xml_errors el inel f = .ok el') : el'.tag = el.tag := by
  injection h with h
  rw [← h]

theorem merge_board_children_tag :
    ∀ (cs : List Xml) (bd : Xml) (m : RenameMap) (f : InputFile) (bd' : Xml),
    merge_board_children bd m f cs = .ok bd' → bd'.tag = bd.tag := by
  intro cs
  induction cs with
  | nil =>
    intro bd m f bd' h
    unfold merge_board_children at h
    injection h with h
    rw [← h]
  | cons c rest ih =>
    intro bd m f bd' h
    unfold merge_board_children at h
    split at h
    · split at h
      · cases h
      · next o u heq =>
        rw [ih _ _ _ _ h, with_child_tag _ _ _ _ _ heq]
    · split at h
      · split at h
        · cases h
        · next o u heq =>
          rw [ih _ _ _ _ h, with_child_tag _ _ _ _ _ heq]
      · split at h
        · split at h
          · cases h
          · next o heq =>
            rw [ih _ _ _ _ h, sync_child_error_tag _ _ _ _ _ heq]
        · split at h
          · split at h
            · cases h
            · next o heq =>
              rw [ih _ _ _ _ h, sync_child_error_tag _ _ _ _ _ heq]
          · split at h
            · split at h
              · cases h
              · next o heq =>
                rw [ih _ _ _ _ h, sync_child_error_tag _ _ _ _ _ heq]
            · split at h
              · split at h
                · cases h
                · next o heq =>
                  rw [ih _ _ _ _ h, sync_child_error_tag _ _ _ _ _ heq]
              · split at h
                · rw [ih _ _ _ _ h, sync_child_tag]
                · split at h
                  · split at h
                    · cases h
                    · next o m2 heq =>
                      rw [ih _ _ _ _ h, with_child_tag _ _ _ _ _ heq]
                  · split at h
                    · split at h
                      · cases h
                      · next o u heq =>
                        rw [ih _ _ _ _ h, with_child_tag _ _ _ _ _ heq]
                    · split at h
                      · split at h
                        · cases h
                        · next o u heq =>
                          rw [ih _ _ _ _ h, with_child_tag _ _ _ _ _ heq]
                      · cases h

theorem merge_xml_board_tag (el inel : Xml) (f : InputFile) (el' : Xml)
    (h : merge_xml_board el inel f = .ok el') : el'.tag = el.tag := by
  unfold merge_xml_board at h
  split at h
  · cases h
  · next o heq =>
    split at h
    · injection h with h
      rw [← h]
      exact merge_board_children_tag _ _ _ _ _ heq
    · cases h

theorem merge_drawing_children_tag :
    ∀ (cs : List Xml) (el : Xml) (f : InputFile) (el' : Xml) (ws : List Warn),
    merge_drawing_children el f cs = .ok (el', ws) → el'.tag = el.tag := by
  intro cs
  induction cs with
  | nil =>
    intro el f el' ws h
    unfold merge_drawing_children at h
    injection h with h
    injection h with h1 h2
    rw [← h1]
  | cons c rest ih =>
    intro el f el' ws h
    unfold merge_drawing_children at h
    split at h
    · split at h
      · cases h
      · next o ws1 heq =>
        split at h
        · cases h
        · next o2 ws2 heq2 =>
          injection h with h
          injection h with h1 h2
          rw [← h1]
          rw [ih _ _ _ _ heq2, with_child_tag _ _ _ _ _ heq]
    · split at h
      · rw [ih _ _ _ _ h, sync_child_tag]
      · split at h
        · split at h
          · cases h
          · next o u heq =>
            rw [ih _ _ _ _ h, with_child_tag _ _ _ _ _ heq]
        · split at h
          · split at h
            · cases h
            · next o u heq =>
              rw [ih _ _ _ _ h, with_child_tag _ _ _ _ _ heq]
          · cases h

theorem merge_xml_drawing_tag (el inel : Xml) (f : InputFile) (el' : Xml) (ws : List Warn)
    (h : merge_xml_drawing el inel f = .ok (el', ws)) : el'.tag = el.tag := by
  unfold merge_xml_drawing at h
  split at h
  · cases h
  · next o ws1 heq =>
    split at h
    · injection h with h
      injection h with h1 h2
      rw [← h1]
      exact merge_drawing_children_tag _ _ _ _ _ heq
    · cases h

/-- Invariant of a board: its (first) `elements` and `signals` sections
satisfy the section invariant. -/
def BoardInv (b : Xml) : Prop :=
  (∀ sec, find_child b "elements" [] = some sec → SecInv "element" sec)
  ∧ (∀ sec, find_child b "signals" [] = some sec → SecInv "signal" sec)

theorem SecInv_create (tag childTag : String) : SecInv childTag (create_child tag) := by
  constructor
  · intro c hc
    cases hc
  · exact List.nodup_nil

theorem BoardInv_transport {bd bd' : Xml}
    (he : find_child bd' "elements" [] = find_child bd "elements" [])
    (hsg : find_child bd' "signals" [] = find_child bd "signals" [])
    (hinv : BoardInv bd) : BoardInv bd' := by
  constructor
  · intro sec hs
    rw [he] at hs
    exact hinv.1 sec hs
  · intro sec hs
    rw [hsg] at hs
    exact hinv.2 sec hs

theorem map_unit_pres {f : Xml → Except MErr Xml}
    (hf : ∀ x r, f x = .ok r → Xml.tag r = Xml.tag x) :
    ∀ (x r : Xml) (b : Unit), (f x).map (fun y => (y, ())) = .ok (r, b) →
      Xml.tag r = Xml.tag x := by
  intro x r b h
  cases hfx : f x with
  | error e =>
    rw [hfx] at h
    cases h
  | ok y =>
    rw [hfx] at h
    injection h with h
    injection h with h1 h2
    rw [← h1]
    exact hf x y hfx

theorem map_unit_ok {f : Xml → Except MErr Xml} {x r : Xml} {b : Unit}
    (h : (f x).map (fun y => (y, ())) = .ok (r, b)) : f x = .ok r := by
  cases hfx : f x with
  | error e =>
    rw [hfx] at h
    cases h
  | ok y =>
    rw [hfx] at h
    injection h with h
    injection h with h1 h2
    rw [h1]

theorem sync_child_error_stable (el : Xml) (t : String) (c : Xml) (msg : String) (o : Xml)
    (h : sync_child_error el t c msg = .ok o) (hct : c.tag = t)
    (t' : String) (ht' : t' ≠ t) :
    find_child o t' [] = find_child el t' [] := by
  unfold sync_child_error at h
  split at h
  · injection h with h
    rw [← h, find_child_nil_attrs, find_child_nil_attrs, Xml.children_append_child]
    apply find?_append_single
    rw [hct]
    exact beq_eq_false_iff_ne.mpr (fun he => ht' he.symm)
  · split at h
    · cases h
    · injection h with h
      rw [← h]

theorem sync_child_stable (el : Xml) (t : String) (c : Xml)
    (hct : c.tag = t) (t' : String) (ht' : t' ≠ t) :
    find_child (sync_child el t c) t' [] = find_child el t' [] := by
  unfold sync_child
  split
  · rw [find_child_nil_attrs, find_child_nil_attrs, Xml.children_append_child]
    apply find?_append_single
    rw [hct]
    exact beq_eq_false_iff_ne.mpr (fun he => ht' he.symm)
  · rfl

theorem append_xml_elements_inv (sec inel : Xml) (m : RenameMap) (f : InputFile)
    (sec' : Xml) (m' : RenameMap)
    (h : append_xml_elements sec inel m f = .ok (sec', m'))
    (hinv : SecInv "element" sec) : SecInv "element" sec' := by
  unfold append_xml_elements at h
  split at h
  · cases h
  · next o m2 heq =>
    split at h
    · injection h with h
      injection h with h1 h2
      rw [← h1]
      exact (append_elements_inv _ _ _ _ _ _ heq hinv).1
    · cases h

theorem append_xml_signals_inv (sec inel : Xml) (m : RenameMap) (f : InputFile) (sec' : Xml)
    (h : append_xml_signals sec inel m f = .ok sec')
    (hinv : SecInv "signal" sec) : SecInv "signal" sec' := by
  unfold append_xml_signals at h
  split at h
  · cases h
  · next o heq =>
    split at h
    · injection h with h
      rw [← h]
      exact (append_signals_inv _ _ _ _ _ heq hinv).1
    · cases h

theorem merge_board_inv :
    ∀ (cs : List Xml) (bd : Xml) (m : RenameMap) (f : InputFile) (bd' : Xml),
    merge_board_children bd m f cs = .ok bd' → BoardInv bd → BoardInv bd' := by
  intro cs
  induction cs with
  | nil =>
    intro bd m f bd' h hinv
    unfold merge_board_children at h
    injection h with h
    rw [← h]
    exact hinv
  | cons c rest ih =>
    intro bd m f bd' h hinv
    unfold merge_board_children at h
    split at h
    · split at h
      · cases h
      · next o u heq =>
        obtain ⟨sec₀, r, hf, hfind, hfind', hstable, htag⟩ :=
          with_child_spec bd "plain" _ o u
            (map_unit_pres (fun x r hh => append_xml_plain_tag x c f r hh)) heq
        exact ih _ _ _ _ h (BoardInv_transport (hstable "elements" (by decide))
          (hstable "signals" (by decide)) hinv)
    · split at h
      · split at h
        · cases h
        · next o u heq =>
          obtain ⟨sec₀, r, hf, hfind, hfind', hstable, htag⟩ :=
            with_child_spec bd "libraries" _ o u
              (map_unit_pres (fun x r hh => merge_xml_libraries_tag x c r hh)) heq
          exact ih _ _ _ _ h (BoardInv_transport (hstable "elements" (by decide))
            (hstable "signals" (by decide)) hinv)
      · split at h
        · next hc3 =>
          split at h
          · cases h
          · next o heq =>
            exact ih _ _ _ _ h (BoardInv_transport
              (sync_child_error_stable bd "attributes" c _ o heq (beq_iff_eq.mp hc3)
                "elements" (by decide))
              (sync_child_error_stable bd "attributes" c _ o heq (beq_iff_eq.mp hc3)
                "signals" (by decide)) hinv)
        · split at h
          · next hc4 =>
            split at h
            · cases h
            · next o heq =>
              exact ih _ _ _ _ h (BoardInv_transport
                (sync_child_error_stable bd "variantdefs" c _ o heq (beq_iff_eq.mp hc4)
                  "elements" (by decide))
                (sync_child_error_stable bd "variantdefs" c _ o heq (beq_iff_eq.mp hc4)
                  "signals" (by decide)) hinv)
          · split at h
            · next hc5 =>
              split at h
              · cases h
              · next o heq =>
                exact ih _ _ _ _ h (BoardInv_transport
                  (sync_child_error_stable bd "classes" c _ o heq (beq_iff_eq.mp hc5)
                    "elements" (by decide))
                  (sync_child_error_stable bd "classes" c _ o heq (beq_iff_eq.mp hc5)
                    "signals" (by decide)) hinv)
            · split at h
              · next hc6 =>
                split at h
                · cases h
                · next o heq =>
                  exact ih _ _ _ _ h (BoardInv_transport
                    (sync_child_error_stable bd "designrules" c _ o heq (beq_iff_eq.mp hc6)
                      "elements" (by decide))
                    (sync_child_error_stable bd "designrules" c _ o heq (beq_iff_eq.mp hc6)
                      "signals" (by decide)) hinv)
              · split at h
                · next hc7 =>
                  exact ih _ _ _ _ h (BoardInv_transport
                    (sync_child_stable bd "autorouter" c (beq_iff_eq.mp hc7)
                      "elements" (by decide))
                    (sync_child_stable bd "autorouter" c (beq_iff_eq.mp hc7)
                      "signals" (by decide)) hinv)
                · split at h
                  · split at h
                    · cases h
                    · next o m2 heq =>
                      obtain ⟨sec₀, r, hf, hfind, hfind', hstable, htag⟩ :=
                        with_child_spec bd "elements" _ o m2
                          (fun x r b hh => append_xml_elements_tag x c m f r b hh) heq
                      have hsec₀ : SecInv "element" sec₀ := by
                        rcases hfind with hf1 | ⟨hf1, hf2⟩
                        · exact hinv.1 sec₀ hf1
                        · rw [hf2]
                          exact SecInv_create _ _
                      have hr : SecInv "element" r :=
                        append_xml_elements_inv sec₀ c m f r m2 hf hsec₀
                      have hinv' : BoardInv o := by
                        constructor
                        · intro sec hs
                          rw [hfind'] at hs
                          injection hs with hs
                          rw [← hs]
                          exact hr
                        · intro sec hs
                          rw [hstable "signals" (by decide)] at hs
                          exact hinv.2 sec hs
                      exact ih _ _ _ _ h hinv'
                  · split at h
                    · split at h
                      · cases h
                      · next o u heq =>
                        obtain ⟨sec₀, r, hf, hfind, hfind', hstable, htag⟩ :=
                          with_child_spec bd "signals" _ o u
                            (map_unit_pres (fun x r hh => append_xml_signals_tag x c m f r hh))
                            heq
                        have hsec₀ : SecInv "signal" sec₀ := by
                          rcases hfind with hf1 | ⟨hf1, hf2⟩
                          · exact hinv.2 sec₀ hf1
                          · rw [hf2]
                            exact SecInv_create _ _
                        have hr : SecInv "signal" r :=
                          append_xml_signals_inv sec₀ c m f r
                            (@map_unit_ok (fun sec => append_xml_signals sec c m f) sec₀ r u hf)
                            hsec₀
                        have hinv' : BoardInv o := by
                          constructor
                          · intro sec hs
                            rw [hstable "elements" (by decide)] at hs
                            exact hinv.1 sec hs
                          · intro sec hs
                            rw [hfind'] at hs
                            injection hs with hs
                            rw [← hs]
                            exact hr
                        exact ih _ _ _ _ h hinv'
                    · split at h
                      · split at h
                        · cases h
                        · next o u heq =>
                          obtain ⟨sec₀, r, hf, hfind, hfind', hstable, htag⟩ :=
                            with_child_spec bd "errors" _ o u
                              (map_unit_pres (fun x r hh => append_xml_errors_tag x c f r hh))
                              heq
                          exact ih _ _ _ _ h (BoardInv_transport
                            (hstable "elements" (by decide))
                            (hstable "signals" (by decide)) hinv)
                      · cases h

/-- Invariant of a drawing: its (first) board satisfies `BoardInv`. -/
def DrawInv (d : Xml) : Prop := ∀ b, find_child d "board" [] = some b → BoardInv b

/-- Invariant of a root element: its (first) drawing satisfies `DrawInv`. -/
def EagleInv (e : Xml) : Prop := ∀ d, find_child e "drawing" [] = some d → DrawInv d

theorem find_child_create (tag t : String) (a : List (String × Option String)) :
    find_child (create_child tag) t a = none := rfl

theorem BoardInv_create : BoardInv (create_child "board") := by
  constructor
  · intro sec hs
    rw [find_child_create] at hs
    cases hs
  · intro sec hs
    rw [find_child_create] at hs
    cases hs

theorem DrawInv_create : DrawInv (create_child "drawing") := by
  intro b hb
  rw [find_child_create] at hb
  cases hb

theorem DrawInv_transport {d d' : Xml}
    (hs : find_child d' "board" [] = find_child d "board" [])
    (hinv : DrawInv d) : DrawInv d' := by
  intro b hb
  rw [hs] at hb
  exact hinv b hb

theorem EagleInv_transport {e e' : Xml}
    (hs : find_child e' "drawing" [] = find_child e "drawing" [])
    (hinv : EagleInv e) : EagleInv e' := by
  intro d hd
  rw [hs] at hd
  exact hinv d hd

theorem merge_xml_board_inv (x c : Xml) (f : InputFile) (r : Xml)
    (h : merge_xml_board x c f = .ok r) (hinv : BoardInv x) : BoardInv r := by
  unfold merge_xml_board at h
  split at h
  · cases h
  · next o heq =>
    split at h
    · injection h with h
      rw [← h]
      exact merge_board_inv _ _ _ _ _ heq hinv
    · cases h

theorem merge_drawing_inv :
    ∀ (cs : List Xml) (d : Xml) (f : InputFile) (d' : Xml) (ws : List Warn),
    merge_drawing_children d f cs = .ok (d', ws) → DrawInv d → DrawInv d' := by
  intro cs
  induction cs with
  | nil =>
    intro d f d' ws h hinv
    unfold merge_drawing_children at h
    injection h with h
    injection h with h1 h2
    rw [← h1]
    exact hinv
  | cons c rest ih =>
    intro d f d' ws h hinv
    unfold merge_drawing_children at h
    split at h
    · split at h
      · cases h
      · next o ws1 heq =>
        split at h
        · cases h
        · next o2 ws2 heq2 =>
          injection h with h
          injection h with h1 h2
          rw [← h1]
          obtain ⟨sec₀, r, hf, hfind, hfind', hstable, htag⟩ :=
            with_child_spec d "settings" _ o ws1
              (fun x r b hh => merge_xml_settings_tag x c r b hh) heq
          exact ih _ _ _ _ heq2 (DrawInv_transport (hstable "board" (by decide)) hinv)
    · split at h
      · next hc2 =>
        exact ih _ _ _ _ h (DrawInv_transport
          (sync_child_stable d "grid" c (beq_iff_eq.mp hc2) "board" (by decide)) hinv)
      · split at h
        · split at h
          · cases h
          · next o u heq =>
            obtain ⟨sec₀, r, hf, hfind, hfind', hstable, htag⟩ :=
              with_child_spec d "layers" _ o u
                (map_unit_pres (fun x r hh => merge_xml_layers_tag x c r hh)) heq
            exact ih _ _ _ _ h (DrawInv_transport (hstable "board" (by decide)) hinv)
        · split at h
          · split at h
            · cases h
            · next o u heq =>
              obtain ⟨sec₀, r, hf, hfind, hfind', hstable, htag⟩ :=
                with_child_spec d "board" _ o u
                  (map_unit_pres (fun x r hh => merge_xml_board_tag x c f r hh)) heq
              have hsec₀ : BoardInv sec₀ := by
                rcases hfind with hf1 | ⟨hf1, hf2⟩
                · exact hinv sec₀ hf1
                · rw [hf2]
                  exact BoardInv_create
              have hr : BoardInv r := merge_xml_board_inv sec₀ c f r
                (@map_unit_ok (fun sec => merge_xml_board sec c f) sec₀ r u hf) hsec₀
              have hinv' : DrawInv o := by
                intro b hb
                rw [hfind'] at hb
                injection hb with hb
                rw [← hb]
                exact hr
              exact ih _ _ _ _ h hinv'
          · cases h

theorem merge_xml_drawing_inv (x c : Xml) (f : InputFile) (r : Xml) (ws : List Warn)
    (h : merge_xml_drawing x c f = .ok (r, ws)) (hinv : DrawInv x) : DrawInv r := by
  unfold merge_xml_drawing at h
  split at h
  · cases h
  · next o ws1 heq =>
    split at h
    · injection h with h
      injection h with h1 h2
      rw [← h1]
      exact merge_drawing_inv _ _ _ _ _ heq hinv
    · cases h

theorem merge_version_attrs_children :
    ∀ (ats : List (String × String)) (e ine o : Xml),
    merge_version_attrs e ine ats = .ok o → o.children = e.children := by
  intro ats
  induction ats with
  | nil =>
    intro e ine o h
    unfold merge_version_attrs at h
    injection h with h
    rw [← h]
  | cons p rest ih =>
    intro e ine o h
    unfold merge_version_attrs at h
    split at h
    · split at h
      · have := ih _ _ _ h
        rw [this]
        rfl
      · split at h
        · exact ih _ _ _ h
        · cases h
    · cases h

theorem find_child_congr_children {o e : Xml} (h : o.children = e.children)
    (t : String) (a : List (String × Option String)) : find_child o t a = find_child e t a := by
  unfold find_child
  rw [h]

theorem merge_eagle_children_inv :
    ∀ (cs : List Xml) (e : Xml) (f : InputFile) (e' : Xml) (ws : List Warn),
    merge_eagle_children e f cs = .ok (e', ws) → EagleInv e → EagleInv e' := by
  intro cs
  induction cs with
  | nil =>
    intro e f e' ws h hinv
    unfold merge_eagle_children at h
    injection h with h
    injection h with h1 h2
    rw [← h1]
    exact hinv
  | cons c rest ih =>
    intro e f e' ws h hinv
    unfold merge_eagle_children at h
    split at h
    · split at h
      · cases h
      · next o ws1 heq =>
        split at h
        · cases h
        · next o2 ws2 heq2 =>
          injection h with h
          injection h with h1 h2
          rw [← h1]
          obtain ⟨sec₀, r, hf, hfind, hfind', hstable, htag⟩ :=
            with_child_spec e "drawing" _ o ws1
              (fun x r b hh => merge_xml_drawing_tag x c f r b hh) heq
          have hsec₀ : DrawInv sec₀ := by
            rcases hfind with hf1 | ⟨hf1, hf2⟩
            · exact hinv sec₀ hf1
            · rw [hf2]
              exact DrawInv_create
          have hr : DrawInv r := merge_xml_drawing_inv sec₀ c f r ws1 hf hsec₀
          have hinv' : EagleInv o := by
            intro d hd
            rw [hfind'] at hd
            injection hd with hd
            rw [← hd]
            exact hr
          exact ih _ _ _ _ heq2 hinv'
    · split at h
      · split at h
        · cases h
        · next o ws1 heq =>
          injection h with h
          injection h with h1 h2
          rw [← h1]
          exact ih _ _ _ _ heq hinv
      · exact ih _ _ _ _ h hinv

theorem merge_xml_eagle_inv (e ine : Xml) (f : InputFile) (e' : Xml) (ws : List Warn)
    (h : merge_xml_eagle e ine f = .ok (e', ws)) (hinv : EagleInv e) : EagleInv e' := by
  unfold merge_xml_eagle at h
  split at h
  · split at h
    · cases h
    · next o heq =>
      have hch := merge_version_attrs_children _ _ _ _ heq
      exact merge_eagle_children_inv _ _ _ _ _ h
        (EagleInv_transport (find_child_congr_children hch _ _) hinv)
  · cases h

theorem merge_all_from_inv :
    ∀ (inputs : List (Xml × InputFile)) (acc : Xml) (ws0 : List Warn) (out : Xml)
      (ws : List Warn),
    merge_all_from acc ws0 inputs = .ok (out, ws) → EagleInv acc → EagleInv out := by
  intro inputs
  induction inputs with
  | nil =>
    intro acc ws0 out ws h hinv
    unfold merge_all_from at h
    injection h with h
    injection h with h1 h2
    rw [← h1]
    exact hinv
  | cons p rest ih =>
    intro acc ws0 out ws h hinv
    unfold merge_all_from at h
    split at h
    · cases h
    · next acc2 ws2 heq =>
      exact ih _ _ _ _ h (merge_xml_eagle_inv _ _ _ _ _ heq hinv)

theorem EagleInv_empty : EagleInv empty_eagle := by
  intro d hd
  rw [show find_child empty_eagle "drawing" [] = none from rfl] at hd
  cases hd

/-- C8 (confirmed): after any successful merge of any sequence of inputs,
no two children of the (first) `elements` section of the output's board
carry the same name attribute, and likewise for the `signals` section —
covering duplicates both across inputs and within a single input, since the
probe renames every colliding child before it is appended. -/
theorem c8_name_uniqueness (inputs : List (Xml × InputFile)) (out : Xml) (ws : List Warn)
    (h : merge_all inputs = .ok (out, ws)) :
    ∀ d b, find_child out "drawing" [] = some d → find_child d "board" [] = some b →
      (∀ sec, find_child b "elements" [] = some sec → (section_names sec).Nodup)
      ∧ (∀ sec, find_child b "signals" [] = some sec → (section_names sec).Nodup) := by
  intro d b hd hb
  have hinv : EagleInv out := merge_all_from_inv _ _ _ _ _ h EagleInv_empty
  have hbinv : BoardInv b := hinv d hd b hb
  constructor
  · intro sec hs
    exact (hbinv.1 sec hs).2
  · intro sec hs
    exact (hbinv.2 sec hs).2

/-- Witness for C8's theorem: one concrete input merged from scratch; its
element names (R1, R2) and signal names (GND) are pairwise distinct in the
output. -/
theorem c8_name_uniqueness_witness :
    (section_names
      (.node "elements" []
        [.node "element" [("name", "R1"), ("x", "0.0"), ("y", "0.0")] [] "",
         .node "element" [("name", "R2"), ("x", "1.5"), ("y", "2.5")] [] ""] "")).Nodup
    ∧ (section_names
      (.node "signals" []
        [.node "signal" [("name", "GND")]
          [.node "contactref" [("element", "R1"), ("pad", "1")] [] ""] ""] "")).Nodup :=
  ⟨(c8_name_uniqueness
      [(.node "eagle" [("version", "6.5.0")]
        [.node "drawing" []
          [.node "board" []
            [.node "elements" []
              [.node "element" [("name", "R1"), ("x", "0.0"), ("y", "0.0")] [] "",
               .node "element" [("name", "R2"), ("x", "1.5"), ("y", "2.5")] [] ""] "",
             .node "signals" []
              [.node "signal" [("name", "GND")]
                [.node "contactref" [("element", "R1"), ("pad", "1")] [] ""] ""] ""] ""] ""] "",
        infile_id)]
      (.node "eagle" [("version", "6.5.0")]
        [.node "drawing" []
          [.node "board" []
            [.node "elements" []
              [.node "element" [("name", "R1"), ("x", "0.0"), ("y", "0.0")] [] "",
               .node "element" [("name", "R2"), ("x", "1.5"), ("y", "2.5")] [] ""] "",
             .node "signals" []
              [.node "signal" [("name", "GND")]
                [.node "contactref" [("element", "R1"), ("pad", "1")] [] ""] ""] ""] ""] ""] "")
      [] (by decide)
      (.node "drawing" []
        [.node "board" []
          [.node "elements" []
            [.node "element" [("name", "R1"), ("x", "0.0"), ("y", "0.0")] [] "",
             .node "element" [("name", "R2"), ("x", "1.5"), ("y", "2.5")] [] ""] "",
           .node "signals" []
            [.node "signal" [("name", "GND")]
              [.node "contactref" [("element", "R1"), ("pad", "1")] [] ""] ""] ""] ""] "")
      (.node "board" []
        [.node "elements" []
          [.node "element" [("name", "R1"), ("x", "0.0"), ("y", "0.0")] [] "",
           .node "element" [("name", "R2"), ("x", "1.5"), ("y", "2.5")] [] ""] "",
         .node "signals" []
          [.node "signal" [("name", "GND")]
            [.node "contactref" [("element", "R1"), ("pad", "1")] [] ""] ""] ""] "")
      (by decide) (by decide)).1
    (.node "elements" []
      [.node "element" [("name", "R1"), ("x", "0.0"), ("y", "0.0")] [] "",
       .node "element" [("name", "R2"), ("x", "1.5"), ("y", "2.5")] [] ""] "")
    (by decide),
   (c8_name_uniqueness
      [(.node "eagle" [("version", "6.5.0")]
        [.node "drawing" []
          [.node "board" []
            [.node "elements" []
              [.node "element" [("name", "R1"), ("x", "0.0"), ("y", "0.0")] [] "",
               .node "element" [("name", "R2"), ("x", "1.5"), ("y", "2.5")] [] ""] "",
             .node "signals" []
              [.node "signal" [("name", "GND")]
                [.node "contactref" [("element", "R1"), ("pad", "1")] [] ""] ""] ""] ""] ""] "",
        infile_id)]
      (.node "eagle" [("version", "6.5.0")]
        [.node "drawing" []
          [.node "board" []
            [.node "elements" []
              [.node "element" [("name", "R1"), ("x", "0.0"), ("y", "0.0")] [] "",
               .node "element" [("name", "R2"), ("x", "1.5"), ("y", "2.5")] [] ""] "",
             .node "signals" []
              [.node "signal" [("name", "GND")]
                [.node "contactref" [("element", "R1"), ("pad", "1")] [] ""] ""] ""] ""] ""] "")
      [] (by decide)
      (.node "drawing" []
        [.node "board" []
          [.node "elements" []
            [.node "element" [("name", "R1"), ("x", "0.0"), ("y", "0.0")] [] "",
             .node "element" [("name", "R2"), ("x", "1.5"), ("y", "2.5")] [] ""] "",
           .node "signals" []
            [.node "signal" [("name", "GND")]
              [.node "contactref" [("element", "R1"), ("pad", "1")] [] ""] ""] ""] ""] "")
      (.node "board" []
        [.node "elements" []
          [.node "element" [("name", "R1"), ("x", "0.0"), ("y", "0.0")] [] "",
           .node "element" [("name", "R2"), ("x", "1.5"), ("y", "2.5")] [] ""] "",
         .node "signals" []
          [.node "signal" [("name", "GND")]
            [.node "contactref" [("element", "R1"), ("pad", "1")] [] ""] ""] ""] "")
      (by decide) (by decide)).2
    (.node "signals" []
      [.node "signal" [("name", "GND")]
        [.node "contactref" [("element", "R1"), ("pad", "1")] [] ""] ""] "")
    (by decide)⟩

/-! ### Claim C1: identity merge — canonicality predicates -/

theorem Xml.eta (el : Xml) : Xml.node el.tag el.attrs el.children el.tail = el := by
  cases el
  rfl

theorem setPairs_get_eq (k v : String) :
    ∀ l : List (String × String), getPairs k l = some v → setPairs k v l = l := by
  intro l
  induction l with
  | nil => intro h; cases h
  | cons p ps ih =>
    intro h
    unfold getPairs at h
    unfold setPairs
    split at h
    · next hpk =>
      injection h with h
      rw [hpk]
      have : p = (k, v) := by
        cases p
        simp only at hpk h
        simp [beq_iff_eq.mp hpk, h]
      rw [← this]
      simp [beq_iff_eq.mp hpk]
    · next hpk =>
      rw [if_neg hpk, ih h]

theorem Xml.set_get_eq (el : Xml) (k v : String) (h : el.get k = some v) :
    el.set k v = el := by
  unfold Xml.set
  rw [setPairs_get_eq k v el.attrs h]
  exact Xml.eta el

/-- The zero offset. -/
def dec0 : Dec := ⟨0, 0⟩

/-- Canonical position attributes for the identity transform: both present,
parseable, and re-printed (after adding the zero offset) to the very same
string. -/
def pos_canon (el : Xml) (xa ya : String) : Bool :=
  match el.get xa, el.get ya with
  | some sx, some sy =>
    match parse_dec sx, parse_dec sy with
    | some dx, some dy =>
      (print_dec (dx.add dec0) == sx) && (print_dec (dy.add dec0) == sy)
    | _, _ => false
  | _, _ => false

theorem pos_id (el : Xml) (xa ya : String) (h : pos_canon el xa ya = true) :
    update_xml_routing_pos el xa ya infile_id = .ok el := by
  unfold pos_canon at h
  unfold update_xml_routing_pos
  split at h
  case h_2 => cases h
  case h_1 sx sy hgx hgy =>
    split at h
    case h_2 => cases h
    case h_1 dx dy hpx hpy =>
      rw [show offset_and_rotate dx dy infile_id = some (dx.add dec0, dy.add dec0) from rfl]
      dsimp only
      rw [Bool.and_eq_true, beq_iff_eq, beq_iff_eq] at h
      rw [h.1, h.2]
      rw [Xml.set_get_eq el xa sx hgx, Xml.set_get_eq el ya sy hgy]

/-- Canonical orientation attribute for the identity transform: absent, or
already in the canonical `letters ++ (degree mod 360)` spelling. -/
def rot_canon (el : Xml) : Bool :=
  match el.get "rot" with
  | none => true
  | some s =>
    if s == "" then false
    else
      match split_rot s with
      | none => false
      | some (letters, d) =>
        letters ++ Nat.repr ((Int.ofNat d % 360).toNat) == s

theorem rot_id (el : Xml) (h : rot_canon el = true) :
    update_xml_routing_rot el "rot" infile_id = .ok el := by
  unfold rot_canon at h
  split at h
  case h_1 hget => exact update_rot_absent_zero el infile_id hget rfl
  case h_2 s hget =>
    split at h
    case isTrue => cases h
    case isFalse hse =>
      split at h
      case h_1 => cases h
      case h_2 letters d hsp =>
        have hne : s ≠ "" := by
          intro he
          rw [he] at hse
          exact hse rfl
        rw [update_rot_present el infile_id s letters d hget hne hsp]
        have hrw : (if letters.data.contains 'M'
            then (Int.ofNat d - infile_id.rotation) % 360
            else (Int.ofNat d + infile_id.rotation) % 360) = Int.ofNat d % 360 := by
          rw [show infile_id.rotation = 0 from rfl]
          split <;> omega
        rw [hrw]
        rw [beq_iff_eq] at h
        rw [h]
        rw [Xml.set_get_eq el "rot" s hget]

mutual
/-- Canonical-under-identity check for routing content: every coordinate
re-prints to itself under the zero offset and every `rot` is already in its
canonical spelling, recursively through `polygon` and `element` children. -/
def routing_canon : Xml → Bool
  | .node t a c tl =>
    let el0 : Xml := .node t a c tl
    if t == "wire" then pos_canon el0 "x1" "y1" && pos_canon el0 "x2" "y2"
    else if t == "polygon" then routing_canon_list c
    else if t == "text" then pos_canon el0 "x" "y" && rot_canon el0
    else if t == "dimension" then
      pos_canon el0 "x1" "y1" && pos_canon el0 "x2" "y2" && pos_canon el0 "x3" "y3"
    else if t == "circle" then pos_canon el0 "x" "y"
    else if t == "rectangle" then pos_canon el0 "x1" "y1" && pos_canon el0 "x2" "y2"
    else if t == "frame" then pos_canon el0 "x1" "y1" && pos_canon el0 "x2" "y2"
    else if t == "hole" then pos_canon el0 "x" "y"
    else if t == "contactref" then true
    else if t == "via" then pos_canon el0 "x" "y"
    else if t == "element" then
      pos_canon el0 "x" "y" && rot_canon el0 && routing_canon_list c
    else if t == "vertex" then pos_canon el0 "x" "y"
    else if t == "attribute" then pos_canon el0 "x" "y" && rot_canon el0
    else if t == "variant" then true
    else false

/-- `routing_canon` over a child list. -/
def routing_canon_list : List Xml → Bool
  | [] => true
  | c :: rest => routing_canon c && routing_canon_list rest
end

set_option maxHeartbeats 2000000 in
mutual
theorem routing_id : ∀ el : Xml, routing_canon el = true →
    update_routing el infile_id = .ok el
  | .node t a c tl, h => by
    unfold routing_canon at h
    unfold update_routing
    dsimp only at h ⊢
    by_cases h1 : (t == "wire") = true
    case pos =>
      rw [if_pos h1] at h ⊢
      rw [Bool.and_eq_true] at h
      rw [pos_id _ _ _ h.1]
      dsimp only
      exact pos_id _ _ _ h.2
    case neg =>
    rw [if_neg h1] at h ⊢
    by_cases h2 : (t == "polygon") = true
    case pos =>
      rw [if_pos h2] at h ⊢
      rw [routing_list_id c h]
    case neg =>
    rw [if_neg h2] at h ⊢
    by_cases h3 : (t == "text") = true
    case pos =>
      rw [if_pos h3] at h ⊢
      rw [Bool.and_eq_true] at h
      rw [pos_id _ _ _ h.1]
      dsimp only
      exact rot_id _ h.2
    case neg =>
    rw [if_neg h3] at h ⊢
    by_cases h4 : (t == "dimension") = true
    case pos =>
      rw [if_pos h4] at h ⊢
      rw [Bool.and_eq_true, Bool.and_eq_true] at h
      rw [pos_id _ _ _ h.1.1]
      dsimp only
      rw [pos_id _ _ _ h.1.2]
      dsimp only
      exact pos_id _ _ _ h.2
    case neg =>
    rw [if_neg h4] at h ⊢
    by_cases h5 : (t == "circle") = true
    case pos =>
      rw [if_pos h5] at h ⊢
      exact pos_id _ _ _ h
    case neg =>
    rw [if_neg h5] at h ⊢
    by_cases h6 : (t == "rectangle") = true
    case pos =>
      rw [if_pos h6] at h ⊢
      rw [Bool.and_eq_true] at h
      rw [pos_id _ _ _ h.1]
      dsimp only
      exact pos_id _ _ _ h.2
    case neg =>
    rw [if_neg h6] at h ⊢
    by_cases h7 : (t == "frame") = true
    case pos =>
      rw [if_pos h7] at h ⊢
      rw [Bool.and_eq_true] at h
      rw [pos_id _ _ _ h.1]
      dsimp only
      exact pos_id _ _ _ h.2
    case neg =>
    rw [if_neg h7] at h ⊢
    by_cases h8 : (t == "hole") = true
    case pos =>
      rw [if_pos h8] at h ⊢
      exact pos_id _ _ _ h
    case neg =>
    rw [if_neg h8] at h ⊢
    by_cases h9 : (t == "contactref") = true
    case pos =>
      rw [if_pos h9] at h ⊢
    case neg =>
    rw [if_neg h9] at h ⊢
    by_cases h10 : (t == "via") = true
    case pos =>
      rw [if_pos h10] at h ⊢
      exact pos_id _ _ _ h
    case neg =>
    rw [if_neg h10] at h ⊢
    by_cases h11 : (t == "element") = true
    case pos =>
      rw [if_pos h11] at h ⊢
      rw [Bool.and_eq_true, Bool.and_eq_true] at h
      rw [pos_id _ _ _ h.1.1]
      dsimp only
      rw [rot_id _ h.1.2]
      dsimp only
      rw [routing_list_id c h.2]
      simp only [Xml.tag, Xml.attrs, Xml.tail]
    case neg =>
    rw [if_neg h11] at h ⊢
    by_cases h12 : (t == "vertex") = true
    case pos =>
      rw [if_pos h12] at h ⊢
      exact pos_id _ _ _ h
    case neg =>
    rw [if_neg h12] at h ⊢
    by_cases h13 : (t == "attribute") = true
    case pos =>
      rw [if_pos h13] at h ⊢
      rw [Bool.and_eq_true] at h
      rw [pos_id _ _ _ h.1]
      dsimp only
      exact rot_id _ h.2
    case neg =>
    rw [if_neg h13] at h ⊢
    by_cases h14 : (t == "variant") = true
    case pos =>
      rw [if_pos h14] at h ⊢
    case neg =>
    rw [if_neg h14] at h ⊢
    cases h

theorem routing_list_id : ∀ cs : List Xml, routing_canon_list cs = true →
    update_routing_list cs infile_id = .ok cs
  | [], _ => rfl
  | x :: xs, h => by
    unfold routing_canon_list at h
    rw [Bool.and_eq_true] at h
    unfold update_routing_list
    rw [routing_id x h.1]
    dsimp only
    rw [routing_list_id xs h.2]
end

theorem update_signal_element_names_empty (el : Xml) :
    update_signal_element_names el [] = el := by
  unfold update_signal_element_names
  split
  · rfl
  · split
    · rfl
    · rfl

theorem find_child_none_of_tags (el : Xml) (tag : String)
    (h : ∀ x ∈ el.children, (x.tag == tag) = false) :
    find_child el tag [] = none := by
  unfold find_child
  apply List.find?_eq_none.mpr
  intro x hx hm
  unfold attrs_match at hm
  rw [h x hx] at hm
  simp at hm

theorem find_child_attr_none (el : Xml) (tag key v : String)
    (h : ∀ x ∈ el.children, (x.get key == some v) = false) :
    find_child el tag [(key, some v)] = none := by
  unfold find_child
  apply List.find?_eq_none.mpr
  intro x hx hm
  unfold attrs_match at hm
  rw [Bool.and_eq_true] at hm
  have h2 := hm.2
  simp only [List.all_cons, List.all_nil, Bool.and_true] at h2
  rw [h x hx] at h2
  simp at h2

theorem with_child_aux_not_found {β : Type} (tag : String)
    (f : Xml → Except MErr (Xml × β)) (c : Xml) (b : β)
    (hf : f (create_child tag) = .ok (c, b)) :
    ∀ cs : List Xml, (∀ x ∈ cs, (x.tag == tag) = false) →
      with_child_aux tag f cs = .ok (cs ++ [c], b) := by
  intro cs
  induction cs with
  | nil =>
    intro _
    unfold with_child_aux
    rw [hf]
    rfl
  | cons x xs ih =>
    intro h
    unfold with_child_aux
    rw [h x (List.mem_cons_self x xs)]
    simp only [Bool.false_eq_true, if_false]
    rw [ih (fun y hy => h y (List.mem_cons_of_mem x hy))]
    rfl

theorem with_child_not_found {β : Type} (el : Xml) (tag : String)
    (f : Xml → Except MErr (Xml × β)) (c : Xml) (b : β)
    (hno : ∀ x ∈ el.children, (x.tag == tag) = false)
    (hf : f (create_child tag) = .ok (c, b)) :
    with_child el tag f = .ok (.node el.tag el.attrs (el.children ++ [c]) el.tail, b) := by
  unfold with_child
  rw [with_child_aux_not_found tag f c b hf el.children hno]

theorem find_replace_none (pred : Xml → Bool) (f : Xml → Except MErr Xml) :
    ∀ cs : List Xml, (∀ x ∈ cs, pred x = false) →
      find_replace pred f cs = .ok none := by
  intro cs
  induction cs with
  | nil => intro _; rfl
  | cons x xs ih =>
    intro h
    unfold find_replace
    rw [h x (List.mem_cons_self x xs)]
    simp only [Bool.false_eq_true, if_false]
    rw [ih (fun y hy => h y (List.mem_cons_of_mem x hy))]

/-- Canonical `settings` section: no attributes, no trailing text, and at
most one `setting` child (which must be childless); a second `setting` would
be warned against and dropped, or silently deduplicated. -/
def settings_canon (s : Xml) : Bool :=
  s.attrs.isEmpty && (s.tail == "") &&
  (match s.children with
   | [] => true
   | [c] => (c.tag == "setting") && c.children.isEmpty
   | _ => false)

theorem settings_id (s : Xml) (ht : s.tag = "settings")
    (h : settings_canon s = true) :
    merge_xml_settings (create_child "settings") s = .ok (s, []) := by
  obtain ⟨t, a, cs, tl⟩ := s
  simp only [Xml.tag] at ht
  subst ht
  unfold settings_canon at h
  simp only [Xml.attrs, Xml.tail, Xml.children] at h
  rw [Bool.and_eq_true, Bool.and_eq_true] at h
  obtain ⟨⟨ha, htl⟩, hc⟩ := h
  have ha' : a = [] := by
    cases a with
    | nil => rfl
    | cons p ps => simp [List.isEmpty] at ha
  have htl' : tl = "" := beq_iff_eq.mp htl
  subst ha'
  subst htl'
  match cs, hc with
  | [], _ => rfl
  | [c], hc =>
    rw [Bool.and_eq_true] at hc
    unfold merge_xml_settings merge_settings_children
    simp only [Xml.children, Xml.attrs]
    rw [hc.1]
    simp only [if_true]
    rw [hc.2]
    simp only [if_true]
    rw [show ∀ w, find_child (create_child "settings") "setting" w = none from fun _ => rfl]
    rfl

/-- Canonical `layers` section: no attributes, no trailing text, every child
a `layer` carrying a `number`, and those numbers pairwise distinct. -/
def layers_canon (s : Xml) : Bool :=
  s.attrs.isEmpty && (s.tail == "") &&
  s.children.all (fun c => (c.tag == "layer") && (c.get "number").isSome) &&
  decide ((s.children.filterMap (fun c => c.get "number")).Nodup)

theorem layers_aux :
    ∀ (cs pre : List Xml),
    (∀ x ∈ pre ++ cs, (x.tag == "layer") = true ∧ (x.get "number").isSome = true) →
    ((pre ++ cs).filterMap (fun c => c.get "number")).Nodup →
    merge_layers_children (.node "layers" [] pre "") cs =
      .ok (.node "layers" [] (pre ++ cs) "") := by
  intro cs
  induction cs with
  | nil =>
    intro pre _ _
    rw [List.append_nil]
    rfl
  | cons c rest ih =>
    intro pre hall hnd
    have hct : (c.tag == "layer") = true :=
      (hall c (by simp)).1
    obtain ⟨n, hn⟩ := Option.isSome_iff_exists.mp (hall c (by simp)).2
    unfold merge_layers_children
    rw [hct]
    simp only [if_true]
    rw [hn]
    have hfind : find_child (.node "layers" [] pre "") "layer" [("number", some n)] = none := by
      apply find_child_attr_none
      intro x hx
      simp only [Xml.children] at hx
      obtain ⟨m, hm⟩ := Option.isSome_iff_exists.mp (hall x (List.mem_append_left _ hx)).2
      rw [hm]
      rw [beq_eq_false_iff_ne]
      intro he
      injection he with he
      subst he
      rw [List.filterMap_append, List.nodup_append] at hnd
      exact hnd.2.2 (List.mem_filterMap.mpr ⟨x, hx, hm⟩)
        (List.mem_filterMap.mpr ⟨c, by simp, hn⟩)
    rw [hfind]
    have hstep : append_child (Xml.node "layers" [] pre "") c =
        Xml.node "layers" [] (pre ++ [c]) "" := rfl
    rw [hstep]
    have hre : (pre ++ [c]) ++ rest = pre ++ c :: rest := by
      rw [List.append_assoc, List.singleton_append]
    rw [ih (pre ++ [c])
      (by intro x hx; rw [hre] at hx; exact hall x hx)
      (by rw [hre]; exact hnd)]
    rw [hre]

theorem layers_id (s : Xml) (ht : s.tag = "layers")
    (h : layers_canon s = true) :
    merge_xml_layers (create_child "layers") s = .ok s := by
  obtain ⟨t, a, cs, tl⟩ := s
  simp only [Xml.tag] at ht
  subst ht
  unfold layers_canon at h
  simp only [Xml.attrs, Xml.tail, Xml.children] at h
  rw [Bool.and_eq_true, Bool.and_eq_true, Bool.and_eq_true] at h
  obtain ⟨⟨⟨ha, htl⟩, hcs⟩, hnd⟩ := h
  have ha' : a = [] := by
    cases a with
    | nil => rfl
    | cons p ps => simp [List.isEmpty] at ha
  have htl' : tl = "" := beq_iff_eq.mp htl
  subst ha'
  subst htl'
  unfold merge_xml_layers
  have := layers_aux cs []
    (by
      intro x hx
      rw [List.nil_append] at hx
      have := List.all_eq_true.mp hcs x hx
      rw [Bool.and_eq_true] at this
      exact this)
    (by rw [List.nil_append]; exact of_decide_eq_true hnd)
  rw [show (create_child "layers") = Xml.node "layers" [] [] "" from rfl]
  simp only [Xml.children]
  rw [this]
  rw [List.nil_append]
  rfl

/-- Canonical `plain` section: no attributes, no trailing text, canonical
routing geometry in every child. -/
def plain_canon (s : Xml) : Bool :=
  s.attrs.isEmpty && (s.tail == "") && routing_canon_list s.children

theorem plain_aux :
    ∀ (cs pre : List Xml), routing_canon_list cs = true →
    append_plain_children (.node "plain" [] pre "") infile_id cs =
      .ok (.node "plain" [] (pre ++ cs) "") := by
  intro cs
  induction cs with
  | nil =>
    intro pre _
    rw [List.append_nil]
    rfl
  | cons c rest ih =>
    intro pre hc
    unfold routing_canon_list at hc
    rw [Bool.and_eq_true] at hc
    unfold append_plain_children
    rw [routing_id c hc.1]
    have hre : (pre ++ [c]) ++ rest = pre ++ c :: rest := by
      rw [List.append_assoc, List.singleton_append]
    have hstep : append_child (Xml.node "plain" [] pre "") c =
        Xml.node "plain" [] (pre ++ [c]) "" := rfl
    simp only []
    rw [hstep, ih (pre ++ [c]) hc.2, hre]

theorem plain_id (s : Xml) (ht : s.tag = "plain") (h : plain_canon s = true) :
    append_xml_plain (create_child "plain") s infile_id = .ok s := by
  obtain ⟨t, a, cs, tl⟩ := s
  simp only [Xml.tag] at ht
  subst ht
  unfold plain_canon at h
  simp only [Xml.attrs, Xml.tail, Xml.children] at h
  rw [Bool.and_eq_true, Bool.and_eq_true] at h
  obtain ⟨⟨ha, htl⟩, hcs⟩ := h
  have ha' : a = [] := by
    cases a with
    | nil => rfl
    | cons p ps => simp [List.isEmpty] at ha
  have htl' : tl = "" := beq_iff_eq.mp htl
  subst ha'
  subst htl'
  unfold append_xml_plain
  simp only [Xml.children, Xml.attrs]
  rw [show (create_child "plain") = Xml.node "plain" [] [] "" from rfl]
  rw [plain_aux cs [] hcs, List.nil_append]
  rfl

/-- The `name` attributes a section's children carry. -/
def names_of (cs : List Xml) : List String := cs.filterMap (fun c => c.get "name")

/-- Canonical `libraries` section: no attributes, no trailing text, every
child a `library` carrying a `name`, with pairwise distinct names. -/
def libraries_canon (s : Xml) : Bool :=
  s.attrs.isEmpty && (s.tail == "") &&
  s.children.all (fun c => (c.tag == "library") && (c.get "name").isSome) &&
  decide ((names_of s.children).Nodup)

theorem libraries_aux :
    ∀ (cs pre : List Xml),
    (∀ x ∈ pre ++ cs, (x.tag == "library") = true ∧ (x.get "name").isSome = true) →
    (names_of (pre ++ cs)).Nodup →
    merge_libraries_children (.node "libraries" [] pre "") cs =
      .ok (.node "libraries" [] (pre ++ cs) "") := by
  intro cs
  induction cs with
  | nil =>
    intro pre _ _
    rw [List.append_nil]
    rfl
  | cons c rest ih =>
    intro pre hall hnd
    have hct : (c.tag == "library") = true := (hall c (by simp)).1
    obtain ⟨n, hn⟩ := Option.isSome_iff_exists.mp (hall c (by simp)).2
    unfold merge_libraries_children
    rw [hct]
    simp only [if_true, Xml.children]
    rw [hn]
    have hpred : ∀ x ∈ pre,
        (attrs_match x "library" [("name", some n)]) = false := by
      intro x hx
      obtain ⟨m, hm⟩ := Option.isSome_iff_exists.mp (hall x (List.mem_append_left _ hx)).2
      have hmn : m ≠ n := by
        intro he
        subst he
        unfold names_of at hnd
        rw [List.filterMap_append, List.nodup_append] at hnd
        exact hnd.2.2 (List.mem_filterMap.mpr ⟨x, hx, hm⟩)
          (List.mem_filterMap.mpr ⟨c, by simp, hn⟩)
      unfold attrs_match
      simp [hm, hmn]
    rw [find_replace_none _ _ pre hpred]
    have hre : (pre ++ [c]) ++ rest = pre ++ c :: rest := by
      rw [List.append_assoc, List.singleton_append]
    have hstep : append_child (Xml.node "libraries" [] pre "") c =
        Xml.node "libraries" [] (pre ++ [c]) "" := rfl
    rw [hstep, ih (pre ++ [c])
      (by intro x hx; rw [hre] at hx; exact hall x hx)
      (by rw [hre]; exact hnd), hre]

theorem libraries_id (s : Xml) (ht : s.tag = "libraries")
    (h : libraries_canon s = true) :
    merge_xml_libraries (create_child "libraries") s = .ok s := by
  obtain ⟨t, a, cs, tl⟩ := s
  simp only [Xml.tag] at ht
  subst ht
  unfold libraries_canon at h
  simp only [Xml.attrs, Xml.tail, Xml.children] at h
  rw [Bool.and_eq_true, Bool.and_eq_true, Bool.and_eq_true] at h
  obtain ⟨⟨⟨ha, htl⟩, hcs⟩, hnd⟩ := h
  have ha' : a = [] := by
    cases a with
    | nil => rfl
    | cons p ps => simp [List.isEmpty] at ha
  have htl' : tl = "" := beq_iff_eq.mp htl
  subst ha'
  subst htl'
  unfold merge_xml_libraries
  simp only [Xml.children, Xml.attrs]
  rw [show (create_child "libraries") = Xml.node "libraries" [] [] "" from rfl]
  rw [libraries_aux cs []
    (by
      intro x hx
      rw [List.nil_append] at hx
      have := List.all_eq_true.mp hcs x hx
      rw [Bool.and_eq_true] at this
      exact this)
    (by rw [List.nil_append]; exact of_decide_eq_true hnd)]
  rw [List.nil_append]
  rfl

/-- Canonical `elements` section: no attributes, no trailing text, every
child an `element` carrying a `name`, pairwise distinct names, and canonical
routing geometry throughout. -/
def elements_canon (s : Xml) : Bool :=
  s.attrs.isEmpty && (s.tail == "") &&
  s.children.all (fun c => (c.tag == "element") && (c.get "name").isSome
    && routing_canon c) &&
  decide ((names_of s.children).Nodup)

theorem elements_aux :
    ∀ (cs pre : List Xml) (m : RenameMap),
    (∀ x ∈ pre ++ cs, (x.tag == "element") = true ∧ (x.get "name").isSome = true) →
    (names_of (pre ++ cs)).Nodup →
    cs.all routing_canon = true →
    append_elements_children (.node "elements" [] pre "") m infile_id cs =
      .ok (.node "elements" [] (pre ++ cs) "", m) := by
  intro cs
  induction cs with
  | nil =>
    intro pre m _ _ _
    rw [List.append_nil]
    rfl
  | cons c rest ih =>
    intro pre m hall hnd hcr
    rw [List.all_cons, Bool.and_eq_true] at hcr
    have hct : (c.tag == "element") = true := (hall c (by simp)).1
    obtain ⟨nm, hn⟩ := Option.isSome_iff_exists.mp (hall c (by simp)).2
    unfold append_elements_children
    rw [hct]
    simp only [if_true]
    rw [routing_id c hcr.1]
    dsimp only
    rw [hn]
    dsimp only
    have hfind : find_child (.node "elements" [] pre "") "element"
        [("name", some nm)] = none := by
      apply find_child_attr_none
      intro x hx
      simp only [Xml.children] at hx
      obtain ⟨m2, hm⟩ := Option.isSome_iff_exists.mp (hall x (List.mem_append_left _ hx)).2
      rw [hm, beq_eq_false_iff_ne]
      intro he
      injection he with he
      subst he
      unfold names_of at hnd
      rw [List.filterMap_append, List.nodup_append] at hnd
      exact hnd.2.2 (List.mem_filterMap.mpr ⟨x, hx, hm⟩)
        (List.mem_filterMap.mpr ⟨c, by simp, hn⟩)
    have huniq : unique_name (Xml.node "elements" [] pre "") "element" (cand_el nm)
        ((Xml.node "elements" [] pre "").children.length + 1) 0 = some nm := by
      unfold unique_name
      have hfree : name_free (Xml.node "elements" [] pre "") "element"
          (cand_el nm 0) = true := by
        rw [show cand_el nm 0 = nm from rfl]
        unfold name_free
        rw [hfind]
        rfl
      rw [hfree]
      simp only [if_true]
      rfl
    rw [huniq]
    dsimp only
    rw [Xml.set_get_eq c "name" nm hn]
    rw [beq_self_eq_true]
    simp only [if_true]
    have hre : (pre ++ [c]) ++ rest = pre ++ c :: rest := by
      rw [List.append_assoc, List.singleton_append]
    have hstep : append_child (Xml.node "elements" [] pre "") c =
        Xml.node "elements" [] (pre ++ [c]) "" := rfl
    rw [hstep, ih (pre ++ [c]) m
      (by intro x hx; rw [hre] at hx; exact hall x hx)
      (by rw [hre]; exact hnd) hcr.2, hre]

theorem elements_id (s : Xml) (m : RenameMap) (ht : s.tag = "elements")
    (h : elements_canon s = true) :
    append_xml_elements (create_child "elements") s m infile_id = .ok (s, m) := by
  obtain ⟨t, a, cs, tl⟩ := s
  simp only [Xml.tag] at ht
  subst ht
  unfold elements_canon at h
  simp only [Xml.attrs, Xml.tail, Xml.children] at h
  rw [Bool.and_eq_true, Bool.and_eq_true, Bool.and_eq_true] at h
  obtain ⟨⟨⟨ha, htl⟩, hcs⟩, hnd⟩ := h
  have ha' : a = [] := by
    cases a with
    | nil => rfl
    | cons p ps => simp [List.isEmpty] at ha
  have htl' : tl = "" := beq_iff_eq.mp htl
  subst ha'
  subst htl'
  unfold append_xml_elements
  simp only [Xml.children, Xml.attrs]
  rw [show (create_child "elements") = Xml.node "elements" [] [] "" from rfl]
  rw [elements_aux cs [] m
    (by
      intro x hx
      rw [List.nil_append] at hx
      have := List.all_eq_true.mp hcs x hx
      rw [Bool.and_eq_true, Bool.and_eq_true] at this
      exact this.1)
    (by rw [List.nil_append]; exact of_decide_eq_true hnd)
    (by
      apply List.all_eq_true.mpr
      intro x hx
      have := List.all_eq_true.mp hcs x hx
      rw [Bool.and_eq_true] at this
      exact this.2)]
  rw [List.nil_append]
  rfl

/-- Canonical `signals` section: no attributes, no trailing text, every
child a `signal` carrying a `name`, pairwise distinct names, and canonical
routing geometry inside every signal. -/
def signals_canon (s : Xml) : Bool :=
  s.attrs.isEmpty && (s.tail == "") &&
  s.children.all (fun c => (c.tag == "signal") && (c.get "name").isSome
    && routing_canon_list c.children) &&
  decide ((names_of s.children).Nodup)

theorem signal_children_update_id :
    ∀ cs : List Xml, routing_canon_list cs = true →
    signal_children_update infile_id [] cs = .ok cs := by
  intro cs
  induction cs with
  | nil => intro _; rfl
  | cons c rest ih =>
    intro h
    unfold routing_canon_list at h
    rw [Bool.and_eq_true] at h
    unfold signal_children_update
    rw [routing_id c h.1]
    dsimp only
    rw [ih h.2]
    dsimp only
    rw [update_signal_element_names_empty c]

theorem signals_aux :
    ∀ (cs pre : List Xml),
    (∀ x ∈ pre ++ cs, (x.tag == "signal") = true ∧ (x.get "name").isSome = true) →
    (names_of (pre ++ cs)).Nodup →
    cs.all (fun c => routing_canon_list c.children) = true →
    append_signals_children (.node "signals" [] pre "") [] infile_id cs =
      .ok (.node "signals" [] (pre ++ cs) "") := by
  intro cs
  induction cs with
  | nil =>
    intro pre _ _ _
    rw [List.append_nil]
    rfl
  | cons c rest ih =>
    intro pre hall hnd hcr
    rw [List.all_cons, Bool.and_eq_true] at hcr
    have hct : (c.tag == "signal") = true := (hall c (by simp)).1
    obtain ⟨nm, hn⟩ := Option.isSome_iff_exists.mp (hall c (by simp)).2
    unfold append_signals_children
    rw [hct]
    simp only [if_true]
    rw [signal_children_update_id c.children hcr.1]
    dsimp only
    rw [Xml.eta c]
    rw [hn]
    dsimp only
    have hfind : find_child (.node "signals" [] pre "") "signal"
        [("name", some nm)] = none := by
      apply find_child_attr_none
      intro x hx
      simp only [Xml.children] at hx
      obtain ⟨m2, hm⟩ := Option.isSome_iff_exists.mp (hall x (List.mem_append_left _ hx)).2
      rw [hm, beq_eq_false_iff_ne]
      intro he
      injection he with he
      subst he
      unfold names_of at hnd
      rw [List.filterMap_append, List.nodup_append] at hnd
      exact hnd.2.2 (List.mem_filterMap.mpr ⟨x, hx, hm⟩)
        (List.mem_filterMap.mpr ⟨c, by simp, hn⟩)
    have huniq : unique_name (Xml.node "signals" [] pre "") "signal" (cand_sig nm)
        ((Xml.node "signals" [] pre "").children.length + 1) 0 = some nm := by
      unfold unique_name
      have hfree : name_free (Xml.node "signals" [] pre "") "signal"
          (cand_sig nm 0) = true := by
        rw [show cand_sig nm 0 = nm from rfl]
        unfold name_free
        rw [hfind]
        rfl
      rw [hfree]
      simp only [if_true]
      rfl
    rw [huniq]
    dsimp only
    rw [Xml.set_get_eq c "name" nm hn]
    have hre : (pre ++ [c]) ++ rest = pre ++ c :: rest := by
      rw [List.append_assoc, List.singleton_append]
    have hstep : append_child (Xml.node "signals" [] pre "") c =
        Xml.node "signals" [] (pre ++ [c]) "" := rfl
    rw [hstep, ih (pre ++ [c])
      (by intro x hx; rw [hre] at hx; exact hall x hx)
      (by rw [hre]; exact hnd) hcr.2, hre]

theorem signals_id (s : Xml) (ht : s.tag = "signals")
    (h : signals_canon s = true) :
    append_xml_signals (create_child "signals") s [] infile_id = .ok s := by
  obtain ⟨t, a, cs, tl⟩ := s
  simp only [Xml.tag] at ht
  subst ht
  unfold signals_canon at h
  simp only [Xml.attrs, Xml.tail, Xml.children] at h
  rw [Bool.and_eq_true, Bool.and_eq_true, Bool.and_eq_true] at h
  obtain ⟨⟨⟨ha, htl⟩, hcs⟩, hnd⟩ := h
  have ha' : a = [] := by
    cases a with
    | nil => rfl
    | cons p ps => simp [List.isEmpty] at ha
  have htl' : tl = "" := beq_iff_eq.mp htl
  subst ha'
  subst htl'
  unfold append_xml_signals
  simp only [Xml.children, Xml.attrs]
  rw [show (create_child "signals") = Xml.node "signals" [] [] "" from rfl]
  rw [signals_aux cs []
    (by
      intro x hx
      rw [List.nil_append] at hx
      have := List.all_eq_true.mp hcs x hx
      rw [Bool.and_eq_true, Bool.and_eq_true] at this
      exact this.1)
    (by rw [List.nil_append]; exact of_decide_eq_true hnd)
    (by
      apply List.all_eq_true.mpr
      intro x hx
      have := List.all_eq_true.mp hcs x hx
      rw [Bool.and_eq_true] at this
      exact this.2)]
  rw [List.nil_append]
  rfl

theorem pre_tag_free (pre : List Xml) (child : Xml) (rest : List Xml) (tag : String)
    (hnd : ((pre ++ child :: rest).map Xml.tag).Nodup)
    (htag : (child.tag == tag) = true) :
    ∀ x ∈ pre, (x.tag == tag) = false := by
  intro x hx
  rw [beq_eq_false_iff_ne]
  intro he
  rw [List.map_append, List.nodup_append] at hnd
  apply hnd.2.2 (List.mem_map.mpr ⟨x, hx, he⟩)
  have hct : child.tag = tag := beq_iff_eq.mp htag
  rw [List.map_cons, ← hct]
  exact List.mem_cons_self _ _

theorem sync_child_error_absent (el : Xml) (tag : String) (child : Xml) (msg : String)
    (h : find_child el tag [] = none) :
    sync_child_error el tag child msg = .ok (append_child el child) := by
  unfold sync_child_error
  rw [h]

theorem sync_child_absent (el : Xml) (tag : String) (child : Xml)
    (h : find_child el tag [] = none) :
    sync_child el tag child = append_child el child := by
  unfold sync_child
  rw [h]

/-- Canonical board child, by tag: canonical section content where the merge
transforms it, anything at all where the merge copies verbatim, and the
freshly-created empty node for `errors` (whose incoming content the merge
ignores). -/
def board_child_canon (c : Xml) : Bool :=
  if c.tag == "plain" then plain_canon c
  else if c.tag == "libraries" then libraries_canon c
  else if c.tag == "attributes" then true
  else if c.tag == "variantdefs" then true
  else if c.tag == "classes" then true
  else if c.tag == "designrules" then true
  else if c.tag == "autorouter" then true
  else if c.tag == "elements" then elements_canon c
  else if c.tag == "signals" then signals_canon c
  else if c.tag == "errors" then decide (c = create_child "errors")
  else false

/-- Canonical `board` section: no attributes, no trailing text, pairwise
distinct child tags, every child canonical for its tag. -/
def board_canon (b : Xml) : Bool :=
  b.attrs.isEmpty && (b.tail == "") && b.children.all board_child_canon &&
  decide ((b.children.map Xml.tag).Nodup)

theorem board_children_id :
    ∀ (cs pre : List Xml),
    ((pre ++ cs).map Xml.tag).Nodup →
    cs.all board_child_canon = true →
    merge_board_children (.node "board" [] pre "") [] infile_id cs =
      .ok (.node "board" [] (pre ++ cs) "") := by
  intro cs
  induction cs with
  | nil =>
    intro pre _ _
    rw [List.append_nil]
    rfl
  | cons child rest ih =>
    intro pre hnd hall
    rw [List.all_cons, Bool.and_eq_true] at hall
    obtain ⟨hc, hrest⟩ := hall
    unfold board_child_canon at hc
    unfold merge_board_children
    have hre : (pre ++ [child]) ++ rest = pre ++ child :: rest := by
      rw [List.append_assoc, List.singleton_append]
    have hndr : (((pre ++ [child]) ++ rest).map Xml.tag).Nodup := by
      rw [hre]
      exact hnd
    have hstep : append_child (Xml.node "board" [] pre "") child =
        Xml.node "board" [] (pre ++ [child]) "" := rfl
    by_cases h1 : (child.tag == "plain") = true
    case pos =>
      rw [if_pos h1] at hc ⊢
      have hf : (fun sec => (append_xml_plain sec child infile_id).map (fun x => (x, ()))) (create_child "plain") = Except.ok (child, ()) := by
        dsimp only
        rw [plain_id child (beq_iff_eq.mp h1) hc]
        rfl
      rw [with_child_not_found (Xml.node "board" [] pre "") "plain" _ child ()
        (pre_tag_free pre child rest "plain" hnd h1) hf]
      dsimp only
      simp only [Xml.tag, Xml.attrs, Xml.children, Xml.tail]
      rw [ih (pre ++ [child]) hndr hrest, hre]
    case neg =>
    rw [if_neg h1] at hc ⊢
    by_cases h2 : (child.tag == "libraries") = true
    case pos =>
      rw [if_pos h2] at hc ⊢
      have hf : (fun sec => (merge_xml_libraries sec child).map (fun x => (x, ()))) (create_child "libraries") = Except.ok (child, ()) := by
        dsimp only
        rw [libraries_id child (beq_iff_eq.mp h2) hc]
        rfl
      rw [with_child_not_found (Xml.node "board" [] pre "") "libraries" _ child ()
        (pre_tag_free pre child rest "libraries" hnd h2) hf]
      dsimp only
      simp only [Xml.tag, Xml.attrs, Xml.children, Xml.tail]
      rw [ih (pre ++ [child]) hndr hrest, hre]
    case neg =>
    rw [if_neg h2] at hc ⊢
    by_cases h3 : (child.tag == "attributes") = true
    case pos =>
      rw [if_pos h3] at hc ⊢
      rw [sync_child_error_absent (Xml.node "board" [] pre "") "attributes" child "Unsupported difference"
        (find_child_none_of_tags _ _ (pre_tag_free pre child rest "attributes" hnd h3))]
      dsimp only
      rw [hstep, ih (pre ++ [child]) hndr hrest, hre]
    case neg =>
    rw [if_neg h3] at hc ⊢
    by_cases h4 : (child.tag == "variantdefs") = true
    case pos =>
      rw [if_pos h4] at hc ⊢
      rw [sync_child_error_absent (Xml.node "board" [] pre "") "variantdefs" child "Unsupported difference"
        (find_child_none_of_tags _ _ (pre_tag_free pre child rest "variantdefs" hnd h4))]
      dsimp only
      rw [hstep, ih (pre ++ [child]) hndr hrest, hre]
    case neg =>
    rw [if_neg h4] at hc ⊢
    by_cases h5 : (child.tag == "classes") = true
    case pos =>
      rw [if_pos h5] at hc ⊢
      rw [sync_child_error_absent (Xml.node "board" [] pre "") "classes" child "Unsupported difference"
        (find_child_none_of_tags _ _ (pre_tag_free pre child rest "classes" hnd h5))]
      dsimp only
      rw [hstep, ih (pre ++ [child]) hndr hrest, hre]
    case neg =>
    rw [if_neg h5] at hc ⊢
    by_cases h6 : (child.tag == "designrules") = true
    case pos =>
      rw [if_pos h6] at hc ⊢
      rw [sync_child_error_absent (Xml.node "board" [] pre "") "designrules" child "Design rules must be equivalent"
        (find_child_none_of_tags _ _ (pre_tag_free pre child rest "designrules" hnd h6))]
      dsimp only
      rw [hstep, ih (pre ++ [child]) hndr hrest, hre]
    case neg =>
    rw [if_neg h6] at hc ⊢
    by_cases h7 : (child.tag == "autorouter") = true
    case pos =>
      rw [if_pos h7] at hc ⊢
      rw [sync_child_absent (Xml.node "board" [] pre "") "autorouter" child
        (find_child_none_of_tags _ _ (pre_tag_free pre child rest "autorouter" hnd h7))]
      rw [hstep, ih (pre ++ [child]) hndr hrest, hre]
    case neg =>
    rw [if_neg h7] at hc ⊢
    by_cases h8 : (child.tag == "elements") = true
    case pos =>
      rw [if_pos h8] at hc ⊢
      have hf : (fun sec => append_xml_elements sec child [] infile_id) (create_child "elements") = Except.ok (child, ([] : RenameMap)) := by
        dsimp only
        exact elements_id child [] (beq_iff_eq.mp h8) hc
      rw [with_child_not_found (Xml.node "board" [] pre "") "elements" _ child ([] : RenameMap)
        (pre_tag_free pre child rest "elements" hnd h8) hf]
      dsimp only
      simp only [Xml.tag, Xml.attrs, Xml.children, Xml.tail]
      rw [ih (pre ++ [child]) hndr hrest, hre]
    case neg =>
    rw [if_neg h8] at hc ⊢
    by_cases h9 : (child.tag == "signals") = true
    case pos =>
      rw [if_pos h9] at hc ⊢
      have hf : (fun sec => (append_xml_signals sec child [] infile_id).map (fun x => (x, ()))) (create_child "signals") = Except.ok (child, ()) := by
        dsimp only
        rw [signals_id child (beq_iff_eq.mp h9) hc]
        rfl
      rw [with_child_not_found (Xml.node "board" [] pre "") "signals" _ child ()
        (pre_tag_free pre child rest "signals" hnd h9) hf]
      dsimp only
      simp only [Xml.tag, Xml.attrs, Xml.children, Xml.tail]
      rw [ih (pre ++ [child]) hndr hrest, hre]
    case neg =>
    rw [if_neg h9] at hc ⊢
    by_cases h10 : (child.tag == "errors") = true
    case pos =>
      rw [if_pos h10] at hc ⊢
      have heq : child = create_child "errors" := of_decide_eq_true hc
      subst heq
      have hf : (fun sec => (append_xml_errors sec (create_child "errors") infile_id).map
          (fun x => (x, ()))) (create_child "errors") =
          Except.ok (create_child "errors", ()) := rfl
      rw [with_child_not_found (Xml.node "board" [] pre "") "errors" _ (create_child "errors") ()
        (pre_tag_free pre (create_child "errors") rest "errors" hnd h10) hf]
      dsimp only
      simp only [Xml.tag, Xml.attrs, Xml.children, Xml.tail]
      rw [ih (pre ++ [create_child "errors"]) hndr hrest, hre]
    case neg =>
    rw [if_neg h10] at hc ⊢
    cases hc

theorem board_id (b : Xml) (ht : b.tag = "board") (h : board_canon b = true) :
    merge_xml_board (create_child "board") b infile_id = .ok b := by
  obtain ⟨t, a, cs, tl⟩ := b
  simp only [Xml.tag] at ht
  subst ht
  unfold board_canon at h
  simp only [Xml.attrs, Xml.tail, Xml.children] at h
  rw [Bool.and_eq_true, Bool.and_eq_true, Bool.and_eq_true] at h
  obtain ⟨⟨⟨ha, htl⟩, hcs⟩, hnd⟩ := h
  have ha' : a = [] := by
    cases a with
    | nil => rfl
    | cons p ps => simp [List.isEmpty] at ha
  have htl' : tl = "" := beq_iff_eq.mp htl
  subst ha'
  subst htl'
  unfold merge_xml_board
  simp only [Xml.children, Xml.attrs]
  rw [show (create_child "board") = Xml.node "board" [] [] "" from rfl]
  rw [board_children_id cs []
    (by rw [List.nil_append]; exact of_decide_eq_true hnd) hcs]
  rw [List.nil_append]
  rfl

/-- Canonical drawing child, by tag. -/
def drawing_child_canon (c : Xml) : Bool :=
  if c.tag == "settings" then settings_canon c
  else if c.tag == "grid" then true
  else if c.tag == "layers" then layers_canon c
  else if c.tag == "board" then board_canon c
  else false

/-- Canonical `drawing` section: no attributes, no trailing text, pairwise
distinct child tags, every child canonical for its tag. -/
def drawing_canon (d : Xml) : Bool :=
  d.attrs.isEmpty && (d.tail == "") && d.children.all drawing_child_canon &&
  decide ((d.children.map Xml.tag).Nodup)

theorem drawing_children_id :
    ∀ (cs pre : List Xml),
    ((pre ++ cs).map Xml.tag).Nodup →
    cs.all drawing_child_canon = true →
    merge_drawing_children (.node "drawing" [] pre "") infile_id cs =
      .ok (.node "drawing" [] (pre ++ cs) "", []) := by
  intro cs
  induction cs with
  | nil =>
    intro pre _ _
    rw [List.append_nil]
    rfl
  | cons child rest ih =>
    intro pre hnd hall
    rw [List.all_cons, Bool.and_eq_true] at hall
    obtain ⟨hc, hrest⟩ := hall
    unfold drawing_child_canon at hc
    unfold merge_drawing_children
    have hre : (pre ++ [child]) ++ rest = pre ++ child :: rest := by
      rw [List.append_assoc, List.singleton_append]
    have hndr : (((pre ++ [child]) ++ rest).map Xml.tag).Nodup := by
      rw [hre]
      exact hnd
    have hstep : append_child (Xml.node "drawing" [] pre "") child =
        Xml.node "drawing" [] (pre ++ [child]) "" := rfl
    by_cases h1 : (child.tag == "settings") = true
    case pos =>
      rw [if_pos h1] at hc ⊢
      have hf : (fun sec => merge_xml_settings sec child) (create_child "settings") =
          Except.ok (child, ([] : List Warn)) := by
        dsimp only
        exact settings_id child (beq_iff_eq.mp h1) hc
      rw [with_child_not_found (Xml.node "drawing" [] pre "") "settings" _ child
        ([] : List Warn) (pre_tag_free pre child rest "settings" hnd h1) hf]
      dsimp only
      simp only [Xml.tag, Xml.attrs, Xml.children, Xml.tail]
      rw [ih (pre ++ [child]) hndr hrest]
      dsimp only
      rw [hre]
      rfl
    case neg =>
    rw [if_neg h1] at hc ⊢
    by_cases h2 : (child.tag == "grid") = true
    case pos =>
      rw [if_pos h2] at hc ⊢
      rw [sync_child_absent (Xml.node "drawing" [] pre "") "grid" child
        (find_child_none_of_tags _ _ (pre_tag_free pre child rest "grid" hnd h2))]
      rw [hstep, ih (pre ++ [child]) hndr hrest, hre]
    case neg =>
    rw [if_neg h2] at hc ⊢
    by_cases h3 : (child.tag == "layers") = true
    case pos =>
      rw [if_pos h3] at hc ⊢
      have hf : (fun sec => (merge_xml_layers sec child).map (fun x => (x, ())))
          (create_child "layers") = Except.ok (child, ()) := by
        dsimp only
        rw [layers_id child (beq_iff_eq.mp h3) hc]
        rfl
      rw [with_child_not_found (Xml.node "drawing" [] pre "") "layers" _ child ()
        (pre_tag_free pre child rest "layers" hnd h3) hf]
      dsimp only
      simp only [Xml.tag, Xml.attrs, Xml.children, Xml.tail]
      rw [ih (pre ++ [child]) hndr hrest, hre]
    case neg =>
    rw [if_neg h3] at hc ⊢
    by_cases h4 : (child.tag == "board") = true
    case pos =>
      rw [if_pos h4] at hc ⊢
      have hf : (fun sec => (merge_xml_board sec child infile_id).map (fun x => (x, ())))
          (create_child "board") = Except.ok (child, ()) := by
        dsimp only
        rw [board_id child (beq_iff_eq.mp h4) hc]
        rfl
      rw [with_child_not_found (Xml.node "drawing" [] pre "") "board" _ child ()
        (pre_tag_free pre child rest "board" hnd h4) hf]
      dsimp only
      simp only [Xml.tag, Xml.attrs, Xml.children, Xml.tail]
      rw [ih (pre ++ [child]) hndr hrest, hre]
    case neg =>
    rw [if_neg h4] at hc ⊢
    cases hc

theorem drawing_id (d : Xml) (ht : d.tag = "drawing") (h : drawing_canon d = true) :
    merge_xml_drawing (create_child "drawing") d infile_id = .ok (d, []) := by
  obtain ⟨t, a, cs, tl⟩ := d
  simp only [Xml.tag] at ht
  subst ht
  unfold drawing_canon at h
  simp only [Xml.attrs, Xml.tail, Xml.children] at h
  rw [Bool.and_eq_true, Bool.and_eq_true, Bool.and_eq_true] at h
  obtain ⟨⟨⟨ha, htl⟩, hcs⟩, hnd⟩ := h
  have ha' : a = [] := by
    cases a with
    | nil => rfl
    | cons p ps => simp [List.isEmpty] at ha
  have htl' : tl = "" := beq_iff_eq.mp htl
  subst ha'
  subst htl'
  unfold merge_xml_drawing
  simp only [Xml.children, Xml.attrs]
  rw [show (create_child "drawing") = Xml.node "drawing" [] [] "" from rfl]
  rw [drawing_children_id cs []
    (by rw [List.nil_append]; exact of_decide_eq_true hnd) hcs]
  rw [List.nil_append]
  rfl

/-- Canonical single-input document: an `eagle` root with no trailing text,
at most a `version` attribute, and at most one child — a canonical
`drawing`. -/
def canonical_single_input (doc : Xml) : Bool :=
  (doc.tag == "eagle") && (doc.tail == "") &&
  (match doc.attrs with
   | [] => true
   | [(k, _)] => k == "version"
   | _ => false) &&
  (match doc.children with
   | [] => true
   | [d] => (d.tag == "drawing") && drawing_canon d
   | _ => false)

theorem merge_single_canonical (doc : Xml) (h : canonical_single_input doc = true) :
    merge_all [(doc, infile_id)] = .ok (doc, []) := by
  obtain ⟨t, a, cs, tl⟩ := doc
  unfold canonical_single_input at h
  simp only [Xml.tag, Xml.tail, Xml.attrs, Xml.children] at h
  rw [Bool.and_eq_true, Bool.and_eq_true, Bool.and_eq_true] at h
  obtain ⟨⟨⟨htag, htl⟩, hattr⟩, hch⟩ := h
  have ht' : t = "eagle" := beq_iff_eq.mp htag
  have htl' : tl = "" := beq_iff_eq.mp htl
  subst ht'
  subst htl'
  have hver : merge_version_attrs empty_eagle (Xml.node "eagle" a cs "") a =
      .ok (Xml.node "eagle" a [] "") := by
    match a, hattr with
    | [], _ => rfl
    | [(k, v)], hattr =>
      have hk : k = "version" := beq_iff_eq.mp hattr
      subst hk
      rfl
  have hkids : merge_eagle_children (Xml.node "eagle" a [] "") infile_id cs =
      .ok (Xml.node "eagle" a cs "", []) := by
    match cs, hch with
    | [], _ => rfl
    | [d], hch =>
      rw [Bool.and_eq_true] at hch
      have hd1 : (d.tag == "drawing") = true := hch.1
      unfold merge_eagle_children
      rw [if_pos hd1]
      have hf : (fun sec => merge_xml_drawing sec d infile_id) (create_child "drawing") =
          Except.ok (d, ([] : List Warn)) := by
        dsimp only
        exact drawing_id d (beq_iff_eq.mp hd1) hch.2
      rw [with_child_not_found (Xml.node "eagle" a [] "") "drawing" _ d ([] : List Warn)
        (by intro x hx; cases hx) hf]
      rfl
  have heagle : merge_xml_eagle empty_eagle (Xml.node "eagle" a cs "") infile_id =
      .ok (Xml.node "eagle" a cs "", []) := by
    unfold merge_xml_eagle
    rw [if_pos (show ((empty_eagle.tag == "eagle")
      && ((Xml.node "eagle" a cs "").tag == "eagle")) = true from rfl)]
    rw [show (Xml.node "eagle" a cs "").attrs = a from rfl, hver]
    dsimp only
    rw [show (Xml.node "eagle" a cs "").children = cs from rfl, hkids]
  unfold merge_all merge_all_from
  rw [heagle]
  rfl

/-- A single well-formed input the identity merge distorts: a `text` node in
`plain` carrying `rot=""` (which Eagle files may carry and the merger
accepts, reading it as 0 degrees). -/
def docC1 : Xml :=
  .node "eagle" [("version", "6.5.0")]
    [.node "drawing" []
      [.node "board" []
        [.node "plain" []
          [.node "text" [("x", "0.0"), ("y", "0.0"), ("rot", "")] [] ""] ""] ""] ""] ""

/-- What merging `docC1` alone actually produces: the empty `rot` is
rewritten to the canonical `R0` spelling. -/
def docC1out : Xml :=
  .node "eagle" [("version", "6.5.0")]
    [.node "drawing" []
      [.node "board" []
        [.node "plain" []
          [.node "text" [("x", "0.0"), ("y", "0.0"), ("rot", "R0")] [] ""] ""] ""] ""] ""

/-- C1 counterexample: merging `docC1` alone with rotation 0 and zero
offsets succeeds without warnings and keeps the root `version` attribute,
yet the output is not comparator-EQUAL to the input: the empty `rot`
attribute is rewritten to `R0`, and the comparator orders the two trees
strictly. -/
theorem c1_counterexample :
    merge_all [(docC1, infile_id)] = .ok (docC1out, [])
    ∧ docC1out.get "version" = docC1.get "version"
    ∧ xml_tree_compare docC1out docC1 = 1 := by
  refine ⟨by decide, by decide, by decide⟩

/-- C1 (corrected): merging exactly one input with rotation 0 and offsets
(0,0) reproduces the input up to comparator-EQUALity (indeed verbatim, with
no warnings) for canonical input documents — at most a `version` root
attribute, a canonical `drawing` child (distinct section tags; at most one
childless `setting`; layers with pairwise distinct `number`s; board sections
with pairwise distinct child tags and, for libraries/elements/signals,
pairwise distinct `name`s; an empty `errors` section; coordinates that
re-print to themselves and `rot` attributes already in canonical spelling).
It does not hold for every well-formed input: see the counterexample, where
an accepted document with `rot=""` is rewritten. -/
theorem c1_identity_merge (doc : Xml) (h : canonical_single_input doc = true) :
    ∃ out ws, merge_all [(doc, infile_id)] = .ok (out, ws)
      ∧ ws = [] ∧ xml_tree_compare out doc = 0 :=
  ⟨doc, [], merge_single_canonical doc h, rfl, xml_tree_compare_self doc⟩

/-- A concrete canonical document exercising every board section. -/
def docC1W : Xml :=
  .node "eagle" [("version", "6.5.0")]
    [.node "drawing" []
      [.node "settings" [] [.node "setting" [("alwaysvectorfont", "no")] [] ""] "",
       .node "layers" []
        [.node "layer" [("number", "1"), ("name", "Top")] [] "",
         .node "layer" [("number", "16"), ("name", "Bottom")] [] ""] "",
       .node "board" []
        [.node "plain" []
          [.node "wire" [("x1", "0.0"), ("y1", "0.0"), ("x2", "1.5"),
            ("y2", "2.5"), ("width", "0.1")] [] ""] "",
         .node "libraries" [] [.node "library" [("name", "lib1")] [] ""] "",
         .node "elements" []
          [.node "element" [("name", "R1"), ("x", "0.0"), ("y", "0.0"),
            ("rot", "R90")] [] "",
           .node "element" [("name", "R2"), ("x", "1.5"), ("y", "2.5")] [] ""] "",
         .node "signals" []
          [.node "signal" [("name", "GND")]
            [.node "contactref" [("element", "R1"), ("pad", "1")] [] ""] ""] "",
         .node "errors" [] [] ""] ""] ""] ""

theorem c1_identity_merge_witness :
    canonical_single_input docC1W = true
    ∧ ∃ out ws, merge_all [(docC1W, infile_id)] = .ok (out, ws)
      ∧ ws = [] ∧ xml_tree_compare out docC1W = 0 :=
  ⟨by decide, c1_identity_merge docC1W (by decide)⟩
